import Mathlib

/-!
# HydraSDR receiver driver: streaming pipeline, sample conversion, gain curves

A shallow embedding of `libhydrasdr/hydrasdr.c`.  C arrays are functions from
their index type, machine integers are `Nat`/`Int` with explicit wrap-around,
and the pieces of code that run inside one critical section of the pool mutex
are the atomic steps of the pipeline.
-/

namespace HydraSDR

/-! ## Data model -/

/-- Depth of the ready ring, `RAW_BUFFER_COUNT`. -/
def RAW_BUFFER_COUNT : Int := 8

/-- The C `enum hydrasdr_sample_type`. -/
inductive hydrasdr_sample_type where
  | FLOAT32_IQ
  | FLOAT32_REAL
  | INT16_IQ
  | INT16_REAL
  | UINT16_REAL
  | RAW
  | END
deriving DecidableEq, Repr

/-- The macro `SAMPLE_TYPE_IS_IQ`. -/
def SAMPLE_TYPE_IS_IQ (x : hydrasdr_sample_type) : Bool :=
  x == hydrasdr_sample_type.FLOAT32_IQ || x == hydrasdr_sample_type.INT16_IQ

/-- The fields of `hydrasdr_device_t` that the streaming pipeline reads or
writes.  `β` is the type of a raw sample buffer (what a `uint16_t *` of the
ring points to); the two queues are the C arrays of `RAW_BUFFER_COUNT`
entries, indexed by the `int` head and tail. -/
structure hydrasdr_device (β : Type) where
  streaming : Bool
  stop_requested : Bool
  buffer_size : Nat
  dropped_buffers : Nat
  dropped_buffers_queue : Int → Nat
  received_samples_queue : Int → β
  received_samples_queue_head : Int
  received_samples_queue_tail : Int
  received_buffer_count : Int
  packing_enabled : Bool
  sample_type : hydrasdr_sample_type

/-- The fields of `struct libusb_transfer` the completion callback looks at;
`completed` stands for `status == LIBUSB_TRANSFER_COMPLETED`. -/
structure libusb_transfer (β : Type) where
  completed : Bool
  actual_length : Int
  length : Int
  buffer : β

/-- The sample block handed to the user callback (`hydrasdr_transfer_t`);
`samples` is the raw ring buffer the block was decoded from. -/
structure hydrasdr_transfer (β : Type) where
  samples : β
  sample_count : Nat
  dropped_samples : Nat
  sample_type : hydrasdr_sample_type
deriving DecidableEq

/-! ## Producer: the USB completion callback -/

/-- Which branch of the completion callback was taken. -/
inductive Completion where
  | ignored
  | enqueued
  | dropped
  | failed
deriving DecidableEq, Repr

/-- The result of one run of the completion callback: the device, the
transfer (its buffer pointer may have been swapped), the branch taken and
whether `libusb_submit_transfer` was called again. -/
structure CallbackResult (β : Type) where
  device : hydrasdr_device β
  transfer : libusb_transfer β
  outcome : Completion
  resubmitted : Bool

/-- The function `hydrasdr_libusb_transfer_callback`.  `submit_ok` is the
answer of `libusb_submit_transfer` should the callback resubmit. -/
def hydrasdr_libusb_transfer_callback {β : Type} (submit_ok : Bool)
    (t : libusb_transfer β) (d : hydrasdr_device β) : CallbackResult β :=
  if !d.streaming || d.stop_requested then
    { device := d, transfer := t, outcome := Completion.ignored, resubmitted := false }
  else if t.completed && t.actual_length == t.length then
    if d.received_buffer_count < RAW_BUFFER_COUNT then
      let temp := d.received_samples_queue d.received_samples_queue_head
      let d1 : hydrasdr_device β :=
        { d with
          received_samples_queue :=
            Function.update d.received_samples_queue d.received_samples_queue_head t.buffer
          dropped_buffers_queue :=
            Function.update d.dropped_buffers_queue d.received_samples_queue_head d.dropped_buffers
          dropped_buffers := 0
          received_samples_queue_head :=
            Int.land (d.received_samples_queue_head + 1) (RAW_BUFFER_COUNT - 1)
          received_buffer_count := d.received_buffer_count + 1 }
      { device := if submit_ok then d1 else { d1 with streaming := false }
        transfer := { t with buffer := temp }
        outcome := Completion.enqueued
        resubmitted := true }
    else
      let d1 : hydrasdr_device β :=
        { d with dropped_buffers := (d.dropped_buffers + 1) % 2 ^ 32 }
      { device := if submit_ok then d1 else { d1 with streaming := false }
        transfer := t
        outcome := Completion.dropped
        resubmitted := true }
  else
    { device := { d with streaming := false }, transfer := t
      outcome := Completion.failed, resubmitted := false }

/-! ## Consumer thread -/

/-- Number of 16-bit samples the consumer decodes from one raw buffer
(`consumer_threadproc`, the `packing_enabled` branch): the arithmetic is
done in `uint32_t`. -/
def decoded_sample_count {β : Type} (d : hydrasdr_device β) : Nat :=
  if d.packing_enabled then ((d.buffer_size / 2) * 4 % 2 ^ 32) / 3
  else d.buffer_size / 2

/-- The value of `sample_count` after the `switch` on the sample type: the
two IQ cases end with `sample_count /= 2`. -/
def delivered_sample_count {β : Type} (d : hydrasdr_device β) : Nat :=
  match d.sample_type with
  | hydrasdr_sample_type.FLOAT32_IQ => decoded_sample_count d / 2
  | hydrasdr_sample_type.INT16_IQ => decoded_sample_count d / 2
  | _ => decoded_sample_count d

/-- The block the consumer builds for a dequeued buffer and its drop
snapshot; `dropped_samples` is a product of two `uint64_t`. -/
def consumer_block {β : Type} (d : hydrasdr_device β) (input_samples : β)
    (dropped_buffers : Nat) : hydrasdr_transfer β :=
  { samples := input_samples
    sample_count := delivered_sample_count d
    dropped_samples := (dropped_buffers * delivered_sample_count d) % 2 ^ 64
    sample_type := d.sample_type }

/-- Where the consumer thread stands: at the top of its loop (possibly
blocked in `pthread_cond_wait`), between the dequeue and the return of the
user callback (holding the locals `input_samples` and `dropped_buffers`),
after the callback returned and before the filled count is decremented, or
after the loop. -/
inductive Consumer (β : Type) where
  | waiting
  | processing (input_samples : β) (dropped_buffers : Nat)
  | returned
  | exited

/-- Lines 389-404 of `consumer_threadproc`, run with the mutex held: the loop
test, the wait test and the dequeue.  A consumer that finds the ring empty
stays where it is. -/
def consumer_dequeue {β : Type} (d : hydrasdr_device β) : hydrasdr_device β × Consumer β :=
  if d.streaming && !d.stop_requested then
    if d.received_buffer_count == 0 then (d, Consumer.waiting)
    else
      let input_samples := d.received_samples_queue d.received_samples_queue_tail
      let dropped_buffers := d.dropped_buffers_queue d.received_samples_queue_tail
      ({ d with received_samples_queue_tail :=
            Int.land (d.received_samples_queue_tail + 1) (RAW_BUFFER_COUNT - 1) },
        Consumer.processing input_samples dropped_buffers)
  else ({ d with streaming := false }, Consumer.exited)

/-- Lines 464-467: the user callback has returned `ret`. -/
def consumer_callback_return {β : Type} (ret : Int) (d : hydrasdr_device β) :
    hydrasdr_device β :=
  if ret != 0 then { d with streaming := false } else d

/-- Lines 469-470: the buffer is released under the mutex. -/
def consumer_release {β : Type} (d : hydrasdr_device β) : hydrasdr_device β :=
  { d with received_buffer_count := d.received_buffer_count - 1 }

/-! ## Sample unpacking and conversion -/

/-- `SAMPLE_RESOLUTION`. -/
def SAMPLE_RESOLUTION : Nat := 12

/-- `SAMPLE_ENCAPSULATION`. -/
def SAMPLE_ENCAPSULATION : Nat := 16

/-- `SAMPLE_SHIFT`. -/
def SAMPLE_SHIFT : Nat := SAMPLE_ENCAPSULATION - SAMPLE_RESOLUTION

/-- Storing an `int` into an `int16_t`: the value modulo 2^16, read as a
two's complement number. -/
def to_int16 (x : Int) : Int := (x + 32768) % 65536 - 32768

/-- Storing an unsigned value into a `uint16_t`. -/
def to_uint16 (x : Nat) : Nat := x % 65536

/-- The right-hand side `(src[i] - 2048) << SAMPLE_SHIFT` of
`convert_samples_int16` as it is stored into `dest[i]`; the `uint16_t`
sample is promoted to `int`. -/
def int16_sample (s : Nat) : Int :=
  to_int16 (((s : Int) - 2048) <<< (SAMPLE_SHIFT : Int))

/-- The loop `for (i = 0; i < count; i += 4)` that `convert_samples_int16`
and `convert_samples_float` share: each turn stores the converted samples
`i`, `i + 1`, `i + 2`, `i + 3`.  `fuel` bounds the number of turns. -/
def convert_loop {α : Type} (cvt : Nat → α) (src : Nat → Nat) (count : Nat) :
    Nat → Nat → (Nat → α) → (Nat → α)
  | 0, _, dest => dest
  | fuel + 1, i, dest =>
    if i < count then
      let dest0 := Function.update dest (i + 0) (cvt (src (i + 0)))
      let dest1 := Function.update dest0 (i + 1) (cvt (src (i + 1)))
      let dest2 := Function.update dest1 (i + 2) (cvt (src (i + 2)))
      let dest3 := Function.update dest2 (i + 3) (cvt (src (i + 3)))
      convert_loop cvt src count fuel (i + 4) dest3
    else dest

/-- The function `convert_samples_int16`; `count` turns are more than the
loop can take. -/
def convert_samples_int16 (src : Nat → Nat) (dest : Nat → Int) (count : Nat) : Nat → Int :=
  convert_loop int16_sample src count count 0 dest

/-- IEEE 754 binary32 arithmetic on rationals: the exact result of an
operation is rounded to the nearest number `m * 2 ^ e` with a 24-bit
significand `m` and `e ≥ -149`, ties going to the even significand.  The
overflow to infinity above `2 ^ 128` is left out; no value of the
conversion comes near it. -/
def binary32_round (q : ℚ) : ℚ :=
  if q = 0 then 0
  else
    let e : ℤ := max (Int.log 2 |q| - 23) (-149)
    let x : ℚ := q / 2 ^ e
    let f : ℤ := ⌊x⌋
    let m : ℤ :=
      if x - f < 1 / 2 then f
      else if 1 / 2 < x - f then f + 1
      else if f % 2 = 0 then f
      else f + 1
    m * 2 ^ e

/-- `SAMPLE_SCALE`, the `float` constant `1.0f / (1 << (15 - SAMPLE_SHIFT))`:
the `int` divisor is converted to `float` and the quotient is rounded. -/
def SAMPLE_SCALE : ℚ :=
  binary32_round
    (binary32_round 1 / binary32_round (((1 <<< (15 - SAMPLE_SHIFT) : Nat) : ℤ) : ℚ))

/-- The right-hand side `(src[i] - 2048) * SAMPLE_SCALE` of
`convert_samples_float`: the `int` difference is converted to `float`, the
product is a `float` product. -/
def float_sample (s : Nat) : ℚ :=
  binary32_round (binary32_round ((((s : ℤ) - 2048 : ℤ) : ℚ)) * SAMPLE_SCALE)

/-- The function `convert_samples_float`. -/
def convert_samples_float (src : Nat → Nat) (dest : Nat → ℚ) (count : Nat) : Nat → ℚ :=
  convert_loop float_sample src count count 0 dest

/-- The loop `for (i = 0, j = 0; j < length; i += 3, j += 8)` of
`unpack_samples` over `uint32_t` input words and `uint16_t` outputs; `fuel`
bounds the number of turns. -/
def unpack_loop (input : Nat → Nat) (length : Nat) :
    Nat → Nat → Nat → (Nat → Nat) → (Nat → Nat)
  | 0, _, _, output => output
  | fuel + 1, i, j, output =>
    if j < length then
      let o0 := Function.update output (j + 0) (to_uint16 ((input i >>> 20) &&& 0xfff))
      let o1 := Function.update o0 (j + 1) (to_uint16 ((input i >>> 8) &&& 0xfff))
      let o2 := Function.update o1 (j + 2)
        (to_uint16 (((input i &&& 0xff) <<< 4) ||| ((input (i + 1) >>> 28) &&& 0xf)))
      let o3 := Function.update o2 (j + 3) (to_uint16 ((input (i + 1) &&& 0xfff0000) >>> 16))
      let o4 := Function.update o3 (j + 4) (to_uint16 ((input (i + 1) &&& 0xfff0) >>> 4))
      let o5 := Function.update o4 (j + 5)
        (to_uint16 (((input (i + 1) &&& 0xf) <<< 8) ||| ((input (i + 2) &&& 0xff000000) >>> 24)))
      let o6 := Function.update o5 (j + 6) (to_uint16 ((input (i + 2) >>> 12) &&& 0xfff))
      let o7 := Function.update o6 (j + 7) (to_uint16 (input (i + 2) &&& 0xfff))
      unpack_loop input length fuel (i + 3) (j + 8) o7
    else output

/-- The function `unpack_samples`; `length` turns are more than the loop can
take. -/
def unpack_samples (input : Nat → Nat) (output : Nat → Nat) (length : Nat) : Nat → Nat :=
  unpack_loop input length length 0 0 output

/-- The samples a block points to, by element type. -/
inductive sample_data where
  | uint16 (v : Nat → Nat)
  | int16 (v : Nat → Int)
  | float32 (v : Nat → ℚ)

/-- The two IQ converters of the device, an external collaborator: what
`iqconverter_float_process` and `iqconverter_int16_process`, called with the
filter state of the moment, leave in the buffer they are given. -/
structure iq_converters where
  float_process : (Nat → ℚ) → Nat → (Nat → ℚ)
  int16_process : (Nat → Int) → Nat → (Nat → Int)

/-- The working buffers of the device before a block is decoded:
`output_buffer`, seen as `float` or as `int16_t` entries, and
`unpacked_samples`. -/
structure work_buffers where
  output_float : Nat → ℚ
  output_int16 : Nat → Int
  unpacked_samples : Nat → Nat

/-- The cast `(uint32_t*)input_samples` on a little-endian host: word `i` is
made of the 16-bit entries `2 i` (low half) and `2 i + 1` (high half). -/
def as_uint32 (buf : Nat → Nat) (i : Nat) : Nat :=
  buf (2 * i) % 65536 + 65536 * (buf (2 * i + 1) % 65536)

/-- What the consumer hands to the callback for one raw buffer: the decoded
samples (none where the code leaves `transfer.samples` unset) and
`sample_count`. -/
structure decoded_block where
  samples : Option sample_data
  sample_count : Nat

/-- Lines 406-456 of `consumer_threadproc`: unpack if packing is enabled and
the type is not raw, then the `switch` on the sample type. -/
def consumer_process {β : Type} (cnv : iq_converters) (w : work_buffers)
    (d : hydrasdr_device β) (input_samples : Nat → Nat) : decoded_block :=
  let sample_count := decoded_sample_count d
  let input_samples :=
    if d.packing_enabled && d.sample_type != hydrasdr_sample_type.RAW then
      unpack_samples (as_uint32 input_samples) w.unpacked_samples sample_count
    else input_samples
  match d.sample_type with
  | hydrasdr_sample_type.FLOAT32_IQ =>
    { samples := some (sample_data.float32 (cnv.float_process
        (convert_samples_float input_samples w.output_float sample_count) sample_count))
      sample_count := sample_count / 2 }
  | hydrasdr_sample_type.FLOAT32_REAL =>
    { samples := some (sample_data.float32
        (convert_samples_float input_samples w.output_float sample_count))
      sample_count := sample_count }
  | hydrasdr_sample_type.INT16_IQ =>
    { samples := some (sample_data.int16 (cnv.int16_process
        (convert_samples_int16 input_samples w.output_int16 sample_count) sample_count))
      sample_count := sample_count / 2 }
  | hydrasdr_sample_type.INT16_REAL =>
    { samples := some (sample_data.int16
        (convert_samples_int16 input_samples w.output_int16 sample_count))
      sample_count := sample_count }
  | hydrasdr_sample_type.UINT16_REAL =>
    { samples := some (sample_data.uint16 input_samples), sample_count := sample_count }
  | hydrasdr_sample_type.RAW =>
    { samples := some (sample_data.uint16 input_samples), sample_count := sample_count }
  | hydrasdr_sample_type.END => { samples := none, sample_count := sample_count }

/-- The decoded sample count `N` of the specification: `buffer_size / 2`,
or `((buffer_size / 2) * 4) / 3` with packing, in exact arithmetic. -/
def nominal_sample_count (buffer_size : Nat) (packing_enabled : Bool) : Nat :=
  if packing_enabled then buffer_size / 2 * 4 / 3 else buffer_size / 2

/-! ## Control transfers and gain curves -/

/-- `HYDRASDR_SUCCESS`. -/
def HYDRASDR_SUCCESS : Int := 0

/-- `HYDRASDR_ERROR_LIBUSB`. -/
def HYDRASDR_ERROR_LIBUSB : Int := -1000

/-- Vendor request `HYDRASDR_SET_LNA_GAIN` (`hydrasdr_commands.h`). -/
def HYDRASDR_SET_LNA_GAIN : Nat := 14

/-- Vendor request `HYDRASDR_SET_MIXER_GAIN`. -/
def HYDRASDR_SET_MIXER_GAIN : Nat := 15

/-- Vendor request `HYDRASDR_SET_VGA_GAIN`. -/
def HYDRASDR_SET_VGA_GAIN : Nat := 16

/-- Vendor request `HYDRASDR_SET_LNA_AGC`. -/
def HYDRASDR_SET_LNA_AGC : Nat := 17

/-- Vendor request `HYDRASDR_SET_MIXER_AGC`. -/
def HYDRASDR_SET_MIXER_AGC : Nat := 18

/-- `GAIN_COUNT`. -/
def GAIN_COUNT : Nat := 22

/-- Table `hydrasdr_linearity_vga_gains`. -/
def hydrasdr_linearity_vga_gains : List Nat :=
  [13, 12, 11, 11, 11, 11, 11, 10, 10, 10, 10, 10, 10, 10, 10, 10, 9, 8, 7, 6, 5, 4]

/-- Table `hydrasdr_linearity_mixer_gains`. -/
def hydrasdr_linearity_mixer_gains : List Nat :=
  [12, 12, 11, 9, 8, 7, 6, 6, 5, 0, 0, 1, 0, 0, 2, 2, 1, 1, 1, 1, 0, 0]

/-- Table `hydrasdr_linearity_lna_gains`. -/
def hydrasdr_linearity_lna_gains : List Nat :=
  [14, 14, 14, 13, 12, 10, 9, 9, 8, 9, 8, 6, 5, 3, 1, 0, 0, 0, 0, 0, 0, 0]

/-- Table `hydrasdr_sensitivity_vga_gains`. -/
def hydrasdr_sensitivity_vga_gains : List Nat :=
  [13, 12, 11, 10, 9, 8, 7, 6, 5, 5, 5, 5, 5, 4, 4, 4, 4, 4, 4, 4, 4, 4]

/-- Table `hydrasdr_sensitivity_mixer_gains`. -/
def hydrasdr_sensitivity_mixer_gains : List Nat :=
  [12, 12, 12, 12, 11, 10, 10, 9, 9, 8, 7, 4, 4, 4, 3, 2, 2, 1, 0, 0, 0, 0]

/-- Table `hydrasdr_sensitivity_lna_gains`. -/
def hydrasdr_sensitivity_lna_gains : List Nat :=
  [14, 14, 14, 14, 14, 14, 14, 14, 14, 13, 12, 12, 9, 9, 8, 7, 6, 5, 3, 2, 1, 0]

/-- One vendor control transfer as it goes out on the control endpoint:
`bRequest`, `wValue`, `wIndex`. -/
structure control_transfer where
  request : Nat
  value : Nat
  index : Nat
deriving DecidableEq, Repr

/-- The control endpoint of the device: the transfers issued so far, oldest
first, and what `libusb_control_transfer` returns for the `n`-th transfer
(the number of bytes transferred, or a negative libusb error). -/
structure usb_device where
  sent : List control_transfer
  reply : Nat → Int

/-- A call of `libusb_control_transfer`: the request goes out and the
answer of the device comes back. -/
def libusb_control_transfer (u : usb_device) (request value index : Nat) : usb_device × Int :=
  ({ u with sent := u.sent ++ [{ request := request, value := value, index := index }] },
    u.reply u.sent.length)

/-- The tail shared by the gain and AGC setters: `result < length` with
`length = 1` means failure. -/
def control_result (r : usb_device × Int) : usb_device × Int :=
  if r.2 < 1 then (r.1, HYDRASDR_ERROR_LIBUSB) else (r.1, HYDRASDR_SUCCESS)

/-- The function `hydrasdr_set_lna_gain`; `value` is a `uint8_t`. -/
def hydrasdr_set_lna_gain (u : usb_device) (value : Nat) : usb_device × Int :=
  let value := if value > 14 then 14 else value
  control_result (libusb_control_transfer u HYDRASDR_SET_LNA_GAIN 0 value)

/-- The function `hydrasdr_set_mixer_gain`. -/
def hydrasdr_set_mixer_gain (u : usb_device) (value : Nat) : usb_device × Int :=
  let value := if value > 15 then 15 else value
  control_result (libusb_control_transfer u HYDRASDR_SET_MIXER_GAIN 0 value)

/-- The function `hydrasdr_set_vga_gain`. -/
def hydrasdr_set_vga_gain (u : usb_device) (value : Nat) : usb_device × Int :=
  let value := if value > 15 then 15 else value
  control_result (libusb_control_transfer u HYDRASDR_SET_VGA_GAIN 0 value)

/-- The function `hydrasdr_set_lna_agc`. -/
def hydrasdr_set_lna_agc (u : usb_device) (value : Nat) : usb_device × Int :=
  control_result (libusb_control_transfer u HYDRASDR_SET_LNA_AGC 0 value)

/-- The function `hydrasdr_set_mixer_agc`. -/
def hydrasdr_set_mixer_agc (u : usb_device) (value : Nat) : usb_device × Int :=
  control_result (libusb_control_transfer u HYDRASDR_SET_MIXER_AGC 0 value)

/-- The body shared by `hydrasdr_set_linearity_gain` and
`hydrasdr_set_sensitivity_gain`, which differ in their three tables only:
clamp, invert, then the five sub-commands, each followed by
`if (rc < 0) return rc;`.  The index arithmetic is done on a `uint8_t`. -/
def set_curve_gain (vga mixer lna : List Nat) (u : usb_device) (value : Nat) :
    usb_device × Int :=
  let value := if value ≥ GAIN_COUNT then GAIN_COUNT - 1 else value
  let value := (GAIN_COUNT - 1 - value) % 256
  let r1 := hydrasdr_set_mixer_agc u 0
  if r1.2 < 0 then r1
  else
    let r2 := hydrasdr_set_lna_agc r1.1 0
    if r2.2 < 0 then r2
    else
      let r3 := hydrasdr_set_vga_gain r2.1 (vga.getD value 0)
      if r3.2 < 0 then r3
      else
        let r4 := hydrasdr_set_mixer_gain r3.1 (mixer.getD value 0)
        if r4.2 < 0 then r4
        else
          let r5 := hydrasdr_set_lna_gain r4.1 (lna.getD value 0)
          if r5.2 < 0 then r5
          else (r5.1, HYDRASDR_SUCCESS)

/-- The function `hydrasdr_set_linearity_gain`. -/
def hydrasdr_set_linearity_gain (u : usb_device) (value : Nat) : usb_device × Int :=
  set_curve_gain hydrasdr_linearity_vga_gains hydrasdr_linearity_mixer_gains
    hydrasdr_linearity_lna_gains u value

/-- The function `hydrasdr_set_sensitivity_gain`. -/
def hydrasdr_set_sensitivity_gain (u : usb_device) (value : Nat) : usb_device × Int :=
  set_curve_gain hydrasdr_sensitivity_vga_gains hydrasdr_sensitivity_mixer_gains
    hydrasdr_sensitivity_lna_gains u value

/-- The five control transfers a curve setting consists of, for the storage
index `k`: mixer AGC off, LNA AGC off, VGA, mixer and LNA gain. -/
def curve_commands (vga mixer lna : List Nat) (k : Nat) : List control_transfer :=
  [{ request := HYDRASDR_SET_MIXER_AGC, value := 0, index := 0 },
    { request := HYDRASDR_SET_LNA_AGC, value := 0, index := 0 },
    { request := HYDRASDR_SET_VGA_GAIN, value := 0, index := vga.getD k 0 },
    { request := HYDRASDR_SET_MIXER_GAIN, value := 0, index := mixer.getD k 0 },
    { request := HYDRASDR_SET_LNA_GAIN, value := 0, index := lna.getD k 0 }]

/-- A control endpoint that has seen no transfer and answers every transfer
with one byte. -/
def healthy_usb : usb_device := { sent := [], reply := fun _ => 1 }

/-- A control endpoint on which the transfer number `k` fails with
`LIBUSB_ERROR_IO` and every other one succeeds. -/
def failing_usb (k : Nat) : usb_device :=
  { sent := [], reply := fun n => if n = k then -1 else 1 }

/-! ## One streaming session as a transition system -/

/-- The atomic steps of a streaming session. -/
inductive Event (β : Type) where
  | completion (t : libusb_transfer β) (submit_ok : Bool)
  | consumer_wake
  | callback (ret : Int)
  | release
  | stop_request
  | kill_io
  | transfer_thread_exit

/-- A session: the device, the consumer thread and the history of the
session.  `enqueued` lists every buffer put into the ring with the true
number of completions dropped since the one before it, `dequeued` the
buffers and drop snapshots the consumer took out of the ring, `delivered`
the blocks the callback has been invoked with, all oldest first; `completed`
counts the full, successful completions handled while streaming, `dropped`
those of them that found the ring full, `drops_pending` the ones dropped
since the last enqueue. -/
structure Session (β : Type) where
  device : hydrasdr_device β
  consumer : Consumer β
  enqueued : List (β × Nat)
  dequeued : List (β × Nat)
  delivered : List (hydrasdr_transfer β)
  completed : Nat
  dropped : Nat
  drops_pending : Nat

/-- The session right after a successful `hydrasdr_start_rx`: drop counters
cleared, `streaming` set, the ring indices and the filled count zeroed
(`create_io_threads`), consumer thread at the top of its loop. -/
def Session.start {β : Type} (d : hydrasdr_device β) : Session β :=
  { device :=
      { d with
        streaming := true
        stop_requested := false
        dropped_buffers := 0
        dropped_buffers_queue := fun _ => 0
        received_samples_queue_head := 0
        received_samples_queue_tail := 0
        received_buffer_count := 0 }
    consumer := Consumer.waiting
    enqueued := []
    dequeued := []
    delivered := []
    completed := 0
    dropped := 0
    drops_pending := 0 }

/-- One step of the session. -/
def Session.step {β : Type} (s : Session β) : Event β → Session β
  | Event.completion t submit_ok =>
    let r := hydrasdr_libusb_transfer_callback submit_ok t s.device
    match r.outcome with
    | Completion.enqueued =>
      { s with
        device := r.device
        enqueued := s.enqueued ++ [(t.buffer, s.drops_pending)]
        completed := s.completed + 1
        drops_pending := 0 }
    | Completion.dropped =>
      { s with
        device := r.device
        completed := s.completed + 1
        dropped := s.dropped + 1
        drops_pending := s.drops_pending + 1 }
    | _ => { s with device := r.device }
  | Event.consumer_wake =>
    match s.consumer with
    | Consumer.waiting =>
      let r := consumer_dequeue s.device
      match r.2 with
      | Consumer.processing input_samples dropped_buffers =>
        { s with
          device := r.1
          consumer := r.2
          dequeued := s.dequeued ++ [(input_samples, dropped_buffers)] }
      | _ => { s with device := r.1, consumer := r.2 }
    | _ => s
  | Event.callback ret =>
    match s.consumer with
    | Consumer.processing input_samples dropped_buffers =>
      { s with
        device := consumer_callback_return ret s.device
        consumer := Consumer.returned
        delivered := s.delivered ++ [consumer_block s.device input_samples dropped_buffers] }
    | _ => s
  | Event.release =>
    match s.consumer with
    | Consumer.returned =>
      { s with device := consumer_release s.device, consumer := Consumer.waiting }
    | _ => s
  | Event.stop_request => { s with device := { s.device with stop_requested := true } }
  | Event.kill_io =>
    if s.device.stop_requested then
      { s with device := { s.device with stop_requested := false, streaming := false } }
    else s
  | Event.transfer_thread_exit => { s with device := { s.device with streaming := false } }

/-- Run a schedule of steps. -/
def Session.run {β : Type} (s : Session β) (evs : List (Event β)) : Session β :=
  evs.foldl Session.step s

/-! ## History of a schedule -/

/-- The buffers of the full, successful completions of a schedule, in the
order the completions happen. -/
def completed_buffers {β : Type} : List (Event β) → List β
  | [] => []
  | Event.completion t _ :: evs =>
    if t.completed && t.actual_length == t.length then t.buffer :: completed_buffers evs
    else completed_buffers evs
  | _ :: evs => completed_buffers evs

/-- One for a consumer whose callback has returned but which has not yet
decremented the filled count. -/
def Consumer.unreleased {β : Type} : Consumer β → Nat
  | Consumer.returned => 1
  | _ => 0

/-! ## Concrete devices and schedules -/

/-- A freshly opened device with buffers numbered 0..7 in its ring slots
(`hydrasdr_open_init`: unpacked, 262144-byte buffers, float IQ samples). -/
def opened_device : hydrasdr_device Nat :=
  { streaming := false
    stop_requested := false
    buffer_size := 262144
    dropped_buffers := 0
    dropped_buffers_queue := fun _ => 0
    received_samples_queue := fun i => i.toNat
    received_samples_queue_head := 0
    received_samples_queue_tail := 0
    received_buffer_count := 0
    packing_enabled := false
    sample_type := hydrasdr_sample_type.FLOAT32_IQ }

/-- A full, successful completion of a transfer that carries buffer `b`. -/
def full_completion (b : Nat) : Event Nat :=
  Event.completion { completed := true, actual_length := 262144, length := 262144, buffer := b }
    true

/-- A concrete pair of converters, which leave the buffer as it is. -/
def passthrough_converters : iq_converters :=
  { float_process := fun v _ => v, int16_process := fun v _ => v }

/-- Working buffers filled with zeros. -/
def zero_buffers : work_buffers :=
  { output_float := fun _ => 0, output_int16 := fun _ => 0, unpacked_samples := fun _ => 0 }

/-- One full turn of the consumer loop with a callback that returns 0. -/
def consumer_turn : List (Event Nat) :=
  [Event.consumer_wake, Event.callback 0, Event.release]

/-- Eight completions, which fill an empty ring. -/
def ring_fill : List (Event Nat) :=
  [full_completion 0, full_completion 1, full_completion 2, full_completion 3,
    full_completion 4, full_completion 5, full_completion 6, full_completion 7]

/-- The consumer hands over one block, a ninth buffer is enqueued, and the
consumer works through the ring up to the callback of that ninth block. -/
def ring_drain : List (Event Nat) :=
  consumer_turn ++ [full_completion 8]
    ++ consumer_turn ++ consumer_turn ++ consumer_turn ++ consumer_turn
    ++ consumer_turn ++ consumer_turn ++ consumer_turn
    ++ [Event.consumer_wake, Event.callback 0]

/-- A schedule with a stalled consumer: the ring fills, 2^32 further
completions are dropped, then the ring is drained. -/
def stalled_schedule : List (Event Nat) :=
  ring_fill ++ (List.replicate 4294967296 (full_completion 9) ++ ring_drain)

/-- The session after `k` more completions have been dropped. -/
def Session.after_drops {β : Type} (s : Session β) (k : Nat) : Session β :=
  { s with
    device := { s.device with dropped_buffers := (s.device.dropped_buffers + k) % 2 ^ 32 }
    completed := s.completed + k
    dropped := s.dropped + k
    drops_pending := s.drops_pending + k }

/-! ## Packing, as the wire format is specified -/

/-- The eight values one turn of the `unpack_samples` loop extracts from the
words `w0`, `w1`, `w2`, written with division and remainder. -/
def unpack_field (k w0 w1 w2 : Nat) : Nat :=
  match k with
  | 0 => w0 / 2 ^ 20 % 4096
  | 1 => w0 / 2 ^ 8 % 4096
  | 2 => w0 % 256 * 16 + w1 / 2 ^ 28 % 16
  | 3 => w1 / 2 ^ 16 % 4096
  | 4 => w1 / 2 ^ 4 % 4096
  | 5 => w1 % 16 * 256 + w2 / 2 ^ 24 % 256
  | 6 => w2 / 2 ^ 12 % 4096
  | _ => w2 % 4096

/-- The 96-bit number whose eight 12-bit fields, most significant first, are
the values `v (8 g) .. v (8 g + 7)`. -/
def group_value (v : Nat → Nat) (g : Nat) : Nat :=
  v (8 * g) * 2 ^ 84 + v (8 * g + 1) * 2 ^ 72 + v (8 * g + 2) * 2 ^ 60
    + v (8 * g + 3) * 2 ^ 48 + v (8 * g + 4) * 2 ^ 36 + v (8 * g + 5) * 2 ^ 24
    + v (8 * g + 6) * 2 ^ 12 + v (8 * g + 7)

/-- Packing as the specification words it: every group of eight 12-bit
values is laid out most-significant-field-first in three 32-bit words. -/
def pack_samples (v : Nat → Nat) (i : Nat) : Nat :=
  if i % 3 = 0 then group_value v (i / 3) / 2 ^ 64
  else if i % 3 = 1 then group_value v (i / 3) / 2 ^ 32 % 2 ^ 32
  else group_value v (i / 3) % 2 ^ 32

/-! ## The ring invariant -/

/-- What one ring slot holds: the buffer and its drop snapshot. -/
def slot {β : Type} (d : hydrasdr_device β) (i : Int) : β × Nat :=
  (d.received_samples_queue i, d.dropped_buffers_queue i)

/-- The `n` entries of a ring array starting at index `i`, walking upwards
and wrapping at 8. -/
def ring_from {α : Type} (f : Int → α) : Int → Nat → List α
  | _, 0 => []
  | i, n + 1 => f i :: ring_from f ((i + 1) % 8) n

/-- Number of buffers the consumer has taken out of the ring and not yet
released. -/
def Consumer.held {β : Type} : Consumer β → Nat
  | Consumer.processing _ _ => 1
  | Consumer.returned => 1
  | _ => 0

/-- The dequeued entry whose callback has not been invoked yet. -/
def Consumer.in_flight {β : Type} : Consumer β → List (β × Nat)
  | Consumer.processing input_samples dropped_buffers => [(input_samples, dropped_buffers)]
  | _ => []

/-- The drop count as the 32-bit counter of the device records it. -/
def snapshot {β : Type} (e : β × Nat) : β × Nat := (e.1, e.2 % 2 ^ 32)

/-- The invariant of a session started from the device `d0`; `n` is the
number of filled slots the consumer has not dequeued yet. -/
structure Session.Inv {β : Type} (d0 : hydrasdr_device β) (s : Session β) (n : Nat) : Prop where
  head_eq : s.device.received_samples_queue_head = (s.device.received_samples_queue_tail + n) % 8
  tail_lo : 0 ≤ s.device.received_samples_queue_tail
  tail_hi : s.device.received_samples_queue_tail ≤ 7
  count_eq : s.device.received_buffer_count = n + s.consumer.held
  count_le : n + s.consumer.held ≤ 8
  ring : s.enqueued.map snapshot
      = s.dequeued ++ ring_from (slot s.device) s.device.received_samples_queue_tail n
  counter : s.device.dropped_buffers = s.drops_pending % 2 ^ 32
  blocks : ∃ done, s.dequeued = done ++ s.consumer.in_flight
      ∧ s.delivered = done.map (fun p => consumer_block d0 p.1 p.2)
  total : s.completed = s.enqueued.length + s.dropped
  size_eq : s.device.buffer_size = d0.buffer_size
  packing_eq : s.device.packing_enabled = d0.packing_enabled
  type_eq : s.device.sample_type = d0.sample_type

/-! ## Sample rates -/

/-- `HYDRASDR_ERROR_INVALID_PARAM`. -/
def HYDRASDR_ERROR_INVALID_PARAM : Int := -2

/-- `HYDRASDR_ERROR_BUSY`. -/
def HYDRASDR_ERROR_BUSY : Int := -6

/-- `HYDRASDR_ERROR_NO_MEM`. -/
def HYDRASDR_ERROR_NO_MEM : Int := -11

/-- `HYDRASDR_ERROR_THREAD`. -/
def HYDRASDR_ERROR_THREAD : Int := -1001

/-- `HYDRASDR_ERROR_OTHER`. -/
def HYDRASDR_ERROR_OTHER : Int := -9999

/-- Vendor request `HYDRASDR_RECEIVER_MODE` (`hydrasdr_commands.h`). -/
def HYDRASDR_RECEIVER_MODE : Nat := 1

/-- Vendor request `HYDRASDR_SET_SAMPLERATE`. -/
def HYDRASDR_SET_SAMPLERATE : Nat := 12

/-- Vendor request `HYDRASDR_SET_PACKING`. -/
def HYDRASDR_SET_PACKING : Nat := 26

/-- `RECEIVER_MODE_OFF`. -/
def RECEIVER_MODE_OFF : Nat := 0

/-- `RECEIVER_MODE_RX`. -/
def RECEIVER_MODE_RX : Nat := 1

/-- `MIN_SAMPLERATE_BY_VALUE`. -/
def MIN_SAMPLERATE_BY_VALUE : Nat := 1000000

/-- The search loop of `hydrasdr_set_samplerate`, `for (i = 0; i < count;
i++) if (samplerate == supported_samplerates[i]) { samplerate = i; break; }`,
over the entries from index `i` on: the new value of `samplerate`. -/
def samplerate_lookup : List Nat → Nat → Nat → Nat
  | [], _, samplerate => samplerate
  | r :: rates, i, samplerate =>
    if samplerate = r then i else samplerate_lookup rates (i + 1) samplerate

/-- The value of `samplerate` when `hydrasdr_set_samplerate` reaches its
control transfer; `samplerate` is a `uint32_t`, so is the doubling. -/
def samplerate_code (supported_samplerates : List Nat) (sample_type : hydrasdr_sample_type)
    (samplerate : Nat) : Nat :=
  if samplerate ≥ MIN_SAMPLERATE_BY_VALUE then
    let samplerate := samplerate_lookup supported_samplerates 0 samplerate
    if samplerate ≥ MIN_SAMPLERATE_BY_VALUE then
      let samplerate :=
        if SAMPLE_TYPE_IS_IQ sample_type then samplerate * 2 % 2 ^ 32 else samplerate
      samplerate / 1000
    else samplerate
  else samplerate

/-- The function `hydrasdr_set_samplerate` on the control endpoint, for a
device with the given rate table and sample type.  `libusb_clear_halt` is
not a vendor request and leaves no trace here.  The `uint32_t` value of
`samplerate` is passed for the parameter `wIndex` of
`libusb_control_transfer`, a `uint16_t`: its low 16 bits go out. -/
def hydrasdr_set_samplerate (supported_samplerates : List Nat)
    (sample_type : hydrasdr_sample_type) (u : usb_device) (samplerate : Nat) :
    usb_device × Int :=
  control_result (libusb_control_transfer u HYDRASDR_SET_SAMPLERATE 0
    (samplerate_code supported_samplerates sample_type samplerate % 2 ^ 16))

/-- The function `hydrasdr_get_samplerates`: the result code and what is
written to `buffer` (the count for `len = 0`, else the first `len` rates,
doubled in `uint32_t` for the sample types that are not IQ). -/
def hydrasdr_get_samplerates (supported_samplerates : List Nat)
    (sample_type : hydrasdr_sample_type) (len : Nat) : Int × List Nat :=
  if len = 0 then (HYDRASDR_SUCCESS, [supported_samplerates.length])
  else if len ≤ supported_samplerates.length then
    (HYDRASDR_SUCCESS,
      if !SAMPLE_TYPE_IS_IQ sample_type then
        (supported_samplerates.take len).map (fun r => r * 2 % 2 ^ 32)
      else supported_samplerates.take len)
  else (HYDRASDR_ERROR_INVALID_PARAM, [])

/-! ## Device lifecycle -/

/-- An IQ converter instance (`iqconverter_float_t`, `iqconverter_int16_t`):
its half-band kernel and what its delay lines and running averages hold. -/
structure iqconverter (α : Type) where
  kernel : List α
  state : List α

/-- Modelled from the spec: `iqconverter_float_create` and
`iqconverter_int16_create` are declared in the headers only; they build
"internal FIR/delay-line state sized from the supplied" kernel. -/
def iqconverter_create {α : Type} [Zero α] (kernel : List α) : iqconverter α :=
  { kernel := kernel, state := List.replicate kernel.length 0 }

/-- Modelled from the spec: `iqconverter_float_reset` and
`iqconverter_int16_reset` are declared in the headers only; a reset "zeroes
all delay lines and running averages without reallocating". -/
def iqconverter_reset {α : Type} [Zero α] (c : iqconverter α) : iqconverter α :=
  { c with state := List.replicate c.state.length 0 }

/-- The whole `hydrasdr_device_t`: the pipeline fields of `hydrasdr_device`,
the control endpoint behind `usb_device`, the `transfers` array (`none` for
`NULL`, else the buffers of the descriptors), the thread flags, the rate
table read at open time, the two IQ converters, the user context and the
reset flag. -/
structure hydrasdr_device_t (β : Type) where
  pipeline : hydrasdr_device β
  usb : usb_device
  transfers : Option (Nat → β)
  transfer_count : Nat
  callback : Option Nat
  transfer_thread_running : Bool
  consumer_thread_running : Bool
  supported_samplerates : List Nat
  cnv_f : iqconverter ℚ
  cnv_i : iqconverter Int
  ctx : Nat
  reset_command : Bool

/-- What the allocator gives `allocate_transfers`: the result code the
function ends with, the buffers then found in the ring and the `transfers`
array then found in the device. -/
structure allocation (β : Type) where
  result : Int
  ring : Int → β
  transfers : Option (Nat → β)

/-- What the environment answers while `create_io_threads` runs: whether
`libusb_submit_transfer` accepts the transfer number `k`, and whether the
two calls of `pthread_create` succeed. -/
structure thread_env where
  submit_ok : Nat → Bool
  consumer_created : Bool
  transfer_created : Bool

/-- The function `free_transfers`; it always returns success. -/
def free_transfers {β : Type} (d : hydrasdr_device_t β) : hydrasdr_device_t β :=
  if d.transfers.isSome then { d with transfers := none } else d

/-- The function `allocate_transfers`. -/
def allocate_transfers {β : Type} (a : allocation β) (d : hydrasdr_device_t β) :
    hydrasdr_device_t β × Int :=
  if d.transfers.isNone then
    ({ d with
        pipeline := { d.pipeline with received_samples_queue := a.ring }
        transfers := a.transfers },
      a.result)
  else (d, HYDRASDR_ERROR_BUSY)

/-- The function `prepare_transfers`: every descriptor is submitted in turn,
the first refusal ends the loop. -/
def prepare_transfers {β : Type} (submit_ok : Nat → Bool) (d : hydrasdr_device_t β) : Int :=
  if d.transfers.isSome then
    if (List.range d.transfer_count).all submit_ok then HYDRASDR_SUCCESS
    else HYDRASDR_ERROR_LIBUSB
  else HYDRASDR_ERROR_OTHER

/-- The function `create_io_threads`. -/
def create_io_threads {β : Type} (e : thread_env) (callback : Nat) (d : hydrasdr_device_t β) :
    hydrasdr_device_t β × Int :=
  if !d.pipeline.streaming && !d.pipeline.stop_requested then
    let d1 : hydrasdr_device_t β :=
      { d with callback := some callback, pipeline := { d.pipeline with streaming := true } }
    let result := prepare_transfers e.submit_ok d1
    if result != HYDRASDR_SUCCESS then (d1, result)
    else
      let d2 : hydrasdr_device_t β :=
        { d1 with
          pipeline :=
            { d1.pipeline with
              received_samples_queue_head := 0
              received_samples_queue_tail := 0
              received_buffer_count := 0 } }
      if !e.consumer_created then (d2, HYDRASDR_ERROR_THREAD)
      else
        let d3 : hydrasdr_device_t β := { d2 with consumer_thread_running := true }
        if !e.transfer_created then (d3, HYDRASDR_ERROR_THREAD)
        else ({ d3 with transfer_thread_running := true }, HYDRASDR_SUCCESS)
  else (d, HYDRASDR_ERROR_BUSY)

/-- What the two pipeline threads can do to the pipeline fields while they
run: `leave` gives the fields they write (the ring, the drop counters);
they can clear `streaming` but not set it, and they write neither
`stop_requested` nor the configuration. -/
def thread_effect {β : Type} (leave : hydrasdr_device β → hydrasdr_device β)
    (p : hydrasdr_device β) : hydrasdr_device β :=
  { leave p with
    streaming := p.streaming && (leave p).streaming
    stop_requested := p.stop_requested
    buffer_size := p.buffer_size
    packing_enabled := p.packing_enabled
    sample_type := p.sample_type }

/-- The function `kill_io_threads`.  The joins wait for the threads that
are marked running; `leave` is what they have done to the pipeline fields
by then. -/
def kill_io_threads {β : Type} (leave : hydrasdr_device β → hydrasdr_device β)
    (d : hydrasdr_device_t β) : hydrasdr_device_t β × Int :=
  if d.pipeline.stop_requested then
    let p1 : hydrasdr_device β :=
      { d.pipeline with stop_requested := false, streaming := false }
    let p2 : hydrasdr_device β :=
      if d.transfer_thread_running || d.consumer_thread_running then thread_effect leave p1
      else p1
    ({ d with
        pipeline := p2
        transfer_thread_running := false
        consumer_thread_running := false },
      HYDRASDR_SUCCESS)
  else (d, HYDRASDR_SUCCESS)

/-- The function `hydrasdr_set_receiver_mode`: an OUT transfer without
data, which succeeds with the result 0. -/
def hydrasdr_set_receiver_mode (u : usb_device) (value : Nat) : usb_device × Int :=
  let r := libusb_control_transfer u HYDRASDR_RECEIVER_MODE value 0
  if r.2 != 0 then (r.1, HYDRASDR_ERROR_LIBUSB) else (r.1, HYDRASDR_SUCCESS)

/-- The function `hydrasdr_start_rx`. -/
def hydrasdr_start_rx {β : Type} (e : thread_env) (callback ctx : Nat)
    (d : hydrasdr_device_t β) : hydrasdr_device_t β × Int :=
  let d1 : hydrasdr_device_t β :=
    { d with
      cnv_f := iqconverter_reset d.cnv_f
      cnv_i := iqconverter_reset d.cnv_i
      pipeline :=
        { d.pipeline with dropped_buffers_queue := fun _ => 0, dropped_buffers := 0 } }
  let r1 := hydrasdr_set_receiver_mode d1.usb RECEIVER_MODE_OFF
  if r1.2 != HYDRASDR_SUCCESS then ({ d1 with usb := r1.1 }, r1.2)
  else
    let r2 := hydrasdr_set_receiver_mode r1.1 RECEIVER_MODE_RX
    if r2.2 == HYDRASDR_SUCCESS then
      create_io_threads e callback { d1 with usb := r2.1, ctx := ctx }
    else ({ d1 with usb := r2.1 }, r2.2)

/-- The function `hydrasdr_stop_rx`. -/
def hydrasdr_stop_rx {β : Type} (leave : hydrasdr_device β → hydrasdr_device β)
    (d : hydrasdr_device_t β) : hydrasdr_device_t β × Int :=
  let d1 : hydrasdr_device_t β :=
    { d with pipeline := { d.pipeline with stop_requested := true } }
  let r1 := hydrasdr_set_receiver_mode d1.usb RECEIVER_MODE_OFF
  let r2 := kill_io_threads leave { d1 with usb := r1.1 }
  if r1.2 != HYDRASDR_SUCCESS then (r2.1, r1.2) else r2

/-- The function `hydrasdr_is_streaming`. -/
def hydrasdr_is_streaming {β : Type} (d : hydrasdr_device_t β) : Int :=
  if d.pipeline.streaming == true && d.pipeline.stop_requested == false then 1 else 0

/-- The function `hydrasdr_set_packing`; `value` is a `uint8_t`. -/
def hydrasdr_set_packing {β : Type} (a : allocation β) (value : Nat)
    (d : hydrasdr_device_t β) : hydrasdr_device_t β × Int :=
  if d.pipeline.streaming then (d, HYDRASDR_ERROR_BUSY)
  else
    let r := libusb_control_transfer d.usb HYDRASDR_SET_PACKING 0 value
    if r.2 < 1 then ({ d with usb := r.1 }, HYDRASDR_ERROR_LIBUSB)
    else
      let packing_enabled : Bool := value == 1
      if packing_enabled != d.pipeline.packing_enabled then
        let d1 := free_transfers { d with usb := r.1 }
        let d2 : hydrasdr_device_t β :=
          { d1 with
            pipeline :=
              { d1.pipeline with
                packing_enabled := packing_enabled
                buffer_size := if packing_enabled then 6144 * 24 else 262144 } }
        let r2 := allocate_transfers a d2
        if r2.2 != 0 then (r2.1, HYDRASDR_ERROR_NO_MEM) else (r2.1, HYDRASDR_SUCCESS)
      else ({ d with usb := r.1 }, HYDRASDR_SUCCESS)

/-- The function `hydrasdr_set_conversion_filter_float32`. -/
def hydrasdr_set_conversion_filter_float32 {β : Type} (kernel : List ℚ)
    (d : hydrasdr_device_t β) : hydrasdr_device_t β × Int :=
  if d.pipeline.streaming then (d, HYDRASDR_ERROR_BUSY)
  else ({ d with cnv_f := iqconverter_create kernel }, HYDRASDR_SUCCESS)

/-- The function `hydrasdr_set_conversion_filter_int16`. -/
def hydrasdr_set_conversion_filter_int16 {β : Type} (kernel : List Int)
    (d : hydrasdr_device_t β) : hydrasdr_device_t β × Int :=
  if d.pipeline.streaming then (d, HYDRASDR_ERROR_BUSY)
  else ({ d with cnv_i := iqconverter_create kernel }, HYDRASDR_SUCCESS)

/-- The function `hydrasdr_set_sample_type`. -/
def hydrasdr_set_sample_type {β : Type} (sample_type : hydrasdr_sample_type)
    (d : hydrasdr_device_t β) : hydrasdr_device_t β × Int :=
  ({ d with pipeline := { d.pipeline with sample_type := sample_type } }, HYDRASDR_SUCCESS)

/-- The device as `hydrasdr_open_init` has set it up once the USB handle is
there and the rate table is read: the memory comes zeroed from `calloc`
(`null` stands for the `NULL` ring pointers), then eight fields are set. -/
def configured_device {β : Type} (null : β) (u : usb_device) (rates : List Nat) :
    hydrasdr_device_t β :=
  { pipeline :=
      { streaming := false
        stop_requested := false
        buffer_size := 262144
        dropped_buffers := 0
        dropped_buffers_queue := fun _ => 0
        received_samples_queue := fun _ => null
        received_samples_queue_head := 0
        received_samples_queue_tail := 0
        received_buffer_count := 0
        packing_enabled := false
        sample_type := hydrasdr_sample_type.FLOAT32_IQ }
    usb := u
    transfers := none
    transfer_count := 16
    callback := none
    transfer_thread_running := false
    consumer_thread_running := false
    supported_samplerates := rates
    cnv_f := { kernel := [], state := [] }
    cnv_i := { kernel := [], state := [] }
    ctx := 0
    reset_command := false }

/-- The end of `hydrasdr_open_init`: `hydrasdr_set_packing(lib_device, 0)`
is called and its result dropped, the pool is allocated and the converters
are created with the built-in kernels.  No device is returned when the
allocation fails. -/
def hydrasdr_open_init {β : Type} (null : β) (u : usb_device) (rates : List Nat)
    (a : allocation β) (kernel_float : List ℚ) (kernel_int16 : List Int) :
    Option (hydrasdr_device_t β) :=
  let d1 := (hydrasdr_set_packing a 0 (configured_device null u rates)).1
  let r := allocate_transfers a d1
  if r.2 != 0 then none
  else
    some { r.1 with
      cnv_f := iqconverter_create kernel_float
      cnv_i := iqconverter_create kernel_int16 }

/-- The calls an application can make on an open device, with what the
environment answers during each, and the activity of the pipeline threads
between two calls. -/
inductive Call (β : Type) where
  | set_packing (a : allocation β) (value : Nat)
  | set_sample_type (sample_type : hydrasdr_sample_type)
  | set_conversion_filter_float32 (kernel : List ℚ)
  | set_conversion_filter_int16 (kernel : List Int)
  | start_rx (e : thread_env) (callback ctx : Nat)
  | stop_rx (leave : hydrasdr_device β → hydrasdr_device β)
  | threads (leave : hydrasdr_device β → hydrasdr_device β)

/-- The device after one call. -/
def hydrasdr_device_t.call {β : Type} (d : hydrasdr_device_t β) : Call β → hydrasdr_device_t β
  | Call.set_packing a value => (hydrasdr_set_packing a value d).1
  | Call.set_sample_type sample_type => (hydrasdr_set_sample_type sample_type d).1
  | Call.set_conversion_filter_float32 kernel =>
    (hydrasdr_set_conversion_filter_float32 kernel d).1
  | Call.set_conversion_filter_int16 kernel => (hydrasdr_set_conversion_filter_int16 kernel d).1
  | Call.start_rx e callback ctx => (hydrasdr_start_rx e callback ctx d).1
  | Call.stop_rx leave => (hydrasdr_stop_rx leave d).1
  | Call.threads leave =>
    if d.transfer_thread_running || d.consumer_thread_running then
      { d with pipeline := thread_effect leave d.pipeline }
    else d

/-- The device after a sequence of calls. -/
def hydrasdr_device_t.calls {β : Type} (d : hydrasdr_device_t β) (cs : List (Call β)) :
    hydrasdr_device_t β :=
  cs.foldl hydrasdr_device_t.call d

/-- An allocation that succeeds, with buffers numbered from 0 in the ring
and from 100 in the transfer descriptors. -/
def good_allocation : allocation Nat :=
  { result := 0, ring := fun i => i.toNat, transfers := some (fun k => 100 + k) }

/-- An environment in which every submission and both thread creations
succeed. -/
def good_threads : thread_env :=
  { submit_ok := fun _ => true, consumer_created := true, transfer_created := true }

/-- A control endpoint that has seen no transfer and answers every transfer
with 0, the result of a successful OUT request without data. -/
def quiet_usb : usb_device := { sent := [], reply := fun _ => 0 }

/-- A device in the middle of a session: opened, then started, with five
buffers dropped since the last enqueue, a drop snapshot of 3 in slot 0 and
the user context 1. -/
def streaming_device : hydrasdr_device_t Nat :=
  { pipeline :=
      { opened_device with
        streaming := true
        dropped_buffers := 5
        dropped_buffers_queue := fun i => if i = 0 then 3 else 0 }
    usb := quiet_usb
    transfers := some (fun k => 100 + k)
    transfer_count := 16
    callback := some 7
    transfer_thread_running := true
    consumer_thread_running := true
    supported_samplerates := [10000000, 5000000, 2500000]
    cnv_f := { kernel := [1, 2, 1], state := [4, 5, 6] }
    cnv_i := { kernel := [1, 2, 1], state := [4, 5, 6] }
    ctx := 1
    reset_command := false }

/-- A device that was opened and never started. -/
def idle_device : hydrasdr_device_t Nat :=
  { streaming_device with
    pipeline := opened_device
    transfer_thread_running := false
    consumer_thread_running := false
    callback := none }

/-- The device a successful open returns on a healthy endpoint with the rate
table 10 MHz, 5 MHz, 2.5 MHz and empty kernels. -/
def fresh_device : hydrasdr_device_t Nat :=
  { configured_device 0 healthy_usb [10000000, 5000000, 2500000] with
    pipeline := { opened_device with received_samples_queue := good_allocation.ring }
    usb := (libusb_control_transfer healthy_usb HYDRASDR_SET_PACKING 0 0).1
    transfers := good_allocation.transfers }

/-! ## Host byte order -/

/-- The builtin `__builtin_bswap32` on a `uint32_t`. -/
def bswap32 (x : Nat) : Nat :=
  x % 256 * 2 ^ 24 + x / 2 ^ 8 % 256 * 2 ^ 16 + x / 2 ^ 16 % 256 * 2 ^ 8 + x / 2 ^ 24 % 256

/-- The macro `TO_LE_32`: `__builtin_bswap32(x)` when `HYDRASDR_BIG_ENDIAN`
is defined, `x` otherwise. -/
def TO_LE_32 (big_endian : Bool) (x : Nat) : Nat :=
  if big_endian then bswap32 x else x

/-- What `((uint32_t*)buffer)[i]` reads from a buffer of bytes on a host of
the given byte order. -/
def load_uint32 (big_endian : Bool) (buffer : Nat → Nat) (i : Nat) : Nat :=
  if big_endian then
    buffer (4 * i) * 2 ^ 24 + buffer (4 * i + 1) * 2 ^ 16 + buffer (4 * i + 2) * 2 ^ 8
      + buffer (4 * i + 3)
  else
    buffer (4 * i) + buffer (4 * i + 1) * 2 ^ 8 + buffer (4 * i + 2) * 2 ^ 16
      + buffer (4 * i + 3) * 2 ^ 24

/-- The unpacking step of `consumer_threadproc` on a host of the given byte
order: the raw buffer is cast to `uint32_t*` and handed to `unpack_samples`
as it is. -/
def consumer_unpack (big_endian : Bool) (buffer unpacked_samples : Nat → Nat)
    (sample_count : Nat) : Nat → Nat :=
  unpack_samples (load_uint32 big_endian buffer) unpacked_samples sample_count

/-- One packed group as the device sends it, byte by byte. -/
def packed_bytes (n : Nat) : Nat :=
  [0x01, 0x23, 0x45, 0x67, 0x89, 0xab, 0xcd, 0xef, 0x02, 0x46, 0x8a, 0xce].getD n 0

/-! ## Combined gain of a curve setting -/

/-- The combined gain a list of control transfers selects: the sum of the
values sent with the VGA, mixer and LNA gain requests. -/
def combined_gain (cs : List control_transfer) : Nat :=
  ((cs.filter fun c =>
      c.request == HYDRASDR_SET_VGA_GAIN || c.request == HYDRASDR_SET_MIXER_GAIN
        || c.request == HYDRASDR_SET_LNA_GAIN).map fun c => c.index).sum

/-! ## Concrete completions -/

/-- A device in mid-session whose ring is full and whose drop counter stands
at its largest value, 2^32 - 1. -/
def full_ring_device : hydrasdr_device Nat :=
  { opened_device with
    streaming := true
    received_buffer_count := 8
    dropped_buffers := 4294967295 }

/-- A full, successful completion that carries the buffer 100. -/
def full_transfer : libusb_transfer Nat :=
  { completed := true, actual_length := 262144, length := 262144, buffer := 100 }

/-- A completion that was cancelled before any byte arrived. -/
def cancelled_transfer : libusb_transfer Nat :=
  { completed := false, actual_length := 0, length := 262144, buffer := 100 }

/-! ## Buffer sizes and the indices the loops touch -/

/-- The sizes in bytes that `allocate_transfers` passes to `malloc`: for each
of the eight ring buffers, for `output_buffer`, for `unpacked_samples` (only
allocated with packing) and for the buffer of each transfer. -/
structure pool_sizes where
  received_samples_queue : Nat
  output_buffer : Nat
  unpacked_samples : Option Nat
  transfer_buffer : Nat
deriving DecidableEq

/-- The allocation sizes of `allocate_transfers`.  `sample_count` is computed
in `uint32_t` and stored in a `size_t` of `size_t_bits` bits, in which the
products with `sizeof(float)` and `sizeof(uint16_t)` are taken. -/
def allocate_transfers_sizes {β : Type} (size_t_bits : Nat) (d : hydrasdr_device β) :
    pool_sizes :=
  let sample_count :=
    if d.packing_enabled then ((d.buffer_size / 2) * 4 % 2 ^ 32) / 3 else d.buffer_size / 2
  { received_samples_queue := d.buffer_size
    output_buffer := sample_count * 4 % 2 ^ size_t_bits
    unpacked_samples :=
      if d.packing_enabled then some (sample_count * 2 % 2 ^ size_t_bits) else none
    transfer_buffer := d.buffer_size }

/-- The accesses of the loop of `unpack_samples`, turn by turn: the indices
of `input` it reads and the indices of `output` it writes. -/
def unpack_accesses (length : Nat) : Nat → Nat → Nat → List Nat × List Nat
  | 0, _, _ => ([], [])
  | fuel + 1, i, j =>
    if j < length then
      ([i, i + 1, i + 2] ++ (unpack_accesses length fuel (i + 3) (j + 8)).1,
        [j + 0, j + 1, j + 2, j + 3, j + 4, j + 5, j + 6, j + 7]
          ++ (unpack_accesses length fuel (i + 3) (j + 8)).2)
    else ([], [])

/-- The indices of `input` that `unpack_samples` reads. -/
def unpack_samples_reads (length : Nat) : List Nat :=
  (unpack_accesses length length 0 0).1

/-- The indices of `output` that `unpack_samples` writes. -/
def unpack_samples_writes (length : Nat) : List Nat :=
  (unpack_accesses length length 0 0).2

/-- The indices the loop of `convert_samples_int16` and
`convert_samples_float` touches, turn by turn: it reads `src` and writes
`dest` at the same four indices. -/
def convert_accesses (count : Nat) : Nat → Nat → List Nat
  | 0, _ => []
  | fuel + 1, i =>
    if i < count then [i + 0, i + 1, i + 2, i + 3] ++ convert_accesses count fuel (i + 4)
    else []

/-- The indices `convert_samples_int16` and `convert_samples_float` touch. -/
def convert_samples_indices (count : Nat) : List Nat :=
  convert_accesses count count 0

/-- A device with packing switched on: 147456-byte buffers. -/
def packed_device : hydrasdr_device Nat :=
  { opened_device with packing_enabled := true, buffer_size := 147456 }

/-! ## The slot in the hands of the consumer -/

/-- The ring slot the consumer took its buffer from: `consumer_threadproc`
reads the slot at `tail` and then advances `tail` by one modulo 8, so it is
the slot just behind `tail`. -/
def processed_slot {β : Type} (d : hydrasdr_device β) : Int :=
  (d.received_samples_queue_tail + 7) % 8

/-! ## Failed starts -/

/-- An environment in which the transfers are accepted and the first
`pthread_create` fails. -/
def no_consumer_thread : thread_env :=
  { submit_ok := fun _ => true, consumer_created := false, transfer_created := true }

/-- A control endpoint on which the first two transfers succeed and the
third one fails with `LIBUSB_ERROR_IO`. -/
def third_transfer_fails : usb_device :=
  { sent := [], reply := fun n => if n = 2 then -1 else 0 }

/-- The calls that neither stop the device nor stand for the activity of
its pipeline threads. -/
def Call.is_request {β : Type} : Call β → Bool
  | Call.stop_rx _ => false
  | Call.threads _ => false
  | _ => true

/-! ## The FFT helper (`nativedsp.cpp`) -/

/-- The global variables of `nativedsp.cpp`: the cached `fftSize`, the size
of the transform `setup` was made for, and the capacity in `float` elements
of each of the four buffers; `none` stands for `nullptr`. -/
structure fft_globals where
  fftSize : Int
  setup : Option Nat
  scratch : Option Nat
  input : Option Nat
  output : Option Nat
  outputMag : Option Nat
deriving DecidableEq

/-- The globals as they are initialised when the library is loaded. -/
def fft_globals.initial : fft_globals :=
  { fftSize := -1, setup := none, scratch := none, input := none, output := none
    outputMag := none }

/-- The function `Java_com_mantz_1it_nativedsp_NativeDsp_performFFT` on an
input array of `length` elements: what it does to the globals. -/
def performFFT (length : Nat) (g : fft_globals) : fft_globals :=
  if g.fftSize != (length : Int) then
    { g with
      fftSize := length
      setup := some (length / 2)
      scratch := some length
      input := some length
      output := some length }
  else g

/-- The function `Java_com_mantz_1it_nativedsp_NativeDsp_performFFTAndLogMag`
on an input array of `length` elements: the globals afterwards and the
values of `targetIndex` at which it writes `outputMag`, in order. -/
def performFFTAndLogMag (length : Nat) (g : fft_globals) : fft_globals × List Nat :=
  let outputLength := length / 2
  let g1 : fft_globals :=
    if g.fftSize != (length : Int) then
      { g with
        fftSize := length
        setup := some (length / 2)
        scratch := some length
        input := some length
        output := some length
        outputMag := some outputLength }
    else g
  (g1, (List.range outputLength).map fun i => (i + outputLength / 2) % outputLength)

/-- Whether every index of a list lies inside a buffer of the given
capacity; nothing lies inside `nullptr`. -/
def within_capacity (capacity : Option Nat) (indices : List Nat) : Bool :=
  match capacity with
  | none => indices.isEmpty
  | some c => indices.all fun i => i < c

/-! ## The application during a session -/

/-- What can happen to the pipeline fields in the course of one session: a
step of the pipeline, or a call of `hydrasdr_start_rx` that the application
makes while the session is on; `shell` holds the fields of the device
outside the pipeline at that moment. -/
inductive Activity (β : Type) where
  | pipeline (e : Event β)
  | start_rx (e : thread_env) (callback ctx : Nat) (shell : hydrasdr_device_t β)

/-- Whether an activity is a step of the pipeline. -/
def Activity.is_pipeline {β : Type} : Activity β → Bool
  | Activity.pipeline _ => true
  | Activity.start_rx _ _ _ _ => false

/-- The session after one activity. -/
def Session.act {β : Type} (s : Session β) : Activity β → Session β
  | Activity.pipeline e => s.step e
  | Activity.start_rx e callback ctx shell =>
    { s with
      device := (hydrasdr_start_rx e callback ctx { shell with pipeline := s.device }).1.pipeline }

/-- The session after a sequence of activities. -/
def Session.perform {β : Type} (s : Session β) (acts : List (Activity β)) : Session β :=
  acts.foldl Session.act s

/-- The pipeline steps of a sequence of activities. -/
def Activity.events {β : Type} : List (Activity β) → List (Event β)
  | [] => []
  | Activity.pipeline e :: acts => e :: Activity.events acts
  | Activity.start_rx _ _ _ _ :: acts => Activity.events acts

/-- The ring fills, three further completions are dropped, the application
calls `hydrasdr_start_rx` once more, and the ring is drained. -/
def restarted_schedule : List (Activity Nat) :=
  (ring_fill ++ [full_completion 9, full_completion 9, full_completion 9]).map Activity.pipeline
    ++ [Activity.start_rx good_threads 7 2 streaming_device]
    ++ ring_drain.map Activity.pipeline

/-! ## The transfer pool during a session -/

/-- A session together with its pool of transfer descriptors: `transfers k`
is the buffer pointer of the descriptor `k`, for `k` below
`transfer_count`. -/
structure Pool (β : Type) where
  session : Session β
  transfers : Nat → β
  transfer_count : Nat

/-- The steps of a session with its pool: the completion of the descriptor
`k` with a status, an actual length and the answer to the resubmission, and
the steps that leave the pool alone. -/
inductive PoolEvent (β : Type) where
  | completion (k : Nat) (completed : Bool) (actual_length : Int) (submit_ok : Bool)
  | consumer_wake
  | callback (ret : Int)
  | release
  | stop_request
  | kill_io
  | transfer_thread_exit

/-- The descriptor `k` as libusb hands it to the completion callback:
`allocate_transfers` set its `length` to `buffer_size`, and its buffer
pointer is the one the pool holds for it. -/
def Pool.transfer {β : Type} (p : Pool β) (k : Nat) (completed : Bool) (actual_length : Int) :
    libusb_transfer β :=
  { completed := completed
    actual_length := actual_length
    length := p.session.device.buffer_size
    buffer := p.transfers k }

/-- One step of a session with its pool.  The completion callback is run on
the descriptor `k`, and the buffer pointer it leaves in the descriptor is the
one the pool holds from then on. -/
def Pool.step {β : Type} (p : Pool β) : PoolEvent β → Pool β
  | PoolEvent.completion k completed actual_length submit_ok =>
    if k < p.transfer_count then
      { p with
        session :=
          p.session.step (Event.completion (p.transfer k completed actual_length) submit_ok)
        transfers :=
          Function.update p.transfers k
            (hydrasdr_libusb_transfer_callback submit_ok (p.transfer k completed actual_length)
              p.session.device).transfer.buffer }
    else p
  | PoolEvent.consumer_wake => { p with session := p.session.step Event.consumer_wake }
  | PoolEvent.callback ret => { p with session := p.session.step (Event.callback ret) }
  | PoolEvent.release => { p with session := p.session.step Event.release }
  | PoolEvent.stop_request => { p with session := p.session.step Event.stop_request }
  | PoolEvent.kill_io => { p with session := p.session.step Event.kill_io }
  | PoolEvent.transfer_thread_exit =>
    { p with session := p.session.step Event.transfer_thread_exit }

/-- Run a schedule of steps on a session with its pool. -/
def Pool.run {β : Type} (p : Pool β) (evs : List (PoolEvent β)) : Pool β :=
  evs.foldl Pool.step p

/-- The session and its pool right after a successful `hydrasdr_start_rx`. -/
def Pool.start {β : Type} (d : hydrasdr_device β) (transfers : Nat → β) (transfer_count : Nat) :
    Pool β :=
  { session := Session.start d, transfers := transfers, transfer_count := transfer_count }

/-- The buffers of the eight ring slots and of the descriptors of the pool
are pairwise distinct, as they are when each comes from a `malloc` of its
own in `allocate_transfers`. -/
structure distinct_buffers {β : Type} (ring : Int → β) (transfers : Nat → β)
    (transfer_count : Nat) : Prop where
  ring_apart : ∀ i j : Int, 0 ≤ i → i ≤ 7 → 0 ≤ j → j ≤ 7 → ring i = ring j → i = j
  pool_apart : ∀ k l, k < transfer_count → l < transfer_count →
    transfers k = transfers l → k = l
  ring_pool_apart : ∀ (i : Int) (k : Nat), 0 ≤ i → i ≤ 7 → k < transfer_count →
    ring i ≠ transfers k

/-- The invariant of a session with its pool, started from the device `d0`. -/
structure Pool.Inv {β : Type} (d0 : hydrasdr_device β) (p : Pool β) : Prop where
  session_inv : ∃ n, Session.Inv d0 p.session n
  distinct : distinct_buffers p.session.device.received_samples_queue p.transfers
    p.transfer_count
  held : ∀ b c, p.session.consumer = Consumer.processing b c →
    p.session.device.received_samples_queue (processed_slot p.session.device) = b

/-- An environment in which the transfers are accepted, the consumer thread
is created and the second `pthread_create` fails. -/
def no_transfer_thread : thread_env :=
  { submit_ok := fun _ => true, consumer_created := true, transfer_created := false }

/-- Whether a call is `hydrasdr_stop_rx`. -/
def Call.is_stop_rx {β : Type} : Call β → Bool
  | Call.stop_rx _ => true
  | _ => false

/-- A pipeline thread that ends the session on its own, as the consumer
does when the callback returns a non-zero value. -/
def thread_clears_streaming (p : hydrasdr_device Nat) : hydrasdr_device Nat :=
  { p with streaming := false }

/-! ## Lemmas on the ring -/

theorem land_succ (x : Int) (h0 : 0 ≤ x) (h7 : x ≤ 7) :
    Int.land (x + 1) (RAW_BUFFER_COUNT - 1) = (x + 1) % 8 := by
  interval_cases x <;> decide

theorem ring_from_snoc {α : Type} (f : Int → α) (n : Nat) :
    ∀ t : Int, 0 ≤ t → t ≤ 7 → ring_from f t (n + 1) = ring_from f t n ++ [f ((t + n) % 8)] := by
  induction n with
  | zero =>
    intro t h0 h7
    have e : t % 8 = t := by omega
    simp [ring_from, e]
  | succ n ih =>
    intro t h0 h7
    have e : ((t + 1) % 8 + (n : Int)) % 8 = (t + ((n + 1 : Nat) : Int)) % 8 := by
      push_cast; omega
    rw [ring_from, ih ((t + 1) % 8) (by omega) (by omega), e]
    simp [ring_from]

theorem ring_from_congr {α : Type} (f g : Int → α) (n : Nat) :
    ∀ t : Int, 0 ≤ t → t ≤ 7 → (∀ k : Nat, k < n → f ((t + k) % 8) = g ((t + k) % 8)) →
      ring_from f t n = ring_from g t n := by
  induction n with
  | zero => intro t _ _ _; rfl
  | succ n ih =>
    intro t h0 h7 h
    have e0 : (t + ((0 : Nat) : Int)) % 8 = t := by omega
    have h0' := h 0 (Nat.succ_pos n)
    rw [e0] at h0'
    have hs : ∀ k : Nat, k < n →
        f (((t + 1) % 8 + k) % 8) = g (((t + 1) % 8 + k) % 8) := by
      intro k hk
      have e : ((t + 1) % 8 + (k : Int)) % 8 = (t + ((k + 1 : Nat) : Int)) % 8 := by
        push_cast; omega
      rw [e]
      exact h (k + 1) (Nat.succ_lt_succ hk)
    simp only [ring_from]
    rw [h0', ih ((t + 1) % 8) (by omega) (by omega) hs]

/-! ## The invariant holds along every schedule -/

theorem Session.inv_start {β : Type} (d : hydrasdr_device β) :
    Session.Inv d (Session.start d) 0 := by
  constructor <;> simp [Session.start, Consumer.held, Consumer.in_flight, ring_from]

theorem slot_update {β : Type} (d : hydrasdr_device β) (b : β) (c : Nat) (i : Int) :
    (fun j => (Function.update d.received_samples_queue i b j,
        Function.update d.dropped_buffers_queue i c j))
      = Function.update (slot d) i (b, c) := by
  funext j
  by_cases hj : j = i
  · subst hj; simp
  · simp [Function.update_noteq hj, slot]

theorem ring_from_enqueue {α : Type} (f : Int → α) (v : α) (t : Int) (n : Nat)
    (h0 : 0 ≤ t) (h7 : t ≤ 7) (hn : n < 8) :
    ring_from (Function.update f ((t + n) % 8) v) t (n + 1) = ring_from f t n ++ [v] := by
  rw [ring_from_snoc _ n t h0 h7, Function.update_same]
  congr 1
  apply ring_from_congr _ _ n t h0 h7
  intro k hk
  apply Function.update_noteq
  omega

theorem Session.Inv.set_streaming {β : Type} {d0 : hydrasdr_device β} {s : Session β} {n : Nat}
    (h : Session.Inv d0 s n) (b : Bool) :
    Session.Inv d0 { s with device := { s.device with streaming := b } } n :=
  ⟨h.1, h.2, h.3, h.4, h.5, h.6, h.7, h.8, h.9, h.10, h.11, h.12⟩

theorem Session.inv_enqueue {β : Type} {d0 : hydrasdr_device β} {s : Session β} {n : Nat}
    (h : Session.Inv d0 s n) (b : β) (c3 : s.device.received_buffer_count < 8) :
    Session.Inv d0
      { s with
        device :=
          { s.device with
            received_samples_queue :=
              Function.update s.device.received_samples_queue
                s.device.received_samples_queue_head b
            dropped_buffers_queue :=
              Function.update s.device.dropped_buffers_queue
                s.device.received_samples_queue_head s.device.dropped_buffers
            dropped_buffers := 0
            received_samples_queue_head :=
              Int.land (s.device.received_samples_queue_head + 1) (RAW_BUFFER_COUNT - 1)
            received_buffer_count := s.device.received_buffer_count + 1 }
        enqueued := s.enqueued ++ [(b, s.drops_pending)]
        completed := s.completed + 1
        drops_pending := 0 } (n + 1) := by
  obtain ⟨h1, h2, h3, h4, h5, h6, h7, h8, h9, h10, h11, h12⟩ := h
  have hh0 : 0 ≤ s.device.received_samples_queue_head := by omega
  have hh7 : s.device.received_samples_queue_head ≤ 7 := by omega
  have hn : n < 8 := by omega
  refine ⟨?_, h2, h3, ?_, ?_, ?_, ?_, h8, ?_, h10, h11, h12⟩
  · simp only [land_succ _ hh0 hh7]
    rw [h1]; push_cast; omega
  · simp only []; rw [h4]; push_cast; omega
  · simp only []; omega
  · simp only [List.map_append, List.map_cons, List.map_nil, h6, List.append_assoc]
    congr 1
    have e : slot { s.device with
        received_samples_queue :=
          Function.update s.device.received_samples_queue
            s.device.received_samples_queue_head b
        dropped_buffers_queue :=
          Function.update s.device.dropped_buffers_queue
            s.device.received_samples_queue_head s.device.dropped_buffers
        dropped_buffers := 0
        received_samples_queue_head :=
          Int.land (s.device.received_samples_queue_head + 1) (RAW_BUFFER_COUNT - 1)
        received_buffer_count := s.device.received_buffer_count + 1 }
        = Function.update (slot s.device) ((s.device.received_samples_queue_tail + n) % 8)
            (b, s.device.dropped_buffers) := by
      rw [← h1]
      exact slot_update s.device b s.device.dropped_buffers _
    rw [e, ring_from_enqueue _ _ _ n h2 h3 hn, h7]
    rfl
  · rfl
  · simp only [List.length_append, List.length_cons, List.length_nil]; omega

theorem Session.inv_drop {β : Type} {d0 : hydrasdr_device β} {s : Session β} {n : Nat}
    (h : Session.Inv d0 s n) :
    Session.Inv d0
      { s with
        device := { s.device with dropped_buffers := (s.device.dropped_buffers + 1) % 2 ^ 32 }
        completed := s.completed + 1
        dropped := s.dropped + 1
        drops_pending := s.drops_pending + 1 } n := by
  obtain ⟨h1, h2, h3, h4, h5, h6, h7, h8, h9, h10, h11, h12⟩ := h
  refine ⟨h1, h2, h3, h4, h5, h6, ?_, h8, ?_, h10, h11, h12⟩
  · simp only []; rw [h7]; omega
  · simp only []; omega

theorem Session.inv_completion {β : Type} {d0 : hydrasdr_device β} {s : Session β} {n : Nat}
    (h : Session.Inv d0 s n) (t : libusb_transfer β) (submit_ok : Bool) :
    ∃ m, Session.Inv d0 (s.step (Event.completion t submit_ok)) m := by
  simp only [Session.step, hydrasdr_libusb_transfer_callback]
  split_ifs with c1 c2 c3 c4 c5
  · exact ⟨n, h⟩
  · exact ⟨n + 1, Session.inv_enqueue h t.buffer c3⟩
  · exact ⟨n + 1, (Session.inv_enqueue h t.buffer c3).set_streaming false⟩
  · exact ⟨n, Session.inv_drop h⟩
  · exact ⟨n, (Session.inv_drop h).set_streaming false⟩
  · exact ⟨n, h.set_streaming false⟩

theorem Session.inv_consumer_wake {β : Type} {d0 : hydrasdr_device β} {s : Session β} {n : Nat}
    (h : Session.Inv d0 s n) :
    ∃ m, Session.Inv d0 (s.step Event.consumer_wake) m := by
  cases hc : s.consumer with
  | waiting =>
    obtain ⟨h1, h2, h3, h4, h5, h6, h7, h8, h9, h10, h11, h12⟩ := h
    simp only [hc, Consumer.held, Consumer.in_flight, List.append_nil] at h4 h5 h8
    simp only [Session.step, hc, consumer_dequeue]
    split_ifs with c1 c2
    · exact ⟨n, ⟨h1, h2, h3, by simpa [Consumer.held] using h4, by simpa [Consumer.held] using h5,
        h6, h7, by simpa [Consumer.in_flight] using h8, h9, h10, h11, h12⟩⟩
    · have hn : n ≠ 0 := by
        intro hz
        apply c2
        simp [h4, hz]
      obtain ⟨m, rfl⟩ := Nat.exists_eq_succ_of_ne_zero hn
      refine ⟨m, ⟨?_, ?_, ?_, ?_, ?_, ?_, h7, ?_, h9, h10, h11, h12⟩⟩
      · simp only [land_succ _ h2 h3]
        rw [h1]; push_cast; omega
      · simp only [land_succ _ h2 h3]; omega
      · simp only [land_succ _ h2 h3]; omega
      · simp only [Consumer.held]; rw [h4]; push_cast; omega
      · simp only [Consumer.held]; omega
      · simp only [land_succ _ h2 h3]
        rw [h6, ring_from, List.append_assoc]
        rfl
      · obtain ⟨done, e1, e2⟩ := h8
        exact ⟨done, by simp [Consumer.in_flight, e1], e2⟩
    · exact ⟨n, ⟨h1, h2, h3, by simpa [Consumer.held] using h4, by simpa [Consumer.held] using h5,
        h6, h7, by simpa [Consumer.in_flight] using h8, h9, h10, h11, h12⟩⟩
  | processing i c => exact ⟨n, by simpa [Session.step, hc] using h⟩
  | returned => exact ⟨n, by simpa [Session.step, hc] using h⟩
  | exited => exact ⟨n, by simpa [Session.step, hc] using h⟩

theorem Session.inv_callback {β : Type} {d0 : hydrasdr_device β} {s : Session β} {n : Nat}
    (h : Session.Inv d0 s n) (ret : Int) :
    Session.Inv d0 (s.step (Event.callback ret)) n := by
  cases hc : s.consumer with
  | processing i c =>
    obtain ⟨h1, h2, h3, h4, h5, h6, h7, h8, h9, h10, h11, h12⟩ := h
    simp only [hc, Consumer.held, Consumer.in_flight] at h4 h5 h8
    have hb : consumer_block s.device i c = consumer_block d0 i c := by
      simp [consumer_block, delivered_sample_count, decoded_sample_count, h10, h11, h12]
    obtain ⟨done, e1, e2⟩ := h8
    have key : Session.Inv d0
        { s with
          consumer := Consumer.returned
          delivered := s.delivered ++ [consumer_block s.device i c] } n :=
      ⟨h1, h2, h3, h4, h5, h6, h7,
        ⟨done ++ [(i, c)], by simp [Consumer.in_flight, e1], by simp [e2, hb]⟩,
        h9, h10, h11, h12⟩
    simp only [Session.step, hc, consumer_callback_return]
    split_ifs with c1
    · exact key.set_streaming false
    · exact key
  | waiting => simpa [Session.step, hc] using h
  | returned => simpa [Session.step, hc] using h
  | exited => simpa [Session.step, hc] using h

theorem Session.inv_release {β : Type} {d0 : hydrasdr_device β} {s : Session β} {n : Nat}
    (h : Session.Inv d0 s n) :
    Session.Inv d0 (s.step Event.release) n := by
  cases hc : s.consumer with
  | returned =>
    obtain ⟨h1, h2, h3, h4, h5, h6, h7, h8, h9, h10, h11, h12⟩ := h
    simp only [hc, Consumer.held, Consumer.in_flight] at h4 h5 h8
    simp only [Session.step, hc, consumer_release]
    refine ⟨h1, h2, h3, ?_, ?_, h6, h7, ?_, h9, h10, h11, h12⟩
    · simp only [Consumer.held]; rw [h4]; push_cast; omega
    · simp only [Consumer.held]; omega
    · simpa [Consumer.in_flight] using h8
  | waiting => simpa [Session.step, hc] using h
  | processing i c => simpa [Session.step, hc] using h
  | exited => simpa [Session.step, hc] using h

theorem Session.inv_step {β : Type} {d0 : hydrasdr_device β} {s : Session β} {n : Nat}
    (h : Session.Inv d0 s n) (e : Event β) :
    ∃ m, Session.Inv d0 (s.step e) m := by
  cases e with
  | completion t submit_ok => exact Session.inv_completion h t submit_ok
  | consumer_wake => exact Session.inv_consumer_wake h
  | callback ret => exact ⟨n, Session.inv_callback h ret⟩
  | release => exact ⟨n, Session.inv_release h⟩
  | stop_request => exact ⟨n, ⟨h.1, h.2, h.3, h.4, h.5, h.6, h.7, h.8, h.9, h.10, h.11, h.12⟩⟩
  | kill_io =>
    simp only [Session.step]
    split_ifs
    · exact ⟨n, ⟨h.1, h.2, h.3, h.4, h.5, h.6, h.7, h.8, h.9, h.10, h.11, h.12⟩⟩
    · exact ⟨n, h⟩
  | transfer_thread_exit => exact ⟨n, h.set_streaming false⟩

theorem Session.inv_run {β : Type} (d0 : hydrasdr_device β) (evs : List (Event β)) :
    ∀ (s : Session β) (n : Nat), Session.Inv d0 s n → ∃ m, Session.Inv d0 (s.run evs) m := by
  induction evs with
  | nil => intro s n h; exact ⟨n, h⟩
  | cons e evs ih =>
    intro s n h
    obtain ⟨m, hm⟩ := Session.inv_step h e
    exact ih (s.step e) m hm

theorem Session.inv_reachable {β : Type} (d : hydrasdr_device β) (evs : List (Event β)) :
    ∃ m, Session.Inv d ((Session.start d).run evs) m :=
  Session.inv_run d evs (Session.start d) 0 (Session.inv_start d)

theorem Session.enqueued_step {β : Type} (s : Session β) (e : Event β) :
    ∃ l, (s.step e).enqueued = s.enqueued ++ l
      ∧ List.Sublist (l.map Prod.fst) (completed_buffers [e]) := by
  cases e with
  | completion t submit_ok =>
    simp only [Session.step, hydrasdr_libusb_transfer_callback, completed_buffers]
    by_cases c2 : (t.completed && t.actual_length == t.length) = true
    · simp only [if_pos c2]
      split_ifs <;>
        first
        | (refine ⟨[], ?_, ?_⟩
           all_goals simp
           done)
        | (refine ⟨[(t.buffer, s.drops_pending)], ?_, ?_⟩
           all_goals simp)
    · simp only [if_neg c2]
      split_ifs <;> exact ⟨[], by simp, by simp⟩
  | consumer_wake =>
    refine ⟨[], ?_, by simp [completed_buffers]⟩
    simp only [Session.step]
    cases s.consumer <;> simp only []
    · split <;> simp
    all_goals simp
  | callback ret =>
    refine ⟨[], ?_, by simp [completed_buffers]⟩
    simp only [Session.step]
    cases s.consumer <;> simp
  | release =>
    refine ⟨[], ?_, by simp [completed_buffers]⟩
    simp only [Session.step]
    cases s.consumer <;> simp
  | stop_request => exact ⟨[], by simp [Session.step], by simp [completed_buffers]⟩
  | kill_io =>
    refine ⟨[], ?_, by simp [completed_buffers]⟩
    simp only [Session.step]
    split_ifs <;> simp
  | transfer_thread_exit => exact ⟨[], by simp [Session.step], by simp [completed_buffers]⟩

theorem completed_buffers_cons {β : Type} (e : Event β) (evs : List (Event β)) :
    completed_buffers (e :: evs) = completed_buffers [e] ++ completed_buffers evs := by
  cases e with
  | completion t submit_ok =>
    simp only [completed_buffers]
    split_ifs <;> simp
  | _ => simp [completed_buffers]

theorem Session.enqueued_run {β : Type} (evs : List (Event β)) :
    ∀ s : Session β, ∃ l, (s.run evs).enqueued = s.enqueued ++ l
      ∧ List.Sublist (l.map Prod.fst) (completed_buffers evs) := by
  induction evs with
  | nil => intro s; exact ⟨[], by simp [Session.run], by simp⟩
  | cons e evs ih =>
    intro s
    obtain ⟨l1, e1, p1⟩ := Session.enqueued_step s e
    obtain ⟨l2, e2, p2⟩ := ih (s.step e)
    refine ⟨l1 ++ l2, ?_, ?_⟩
    · have : s.run (e :: evs) = (s.step e).run evs := rfl
      rw [this, e2, e1, List.append_assoc]
    · rw [completed_buffers_cons, List.map_append]
      exact List.Sublist.append p1 p2

/-! ## Ordering, bounds and accounting of the ring -/

/-- C1: along every schedule of producer completions and consumer steps of
one session, the buffers handed to the callback are a prefix of the buffers
dequeued, these are a prefix of the buffers enqueued, and the enqueued
buffers are the completed transfers in completion order with none
duplicated or moved (a subsequence of them: the dropped ones are missing). -/
theorem ring_delivers_in_completion_order {β : Type} (d : hydrasdr_device β)
    (evs : List (Event β)) :
    List.IsPrefix (((Session.start d).run evs).delivered.map hydrasdr_transfer.samples)
        (((Session.start d).run evs).dequeued.map Prod.fst)
      ∧ List.IsPrefix (((Session.start d).run evs).dequeued.map Prod.fst)
        (((Session.start d).run evs).enqueued.map Prod.fst)
      ∧ List.Sublist (((Session.start d).run evs).enqueued.map Prod.fst)
        (completed_buffers evs) := by
  obtain ⟨n, h⟩ := Session.inv_reachable d evs
  refine ⟨?_, ?_, ?_⟩
  · obtain ⟨done, e1, e2⟩ := h.blocks
    rw [e1, e2]
    refine ⟨List.map Prod.fst ((Session.start d).run evs).consumer.in_flight, ?_⟩
    simp [List.map_map, Function.comp_def, consumer_block]
  · have e := congrArg (List.map Prod.fst) h.ring
    rw [List.map_map, List.map_append] at e
    have e' : (Prod.fst ∘ snapshot : β × Nat → β) = Prod.fst := rfl
    rw [e'] at e
    exact ⟨_, e.symm⟩
  · obtain ⟨l, e1, p⟩ := Session.enqueued_run evs (Session.start d)
    have e0 : (Session.start d).enqueued = [] := rfl
    rw [e1, e0, List.nil_append]
    exact p

/-- C3 as stated fails: after one completed transfer that the consumer has
not dequeued yet nothing is delivered and nothing is dropped. -/
theorem accounting_fails_while_queued :
    ((Session.start opened_device).run [full_completion 100]).delivered.length
        + ((Session.start opened_device).run [full_completion 100]).dropped
      ≠ ((Session.start opened_device).run [full_completion 100]).completed := by
  decide

/-- C3, amended: along every schedule, the blocks delivered, the completions
dropped and the blocks that are still queued (the filled count, less the one
block whose callback has returned and which is not released yet) add up to
the completed transfers; so delivered + dropped = completed whenever that
remainder is zero. -/
theorem ring_accounting {β : Type} (d : hydrasdr_device β) (evs : List (Event β)) :
    (((Session.start d).run evs).delivered.length : Int)
        + ((Session.start d).run evs).dropped
        + (((Session.start d).run evs).device.received_buffer_count
            - ((Session.start d).run evs).consumer.unreleased)
      = ((Session.start d).run evs).completed := by
  obtain ⟨n, h⟩ := Session.inv_reachable d evs
  obtain ⟨done, e1, e2⟩ := h.blocks
  have e3 := congrArg List.length h.ring
  have e4 := h.total
  have e5 := h.count_eq
  have len_ring : ∀ (f : Int → β × Nat) (m : Nat) (t : Int), (ring_from f t m).length = m := by
    intro f m
    induction m with
    | zero => intro t; rfl
    | succ m ih => intro t; simp [ring_from, ih]
  rw [List.length_map, List.length_append, len_ring, e1, List.length_append] at e3
  rw [e2, List.length_map, e4, e5]
  cases hc : ((Session.start d).run evs).consumer <;>
    simp only [hc, Consumer.in_flight, Consumer.held, Consumer.unreleased, List.length_nil,
      List.length_cons] at e3 ⊢ <;>
    omega

theorem delivered_sample_count_lt {β : Type} (d : hydrasdr_device β)
    (h : d.buffer_size < 2 ^ 32) : delivered_sample_count d < 2 ^ 32 := by
  have h1 : decoded_sample_count d < 2 ^ 32 := by
    unfold decoded_sample_count
    split_ifs <;> omega
  unfold delivered_sample_count
  split <;> omega

theorem Session.delivered_estimate {β : Type} (d : hydrasdr_device β)
    (hsize : d.buffer_size < 2 ^ 32) (evs : List (Event β)) (k : Nat)
    (t : hydrasdr_transfer β)
    (hk : ((Session.start d).run evs).delivered[k]? = some t) :
    ∃ b n, ((Session.start d).run evs).enqueued[k]? = some (b, n)
      ∧ t.samples = b
      ∧ t.sample_count = delivered_sample_count d
      ∧ t.dropped_samples = (n % 2 ^ 32) * t.sample_count := by
  obtain ⟨m, h⟩ := Session.inv_reachable d evs
  obtain ⟨done, e1, e2⟩ := h.blocks
  have e3 := h.ring
  rw [e2, List.getElem?_map] at hk
  cases hd : done[k]? with
  | none => simp [hd] at hk
  | some p =>
    rw [hd] at hk
    simp only [Option.map_some', Option.some.injEq] at hk
    have hlt : k < done.length := by
      rcases Nat.lt_or_ge k done.length with h' | h'
      · exact h'
      · rw [List.getElem?_eq_none h'] at hd; cases hd
    have e4 : (List.map snapshot ((Session.start d).run evs).enqueued)[k]? = some p := by
      rw [e3, e1, List.append_assoc, List.getElem?_append_left hlt]
      exact hd
    rw [List.getElem?_map] at e4
    cases he : ((Session.start d).run evs).enqueued[k]? with
    | none => simp [he] at e4
    | some q =>
      rw [he] at e4
      simp only [Option.map_some', Option.some.injEq] at e4
      refine ⟨q.1, q.2, rfl, ?_, ?_, ?_⟩
      · rw [← hk, ← e4]; rfl
      · rw [← hk]; rfl
      · have hlt2 := delivered_sample_count_lt d hsize
        have hmod : q.2 % 2 ^ 32 < 2 ^ 32 := Nat.mod_lt _ (by norm_num)
        have hprod : (q.2 % 2 ^ 32) * delivered_sample_count d < 2 ^ 64 := by
          calc (q.2 % 2 ^ 32) * delivered_sample_count d
              < 2 ^ 32 * 2 ^ 32 := Nat.mul_lt_mul'' hmod hlt2
            _ = 2 ^ 64 := by norm_num
        rw [← hk, ← e4]
        simp only [consumer_block, snapshot]
        exact Nat.mod_eq_of_lt hprod

theorem Session.run_append {β : Type} (s : Session β) (xs ys : List (Event β)) :
    s.run (xs ++ ys) = (s.run xs).run ys := by
  simp [Session.run, List.foldl_append]

theorem Session.run_replicate_drops (s : Session Nat) (b : Nat)
    (h1 : s.device.streaming = true) (h2 : s.device.stop_requested = false)
    (h3 : ¬ s.device.received_buffer_count < 8) (h4 : s.device.dropped_buffers < 2 ^ 32)
    (k : Nat) :
    s.run (List.replicate k (full_completion b)) = s.after_drops k := by
  induction k with
  | zero =>
    simp only [List.replicate, Session.run, List.foldl_nil, Session.after_drops, Nat.add_zero,
      Nat.mod_eq_of_lt h4]
  | succ k ih =>
    rw [List.replicate_succ', Session.run_append, ih]
    simp only [Session.run, List.foldl_cons, List.foldl_nil, Session.step, full_completion,
      hydrasdr_libusb_transfer_callback, Session.after_drops, h1, h2, RAW_BUFFER_COUNT, h3]
    simp only [Bool.not_true, Bool.or_self, Bool.false_eq_true, ↓reduceIte, Bool.and_self,
      beq_self_eq_true, Bool.true_and]
    have e : ((s.device.dropped_buffers + k) % 2 ^ 32 + 1) % 2 ^ 32
        = (s.device.dropped_buffers + (k + 1)) % 2 ^ 32 := by omega
    rw [e]
    rfl

theorem Session.stalled_estimate_wraps :
    ∃ t b n, ((Session.start opened_device).run stalled_schedule).delivered[8]? = some t
      ∧ ((Session.start opened_device).run stalled_schedule).enqueued[8]? = some (b, n)
      ∧ t.dropped_samples ≠ n * t.sample_count := by
  have key : (Session.start opened_device).run stalled_schedule
      = (((Session.start opened_device).run ring_fill).after_drops 4294967296).run ring_drain := by
    rw [stalled_schedule, Session.run_append, Session.run_append,
      Session.run_replicate_drops _ 9 (by decide) (by decide) (by decide) (by decide)]
  rw [key]
  exact ⟨consumer_block opened_device 8 0, 8, 4294967296, by decide, by decide, by decide⟩

/-! ## The drop estimate and the application -/

theorem Session.perform_pipeline {β : Type} (acts : List (Activity β)) :
    ∀ s : Session β, (∀ a ∈ acts, a.is_pipeline = true) →
      s.perform acts = s.run (Activity.events acts) := by
  induction acts with
  | nil => intro s _; rfl
  | cons a acts ih =>
    intro s h
    cases a with
    | pipeline e =>
      have := ih (s.step e) (fun x hx => h x (List.mem_cons_of_mem _ hx))
      simpa [Session.perform, Session.run, Activity.events, Session.act] using this
    | start_rx e callback ctx shell =>
      have := h _ (List.mem_cons_self _ _)
      simp [Activity.is_pipeline] at this

theorem Session.perform_append {β : Type} (s : Session β) (xs ys : List (Activity β)) :
    s.perform (xs ++ ys) = (s.perform xs).perform ys := by
  simp [Session.perform, List.foldl_append]

theorem Session.perform_map {β : Type} (evs : List (Event β)) :
    ∀ s : Session β, s.perform (evs.map Activity.pipeline) = s.run evs := by
  induction evs with
  | nil => intro s; rfl
  | cons e evs ih =>
    intro s
    have := ih (s.step e)
    simpa [Session.perform, Session.run, Session.act] using this

/-- C4 as stated fails in two ways.  Once 2^32 completions are dropped in a
row the 32-bit drop counter is back at 0 when the ninth buffer is enqueued,
and its block reports 0 dropped samples instead of 2^32 * 65536.  And when
the application calls `hydrasdr_start_rx` on the streaming device, the call
clears the counter before it fails: the ninth buffer, enqueued after three
drops and such a call, reports 0 dropped samples. -/
theorem drop_estimate_wraps :
    (∃ t b n, ((Session.start opened_device).run stalled_schedule).delivered[8]? = some t
        ∧ ((Session.start opened_device).run stalled_schedule).enqueued[8]? = some (b, n)
        ∧ t.dropped_samples ≠ n * t.sample_count)
      ∧ ((Session.start opened_device).perform restarted_schedule).enqueued[8]? = some (8, 3)
      ∧ (((Session.start opened_device).perform restarted_schedule).delivered[8]?).map
          hydrasdr_transfer.dropped_samples = some 0
      ∧ (((Session.start opened_device).perform restarted_schedule).delivered[8]?).map
          hydrasdr_transfer.sample_count = some 65536 := by
  refine ⟨Session.stalled_estimate_wraps, ?_⟩
  rw [restarted_schedule, Session.perform_append, Session.perform_append, Session.perform_map,
    Session.perform_map]
  simp only [Session.perform, List.foldl_cons, List.foldl_nil, Session.act]
  decide

/-- C4, amended: in a session during which the application does not call
`hydrasdr_start_rx` again, the `k`-th block delivered comes from the `k`-th
buffer enqueued and reports `dropped_samples = (n mod 2^32) * sample_count`,
where `n` is the number of completions dropped since the buffer enqueued
before it and `sample_count` the (already halved, for IQ) count of the same
block. -/
theorem delivered_block_drop_estimate {β : Type} (d : hydrasdr_device β)
    (hsize : d.buffer_size < 2 ^ 32) (acts : List (Activity β))
    (hacts : ∀ a ∈ acts, a.is_pipeline = true) (k : Nat) (t : hydrasdr_transfer β)
    (hk : ((Session.start d).perform acts).delivered[k]? = some t) :
    ∃ b n, ((Session.start d).perform acts).enqueued[k]? = some (b, n)
      ∧ t.samples = b
      ∧ t.sample_count = delivered_sample_count d
      ∧ t.dropped_samples = (n % 2 ^ 32) * t.sample_count := by
  rw [Session.perform_pipeline acts _ hacts] at hk ⊢
  exact Session.delivered_estimate d hsize (Activity.events acts) k t hk

/-- Witness for C4: the ring fills, three completions are dropped, and the
ninth block, enqueued after the first one is released, reports three times
its 65536 samples. -/
theorem delivered_block_drop_estimate_witness :
    ∃ b n, ((Session.start opened_device).perform
        ((ring_fill ++ [full_completion 9, full_completion 9, full_completion 9]
          ++ ring_drain).map Activity.pipeline)).enqueued[8]? = some (b, n)
      ∧ (consumer_block opened_device 8 3).samples = b
      ∧ (consumer_block opened_device 8 3).sample_count = delivered_sample_count opened_device
      ∧ (consumer_block opened_device 8 3).dropped_samples
          = (n % 2 ^ 32) * (consumer_block opened_device 8 3).sample_count :=
  delivered_block_drop_estimate opened_device (by decide)
    ((ring_fill ++ [full_completion 9, full_completion 9, full_completion 9]
      ++ ring_drain).map Activity.pipeline)
    (fun a ha => by
      obtain ⟨e, _, rfl⟩ := List.mem_map.mp ha
      rfl)
    8 (consumer_block opened_device 8 3)
    (by
      rw [Session.perform_map]
      decide)

/-! ## Sample conversion -/

theorem convert_loop_below {α : Type} (cvt : Nat → α) (src : Nat → Nat) (count : Nat) :
    ∀ (fuel i : Nat) (dest : Nat → α) (j : Nat), j < i →
      convert_loop cvt src count fuel i dest j = dest j := by
  intro fuel
  induction fuel with
  | zero => intro i dest j _; rfl
  | succ fuel ih =>
    intro i dest j hj
    simp only [convert_loop]
    split_ifs with hc
    · rw [ih (i + 4) _ j (by omega)]
      rw [Function.update_noteq (by omega), Function.update_noteq (by omega),
        Function.update_noteq (by omega), Function.update_noteq (by omega)]
    · rfl

theorem convert_loop_spec {α : Type} (cvt : Nat → α) (src : Nat → Nat) (count : Nat) :
    ∀ (fuel i : Nat) (dest : Nat → α) (j : Nat), count ≤ i + 4 * fuel → i ≤ j → j < count →
      convert_loop cvt src count fuel i dest j = cvt (src j) := by
  intro fuel
  induction fuel with
  | zero => intro i dest j h1 h2 h3; omega
  | succ fuel ih =>
    intro i dest j h1 h2 h3
    simp only [convert_loop]
    rw [if_pos (by omega)]
    by_cases h4 : j < i + 4
    · rw [convert_loop_below cvt src count fuel (i + 4) _ j h4]
      simp only [Nat.add_zero]
      have hcases : j = i ∨ j = i + 1 ∨ j = i + 2 ∨ j = i + 3 := by omega
      rcases hcases with e | e | e | e
      · subst e
        rw [Function.update_noteq (by omega), Function.update_noteq (by omega),
          Function.update_noteq (by omega), Function.update_same]
      · subst e
        rw [Function.update_noteq (by omega), Function.update_noteq (by omega),
          Function.update_same]
      · subst e
        rw [Function.update_noteq (by omega), Function.update_same]
      · subst e
        rw [Function.update_same]
    · exact ih (i + 4) _ j (by omega) (by omega) h3

theorem int16_sample_eq (s : Nat) (hs : s ≤ 4095) :
    int16_sample s = 16 * ((s : Int) - 2048) := by
  have e : (((s : Int) - 2048) <<< (SAMPLE_SHIFT : Int)) = ((s : Int) - 2048) * 16 := by
    rw [Int.shiftLeft_eq_mul_pow]
    rfl
  rw [int16_sample, e, to_int16]
  omega

/-- C6: at every index `j` of a buffer of `count` samples, `count` a multiple
of 4, a 12-bit sample `s = src[j]` is converted by `convert_samples_int16`
to `16 * (s - 2048)`, the recentred value shifted left by 4 bits, which lies
in -32768..32752 and so is not changed by the store into an `int16_t`. -/
theorem convert_samples_int16_value (src : Nat → Nat) (dest : Nat → Int) (count j : Nat)
    (_hcount : count % 4 = 0) (hj : j < count) (hs : src j ≤ 4095) :
    convert_samples_int16 src dest count j = 16 * ((src j : Int) - 2048)
      ∧ convert_samples_int16 src dest count j
          = ((src j : Int) - 2048) <<< ((SAMPLE_ENCAPSULATION - SAMPLE_RESOLUTION : Nat) : Int)
      ∧ -32768 ≤ convert_samples_int16 src dest count j
      ∧ convert_samples_int16 src dest count j ≤ 32752 := by
  have e : convert_samples_int16 src dest count j = 16 * ((src j : Int) - 2048) := by
    rw [convert_samples_int16, convert_loop_spec _ _ _ _ _ _ _ (by omega) (Nat.zero_le j) hj]
    exact int16_sample_eq _ hs
  have e2 : ((src j : Int) - 2048) <<< ((SAMPLE_ENCAPSULATION - SAMPLE_RESOLUTION : Nat) : Int)
      = ((src j : Int) - 2048) * 16 := by
    rw [Int.shiftLeft_eq_mul_pow]
    rfl
  rw [e, e2]
  refine ⟨rfl, by ring, by omega, by omega⟩

/-- Witness for C6: a buffer of four samples 0, 1, 2, 3. -/
theorem convert_samples_int16_value_witness :
    convert_samples_int16 (fun i => i) (fun _ => 0) 4 3 = 16 * (((3 : Nat) : Int) - 2048)
      ∧ convert_samples_int16 (fun i => i) (fun _ => 0) 4 3
          = (((3 : Nat) : Int) - 2048) <<< ((SAMPLE_ENCAPSULATION - SAMPLE_RESOLUTION : Nat) : Int)
      ∧ -32768 ≤ convert_samples_int16 (fun i => i) (fun _ => 0) 4 3
      ∧ convert_samples_int16 (fun i => i) (fun _ => 0) 4 3 ≤ 32752 :=
  convert_samples_int16_value (fun i => i) (fun _ => 0) 4 3 (by decide) (by decide) (by decide)

/-! ## Unpacking -/

theorem mask_shift (x k n : Nat) :
    (x &&& ((2 ^ n - 1) <<< k)) >>> k = (x >>> k) % 2 ^ n := by
  apply Nat.eq_of_testBit_eq
  intro i
  simp only [Nat.testBit_shiftRight, Nat.testBit_and, Nat.testBit_shiftLeft,
    Nat.testBit_mod_two_pow, Nat.testBit_two_pow_sub_one]
  by_cases h : i < n <;> simp [h, Bool.and_comm]

theorem low_mask (x n : Nat) : x &&& (2 ^ n - 1) = x % 2 ^ n :=
  Nat.and_pow_two_sub_one_eq_mod x n

theorem shift_or (a b k : Nat) (hb : b < 2 ^ k) : (a <<< k) ||| b = a * 2 ^ k + b := by
  rw [Nat.shiftLeft_eq, Nat.mul_comm a, ← Nat.mul_add_lt_is_or hb]

theorem unpack_expr_0 (w0 w1 w2 : Nat) :
    to_uint16 ((w0 >>> 20) &&& 0xfff) = unpack_field 0 w0 w1 w2 := by
  have e : (w0 >>> 20) &&& 0xfff = (w0 >>> 20) % 2 ^ 12 := low_mask _ 12
  rw [e, Nat.shiftRight_eq_div_pow]
  simp only [to_uint16, unpack_field]
  omega

theorem unpack_expr_1 (w0 w1 w2 : Nat) :
    to_uint16 ((w0 >>> 8) &&& 0xfff) = unpack_field 1 w0 w1 w2 := by
  have e : (w0 >>> 8) &&& 0xfff = (w0 >>> 8) % 2 ^ 12 := low_mask _ 12
  rw [e, Nat.shiftRight_eq_div_pow]
  simp only [to_uint16, unpack_field]
  omega

theorem unpack_expr_2 (w0 w1 w2 : Nat) :
    to_uint16 (((w0 &&& 0xff) <<< 4) ||| ((w1 >>> 28) &&& 0xf)) = unpack_field 2 w0 w1 w2 := by
  have e1 : w0 &&& 0xff = w0 % 2 ^ 8 := low_mask _ 8
  have e2 : (w1 >>> 28) &&& 0xf = (w1 >>> 28) % 2 ^ 4 := low_mask _ 4
  rw [e1, e2, shift_or _ _ 4 (Nat.mod_lt _ (by norm_num)), Nat.shiftRight_eq_div_pow]
  simp only [to_uint16, unpack_field]
  omega

theorem unpack_expr_3 (w0 w1 w2 : Nat) :
    to_uint16 ((w1 &&& 0xfff0000) >>> 16) = unpack_field 3 w0 w1 w2 := by
  have e : (w1 &&& 0xfff0000) >>> 16 = (w1 >>> 16) % 2 ^ 12 := mask_shift w1 16 12
  rw [e, Nat.shiftRight_eq_div_pow]
  simp only [to_uint16, unpack_field]
  omega

theorem unpack_expr_4 (w0 w1 w2 : Nat) :
    to_uint16 ((w1 &&& 0xfff0) >>> 4) = unpack_field 4 w0 w1 w2 := by
  have e : (w1 &&& 0xfff0) >>> 4 = (w1 >>> 4) % 2 ^ 12 := mask_shift w1 4 12
  rw [e, Nat.shiftRight_eq_div_pow]
  simp only [to_uint16, unpack_field]
  omega

theorem unpack_expr_5 (w0 w1 w2 : Nat) :
    to_uint16 (((w1 &&& 0xf) <<< 8) ||| ((w2 &&& 0xff000000) >>> 24))
      = unpack_field 5 w0 w1 w2 := by
  have e1 : w1 &&& 0xf = w1 % 2 ^ 4 := low_mask _ 4
  have e2 : (w2 &&& 0xff000000) >>> 24 = (w2 >>> 24) % 2 ^ 8 := mask_shift w2 24 8
  rw [e1, e2, shift_or _ _ 8 (Nat.mod_lt _ (by norm_num)), Nat.shiftRight_eq_div_pow]
  simp only [to_uint16, unpack_field]
  omega

theorem unpack_expr_6 (w0 w1 w2 : Nat) :
    to_uint16 ((w2 >>> 12) &&& 0xfff) = unpack_field 6 w0 w1 w2 := by
  have e : (w2 >>> 12) &&& 0xfff = (w2 >>> 12) % 2 ^ 12 := low_mask _ 12
  rw [e, Nat.shiftRight_eq_div_pow]
  simp only [to_uint16, unpack_field]
  omega

theorem unpack_expr_7 (w0 w1 w2 : Nat) :
    to_uint16 (w2 &&& 0xfff) = unpack_field 7 w0 w1 w2 := by
  have e : w2 &&& 0xfff = w2 % 2 ^ 12 := low_mask _ 12
  rw [e]
  simp only [to_uint16, unpack_field]
  omega

theorem unpack_loop_below (input : Nat → Nat) (length : Nat) :
    ∀ (fuel i j : Nat) (output : Nat → Nat) (m : Nat), m < j →
      unpack_loop input length fuel i j output m = output m := by
  intro fuel
  induction fuel with
  | zero => intro i j output m _; rfl
  | succ fuel ih =>
    intro i j output m hm
    simp only [unpack_loop]
    split_ifs with hc
    · rw [ih (i + 3) (j + 8) _ m (by omega)]
      rw [Function.update_noteq (by omega), Function.update_noteq (by omega),
        Function.update_noteq (by omega), Function.update_noteq (by omega),
        Function.update_noteq (by omega), Function.update_noteq (by omega),
        Function.update_noteq (by omega), Function.update_noteq (by omega)]
    · rfl

theorem unpack_loop_spec (input : Nat → Nat) (length : Nat) :
    ∀ (fuel t : Nat) (output : Nat → Nat) (m : Nat), length ≤ 8 * t + 8 * fuel → 8 * t ≤ m →
      m < length →
      unpack_loop input length fuel (3 * t) (8 * t) output m
        = unpack_field (m % 8) (input (3 * (m / 8))) (input (3 * (m / 8) + 1))
            (input (3 * (m / 8) + 2)) := by
  intro fuel
  induction fuel with
  | zero => intro t output m h1 h2 h3; omega
  | succ fuel ih =>
    intro t output m h1 h2 h3
    simp only [unpack_loop]
    rw [if_pos (by omega)]
    by_cases h4 : m < 8 * t + 8
    · rw [unpack_loop_below input length fuel _ _ _ m h4]
      have hq : m / 8 = t := by omega
      simp only [Nat.add_zero, unpack_expr_0 _ (input (3 * t + 1)) (input (3 * t + 2)),
        unpack_expr_1 _ (input (3 * t + 1)) (input (3 * t + 2)),
        unpack_expr_2 _ _ (input (3 * t + 2)), unpack_expr_3 (input (3 * t)) _ (input (3 * t + 2)),
        unpack_expr_4 (input (3 * t)) _ (input (3 * t + 2)), unpack_expr_5 (input (3 * t)) _ _,
        unpack_expr_6 (input (3 * t)) (input (3 * t + 1)) _,
        unpack_expr_7 (input (3 * t)) (input (3 * t + 1)) _]
      rw [hq]
      have hcases : m = 8 * t ∨ m = 8 * t + 1 ∨ m = 8 * t + 2 ∨ m = 8 * t + 3 ∨ m = 8 * t + 4
          ∨ m = 8 * t + 5 ∨ m = 8 * t + 6 ∨ m = 8 * t + 7 := by omega
      rcases hcases with e | e | e | e | e | e | e | e <;> subst e
      · have r : 8 * t % 8 = 0 := by omega
        rw [r]
        simp [Function.update_noteq, Function.update_same]
      · have r : (8 * t + 1) % 8 = 1 := by omega
        rw [r]
        simp [Function.update_noteq, Function.update_same]
      · have r : (8 * t + 2) % 8 = 2 := by omega
        rw [r]
        simp [Function.update_noteq, Function.update_same]
      · have r : (8 * t + 3) % 8 = 3 := by omega
        rw [r]
        simp [Function.update_noteq, Function.update_same]
      · have r : (8 * t + 4) % 8 = 4 := by omega
        rw [r]
        simp [Function.update_noteq, Function.update_same]
      · have r : (8 * t + 5) % 8 = 5 := by omega
        rw [r]
        simp [Function.update_noteq, Function.update_same]
      · have r : (8 * t + 6) % 8 = 6 := by omega
        rw [r]
        simp [Function.update_noteq, Function.update_same]
      · have r : (8 * t + 7) % 8 = 7 := by omega
        rw [r]
        simp [Function.update_noteq, Function.update_same]
    · have e3 : 3 * t + 3 = 3 * (t + 1) := by ring
      have e8 : 8 * t + 8 = 8 * (t + 1) := by ring
      rw [e3, e8]
      exact ih (t + 1) _ m (by omega) (by omega) h3

theorem unpack_samples_eq (input output : Nat → Nat) (length m : Nat) (hm : m < length) :
    unpack_samples input output length m
      = unpack_field (m % 8) (input (3 * (m / 8))) (input (3 * (m / 8) + 1))
          (input (3 * (m / 8) + 2)) := by
  have h := unpack_loop_spec input length length 0 output m (by omega) (by omega) hm
  simpa [unpack_samples] using h

theorem unpack_field_lt (k w0 w1 w2 : Nat) : unpack_field k w0 w1 w2 < 4096 := by
  unfold unpack_field
  split <;> omega

theorem pack_samples_group (v : Nat → Nat) (g : Nat) :
    pack_samples v (3 * g) = group_value v g / 2 ^ 64
      ∧ pack_samples v (3 * g + 1) = group_value v g / 2 ^ 32 % 2 ^ 32
      ∧ pack_samples v (3 * g + 2) = group_value v g % 2 ^ 32 := by
  have a0 : 3 * g % 3 = 0 := by omega
  have a1 : (3 * g + 1) % 3 = 1 := by omega
  have a2 : (3 * g + 2) % 3 = 2 := by omega
  have b0 : 3 * g / 3 = g := by omega
  have b1 : (3 * g + 1) / 3 = g := by omega
  have b2 : (3 * g + 2) / 3 = g := by omega
  simp [pack_samples, a0, a1, a2, b0, b1, b2]

theorem pack_samples_lt (v : Nat → Nat) (hv : ∀ m, v m < 4096) (i : Nat) :
    pack_samples v i < 2 ^ 32 := by
  have h0 := hv (8 * (i / 3))
  have h1 := hv (8 * (i / 3) + 1)
  have h2 := hv (8 * (i / 3) + 2)
  have h3 := hv (8 * (i / 3) + 3)
  have h4 := hv (8 * (i / 3) + 4)
  have h5 := hv (8 * (i / 3) + 5)
  have h6 := hv (8 * (i / 3) + 6)
  have h7 := hv (8 * (i / 3) + 7)
  unfold pack_samples group_value
  split_ifs <;> omega

theorem unpack_pack_field (v : Nat → Nat) (hv : ∀ m, v m < 4096) (g r : Nat) (hr : r < 8) :
    unpack_field r (group_value v g / 2 ^ 64) (group_value v g / 2 ^ 32 % 2 ^ 32)
        (group_value v g % 2 ^ 32) = v (8 * g + r) := by
  have h0 := hv (8 * g)
  have h1 := hv (8 * g + 1)
  have h2 := hv (8 * g + 2)
  have h3 := hv (8 * g + 3)
  have h4 := hv (8 * g + 4)
  have h5 := hv (8 * g + 5)
  have h6 := hv (8 * g + 6)
  have h7 := hv (8 * g + 7)
  have hcases : r = 0 ∨ r = 1 ∨ r = 2 ∨ r = 3 ∨ r = 4 ∨ r = 5 ∨ r = 6 ∨ r = 7 := by omega
  rcases hcases with e | e | e | e | e | e | e | e <;> subst e <;>
    simp only [unpack_field, group_value, Nat.add_zero] <;> omega

theorem unpack_pack (v : Nat → Nat) (hv : ∀ m, v m < 4096) (output : Nat → Nat)
    (length j : Nat) (hj : j < length) :
    unpack_samples (pack_samples v) output length j = v j := by
  obtain ⟨p0, p1, p2⟩ := pack_samples_group v (j / 8)
  rw [unpack_samples_eq _ _ _ _ hj, p0, p1, p2,
    unpack_pack_field v hv (j / 8) (j % 8) (Nat.mod_lt _ (by norm_num))]
  congr 1
  omega

theorem word0_determined (a b : Nat) (ha : a < 2 ^ 32) (hb : b < 2 ^ 32)
    (h0 : a / 2 ^ 20 % 4096 = b / 2 ^ 20 % 4096) (h1 : a / 2 ^ 8 % 4096 = b / 2 ^ 8 % 4096)
    (h2 : a % 256 = b % 256) : a = b := by
  omega

theorem word1_determined (a b : Nat) (ha : a < 2 ^ 32) (hb : b < 2 ^ 32)
    (h0 : a / 2 ^ 28 % 16 = b / 2 ^ 28 % 16) (h1 : a / 2 ^ 16 % 4096 = b / 2 ^ 16 % 4096)
    (h2 : a / 2 ^ 4 % 4096 = b / 2 ^ 4 % 4096) (h3 : a % 16 = b % 16) : a = b := by
  omega

theorem word2_determined (a b : Nat) (ha : a < 2 ^ 32) (hb : b < 2 ^ 32)
    (h0 : a / 2 ^ 24 % 256 = b / 2 ^ 24 % 256) (h1 : a / 2 ^ 12 % 4096 = b / 2 ^ 12 % 4096)
    (h2 : a % 4096 = b % 4096) : a = b := by
  omega

theorem straddle_split (x y x' y' m : Nat) (hy : y < m) (hy' : y' < m)
    (h : x * m + y = x' * m + y') : x = x' ∧ y = y' := by
  have hm : 0 < m := Nat.lt_of_le_of_lt (Nat.zero_le y) hy
  have e1 : (x * m + y) / m = x := by
    rw [Nat.mul_comm, Nat.mul_add_div hm, Nat.div_eq_of_lt hy, Nat.add_zero]
  have e2 : (x' * m + y') / m = x' := by
    rw [Nat.mul_comm, Nat.mul_add_div hm, Nat.div_eq_of_lt hy', Nat.add_zero]
  have ex : x = x' := by rw [← e1, ← e2, h]
  subst ex
  exact ⟨rfl, Nat.add_left_cancel h⟩

theorem unpack_field_injective (a0 a1 a2 b0 b1 b2 : Nat)
    (ha0 : a0 < 2 ^ 32) (ha1 : a1 < 2 ^ 32) (ha2 : a2 < 2 ^ 32)
    (hb0 : b0 < 2 ^ 32) (hb1 : b1 < 2 ^ 32) (hb2 : b2 < 2 ^ 32)
    (h : ∀ k, k < 8 → unpack_field k a0 a1 a2 = unpack_field k b0 b1 b2) :
    a0 = b0 ∧ a1 = b1 ∧ a2 = b2 := by
  have f0 := h 0 (by norm_num)
  have f1 := h 1 (by norm_num)
  have f2 := h 2 (by norm_num)
  have f3 := h 3 (by norm_num)
  have f4 := h 4 (by norm_num)
  have f5 := h 5 (by norm_num)
  have f6 := h 6 (by norm_num)
  have f7 := h 7 (by norm_num)
  simp only [unpack_field] at f0 f1 f2 f3 f4 f5 f6 f7
  obtain ⟨g2, g2'⟩ := straddle_split _ _ _ _ 16 (Nat.mod_lt _ (by norm_num))
    (Nat.mod_lt _ (by norm_num)) f2
  obtain ⟨g5, g5'⟩ := straddle_split _ _ _ _ 256 (Nat.mod_lt _ (by norm_num))
    (Nat.mod_lt _ (by norm_num)) f5
  exact ⟨word0_determined a0 b0 ha0 hb0 f0 f1 g2,
    word1_determined a1 b1 ha1 hb1 g2' f3 f4 g5,
    word2_determined a2 b2 ha2 hb2 g5' f6 f7⟩

/-- C8: unpacking is lossless.  For values below 4096 the packed words fit
32 bits and `unpack_samples` gives the values back, in particular for the
synthetic buffer 0, 1, ..., 4095 repeating; every unpacked value is below
4096; and two buffers of 32-bit words with the same unpacked samples are
the same word for word, so that per group of three words `unpack_samples`
is a bijection onto the 8-tuples of 12-bit values. -/
theorem unpack_samples_lossless (v input input' output output' : Nat → Nat) (length : Nat)
    (hv : ∀ m, v m < 4096) (hin : ∀ i, input i < 2 ^ 32) (hin' : ∀ i, input' i < 2 ^ 32)
    (hlen : length % 8 = 0) :
    (∀ i, pack_samples v i < 2 ^ 32)
      ∧ (∀ j, j < length → unpack_samples (pack_samples v) output length j = v j)
      ∧ (∀ j, j < length →
          unpack_samples (pack_samples (fun m => m % 4096)) output length j = j % 4096)
      ∧ (∀ j, j < length → unpack_samples input output length j < 4096)
      ∧ ((∀ j, j < length →
            unpack_samples input output length j = unpack_samples input' output' length j) →
          ∀ i, i < 3 * (length / 8) → input i = input' i) := by
  refine ⟨pack_samples_lt v hv, fun j hj => unpack_pack v hv output length j hj,
    fun j hj => unpack_pack _ (fun m => Nat.mod_lt _ (by norm_num)) output length j hj,
    fun j hj => ?_, fun h i hi => ?_⟩
  · rw [unpack_samples_eq _ _ _ _ hj]
    exact unpack_field_lt _ _ _ _
  · have key : ∀ k, k < 8 →
        unpack_field k (input (3 * (i / 3))) (input (3 * (i / 3) + 1)) (input (3 * (i / 3) + 2))
          = unpack_field k (input' (3 * (i / 3))) (input' (3 * (i / 3) + 1))
              (input' (3 * (i / 3) + 2)) := by
      intro k hk
      have hj : 8 * (i / 3) + k < length := by omega
      have e := h (8 * (i / 3) + k) hj
      rw [unpack_samples_eq _ _ _ _ hj, unpack_samples_eq _ _ _ _ hj] at e
      have q : (8 * (i / 3) + k) / 8 = i / 3 := by omega
      have r : (8 * (i / 3) + k) % 8 = k := by omega
      rw [q, r] at e
      exact e
    obtain ⟨e0, e1, e2⟩ := unpack_field_injective _ _ _ _ _ _ (hin _) (hin _) (hin _)
      (hin' _) (hin' _) (hin' _) key
    have hcases : i = 3 * (i / 3) ∨ i = 3 * (i / 3) + 1 ∨ i = 3 * (i / 3) + 2 := by omega
    rcases hcases with c | c | c
    · rw [c]; exact e0
    · rw [c]; exact e1
    · rw [c]; exact e2

/-- Witness for C8: one group of eight samples 0..7. -/
theorem unpack_samples_lossless_witness :
    unpack_samples (pack_samples (fun m => m % 4096)) (fun _ => 0) 8 5 = 5 :=
  (unpack_samples_lossless (fun m => m % 4096) (fun _ => 0) (fun _ => 0) (fun _ => 0)
    (fun _ => 0) 8 (fun m => Nat.mod_lt m (by decide)) (fun _ => Nat.two_pow_pos 32)
    (fun _ => Nat.two_pow_pos 32) (by decide)).2.1 5 (by decide)

/-! ## Gain curves -/

theorem getD_le_of_forall (tbl : List Nat) (b : Nat) (h : ∀ x ∈ tbl, x ≤ b) (k : Nat) :
    tbl.getD k 0 ≤ b := by
  rcases Nat.lt_or_ge k tbl.length with hk | hk
  · rw [List.getD_eq_getElem _ _ hk]
    exact h _ (List.getElem_mem hk)
  · rw [List.getD_eq_default _ _ hk]
    exact Nat.zero_le b

theorem control_ok (u : usb_device) (request value index : Nat)
    (h : 1 ≤ u.reply u.sent.length) :
    control_result (libusb_control_transfer u request value index)
      = ({ u with sent := u.sent ++ [{ request := request, value := value, index := index }] },
          HYDRASDR_SUCCESS) := by
  simp [control_result, libusb_control_transfer, not_lt.mpr h]

theorem control_fail (u : usb_device) (request value index : Nat)
    (h : u.reply u.sent.length < 1) :
    control_result (libusb_control_transfer u request value index)
      = ({ u with sent := u.sent ++ [{ request := request, value := value, index := index }] },
          HYDRASDR_ERROR_LIBUSB) := by
  simp [control_result, libusb_control_transfer, h]

theorem set_curve_gain_ok (vga mixer lna : List Nat) (hvga : ∀ x ∈ vga, x ≤ 15)
    (hmixer : ∀ x ∈ mixer, x ≤ 15) (hlna : ∀ x ∈ lna, x ≤ 14) (u : usb_device) (v : Nat)
    (hok : ∀ k, k < 5 → 1 ≤ u.reply (u.sent.length + k)) :
    set_curve_gain vga mixer lna u v
      = ({ u with sent := u.sent ++ curve_commands vga mixer lna (21 - min v 21) },
          HYDRASDR_SUCCESS) := by
  have h0 := hok 0 (by norm_num)
  have h1 := hok 1 (by norm_num)
  have h2 := hok 2 (by norm_num)
  have h3 := hok 3 (by norm_num)
  have h4 := hok 4 (by norm_num)
  have hidx : (GAIN_COUNT - 1 - (if v ≥ GAIN_COUNT then GAIN_COUNT - 1 else v)) % 256
      = 21 - min v 21 := by
    simp only [GAIN_COUNT]
    split_ifs <;> omega
  have c1 := getD_le_of_forall vga 15 hvga (21 - min v 21)
  have c2 := getD_le_of_forall mixer 15 hmixer (21 - min v 21)
  have c3 := getD_le_of_forall lna 14 hlna (21 - min v 21)
  have k1 : (if vga.getD (21 - min v 21) 0 > 15 then 15 else vga.getD (21 - min v 21) 0)
      = vga.getD (21 - min v 21) 0 := if_neg (by omega)
  have k2 : (if mixer.getD (21 - min v 21) 0 > 15 then 15 else mixer.getD (21 - min v 21) 0)
      = mixer.getD (21 - min v 21) 0 := if_neg (by omega)
  have k3 : (if lna.getD (21 - min v 21) 0 > 14 then 14 else lna.getD (21 - min v 21) 0)
      = lna.getD (21 - min v 21) 0 := if_neg (by omega)
  simp only [set_curve_gain, hidx, hydrasdr_set_mixer_agc, hydrasdr_set_lna_agc,
    hydrasdr_set_vga_gain, hydrasdr_set_mixer_gain, hydrasdr_set_lna_gain, k1, k2, k3]
  rw [control_ok u _ _ _ (by simpa using h0)]
  simp only [HYDRASDR_SUCCESS, lt_self_iff_false, if_false]
  rw [control_ok _ _ _ _ (by simpa using h1)]
  simp only [HYDRASDR_SUCCESS, lt_self_iff_false, if_false]
  rw [control_ok _ _ _ _ (by simpa [Nat.add_assoc] using h2)]
  simp only [HYDRASDR_SUCCESS, lt_self_iff_false, if_false]
  rw [control_ok _ _ _ _ (by simpa [Nat.add_assoc] using h3)]
  simp only [HYDRASDR_SUCCESS, lt_self_iff_false, if_false]
  rw [control_ok _ _ _ _ (by simpa [Nat.add_assoc] using h4)]
  simp [HYDRASDR_SUCCESS, curve_commands]

theorem set_curve_gain_fail (vga mixer lna : List Nat) (hvga : ∀ x ∈ vga, x ≤ 15)
    (hmixer : ∀ x ∈ mixer, x ≤ 15) (hlna : ∀ x ∈ lna, x ≤ 14) (u : usb_device) (v k : Nat)
    (hk : k < 5) (hok : ∀ j, j < k → 1 ≤ u.reply (u.sent.length + j))
    (hfail : u.reply (u.sent.length + k) < 1) :
    set_curve_gain vga mixer lna u v
      = ({ u with
            sent := u.sent ++ (curve_commands vga mixer lna (21 - min v 21)).take (k + 1) },
          HYDRASDR_ERROR_LIBUSB) := by
  have hidx : (GAIN_COUNT - 1 - (if v ≥ GAIN_COUNT then GAIN_COUNT - 1 else v)) % 256
      = 21 - min v 21 := by
    simp only [GAIN_COUNT]
    split_ifs <;> omega
  have c1 := getD_le_of_forall vga 15 hvga (21 - min v 21)
  have c2 := getD_le_of_forall mixer 15 hmixer (21 - min v 21)
  have c3 := getD_le_of_forall lna 14 hlna (21 - min v 21)
  have k1 : (if vga.getD (21 - min v 21) 0 > 15 then 15 else vga.getD (21 - min v 21) 0)
      = vga.getD (21 - min v 21) 0 := if_neg (by omega)
  have k2 : (if mixer.getD (21 - min v 21) 0 > 15 then 15 else mixer.getD (21 - min v 21) 0)
      = mixer.getD (21 - min v 21) 0 := if_neg (by omega)
  have k3 : (if lna.getD (21 - min v 21) 0 > 14 then 14 else lna.getD (21 - min v 21) 0)
      = lna.getD (21 - min v 21) 0 := if_neg (by omega)
  simp only [set_curve_gain, hidx, hydrasdr_set_mixer_agc, hydrasdr_set_lna_agc,
    hydrasdr_set_vga_gain, hydrasdr_set_mixer_gain, hydrasdr_set_lna_gain, k1, k2, k3]
  have hneg : HYDRASDR_ERROR_LIBUSB < 0 := by decide
  have hzero : ¬ HYDRASDR_SUCCESS < 0 := by decide
  interval_cases k
  · rw [control_fail u _ _ _ (by simpa using hfail)]
    simp [hneg, curve_commands]
  · rw [control_ok u _ _ _ (by simpa using hok 0 (by norm_num))]
    simp only [hzero, if_false]
    rw [control_fail _ _ _ _ (by simpa using hfail)]
    simp [hneg, curve_commands]
  · rw [control_ok u _ _ _ (by simpa using hok 0 (by norm_num))]
    simp only [hzero, if_false]
    rw [control_ok _ _ _ _ (by simpa using hok 1 (by norm_num))]
    simp only [hzero, if_false]
    rw [control_fail _ _ _ _ (by simpa [Nat.add_assoc] using hfail)]
    simp [hneg, curve_commands]
  · rw [control_ok u _ _ _ (by simpa using hok 0 (by norm_num))]
    simp only [hzero, if_false]
    rw [control_ok _ _ _ _ (by simpa using hok 1 (by norm_num))]
    simp only [hzero, if_false]
    rw [control_ok _ _ _ _ (by simpa [Nat.add_assoc] using hok 2 (by norm_num))]
    simp only [hzero, if_false]
    rw [control_fail _ _ _ _ (by simpa [Nat.add_assoc] using hfail)]
    simp [hneg, curve_commands]
  · rw [control_ok u _ _ _ (by simpa using hok 0 (by norm_num))]
    simp only [hzero, if_false]
    rw [control_ok _ _ _ _ (by simpa using hok 1 (by norm_num))]
    simp only [hzero, if_false]
    rw [control_ok _ _ _ _ (by simpa [Nat.add_assoc] using hok 2 (by norm_num))]
    simp only [hzero, if_false]
    rw [control_ok _ _ _ _ (by simpa [Nat.add_assoc] using hok 3 (by norm_num))]
    simp only [hzero, if_false]
    rw [control_fail _ _ _ _ (by simpa [Nat.add_assoc] using hfail)]
    simp [hneg, curve_commands]

/-- C9: for either curve and every 8-bit index `v`, when all five control
transfers succeed the setter issues mixer AGC off, LNA AGC off, then the
VGA, mixer and LNA gains of the curve at storage index `21 - min v 21`, in
that order and nothing else, and returns success. -/
theorem curve_gain_issues_five_commands (u : usb_device) (v : Nat) (_hv : v < 256)
    (hok : ∀ k, k < 5 → 1 ≤ u.reply (u.sent.length + k)) :
    hydrasdr_set_linearity_gain u v
        = ({ u with
              sent := u.sent ++
                [{ request := HYDRASDR_SET_MIXER_AGC, value := 0, index := 0 },
                  { request := HYDRASDR_SET_LNA_AGC, value := 0, index := 0 },
                  { request := HYDRASDR_SET_VGA_GAIN, value := 0
                    index := hydrasdr_linearity_vga_gains.getD (21 - min v 21) 0 },
                  { request := HYDRASDR_SET_MIXER_GAIN, value := 0
                    index := hydrasdr_linearity_mixer_gains.getD (21 - min v 21) 0 },
                  { request := HYDRASDR_SET_LNA_GAIN, value := 0
                    index := hydrasdr_linearity_lna_gains.getD (21 - min v 21) 0 }] },
            HYDRASDR_SUCCESS)
      ∧ hydrasdr_set_sensitivity_gain u v
        = ({ u with
              sent := u.sent ++
                [{ request := HYDRASDR_SET_MIXER_AGC, value := 0, index := 0 },
                  { request := HYDRASDR_SET_LNA_AGC, value := 0, index := 0 },
                  { request := HYDRASDR_SET_VGA_GAIN, value := 0
                    index := hydrasdr_sensitivity_vga_gains.getD (21 - min v 21) 0 },
                  { request := HYDRASDR_SET_MIXER_GAIN, value := 0
                    index := hydrasdr_sensitivity_mixer_gains.getD (21 - min v 21) 0 },
                  { request := HYDRASDR_SET_LNA_GAIN, value := 0
                    index := hydrasdr_sensitivity_lna_gains.getD (21 - min v 21) 0 }] },
            HYDRASDR_SUCCESS) :=
  ⟨set_curve_gain_ok _ _ _ (by decide) (by decide) (by decide) u v hok,
    set_curve_gain_ok _ _ _ (by decide) (by decide) (by decide) u v hok⟩

/-- Witness for C9: index 200 is clamped to 21, storage index 0. -/
theorem curve_gain_issues_five_commands_witness :
    (hydrasdr_set_linearity_gain healthy_usb 200).1.sent
        = [{ request := 18, value := 0, index := 0 }, { request := 17, value := 0, index := 0 },
            { request := 16, value := 0, index := 13 }, { request := 15, value := 0, index := 12 },
            { request := 14, value := 0, index := 14 }]
      ∧ (hydrasdr_set_linearity_gain healthy_usb 200).2 = 0 := by
  have h := (curve_gain_issues_five_commands healthy_usb 200 (by decide)
    (fun _ _ => Int.le_refl 1)).1
  rw [h]
  exact ⟨by decide, by decide⟩

/-- C10: for either curve, when the sub-command number `k` (0 = mixer AGC
off, 1 = LNA AGC off, 2 = VGA, 3 = mixer, 4 = LNA) is the first to fail,
the setter returns the error code of that sub-command,
`HYDRASDR_ERROR_LIBUSB`; the sub-commands up to and including it have gone
out once each, in order, and none of the later ones has. -/
theorem curve_gain_stops_at_failure (u : usb_device) (v k : Nat) (_hv : v < 256) (hk : k < 5)
    (hok : ∀ j, j < k → 1 ≤ u.reply (u.sent.length + j))
    (hfail : u.reply (u.sent.length + k) < 1) :
    hydrasdr_set_linearity_gain u v
        = ({ u with
              sent := u.sent ++
                (curve_commands hydrasdr_linearity_vga_gains hydrasdr_linearity_mixer_gains
                  hydrasdr_linearity_lna_gains (21 - min v 21)).take (k + 1) },
            HYDRASDR_ERROR_LIBUSB)
      ∧ hydrasdr_set_sensitivity_gain u v
        = ({ u with
              sent := u.sent ++
                (curve_commands hydrasdr_sensitivity_vga_gains hydrasdr_sensitivity_mixer_gains
                  hydrasdr_sensitivity_lna_gains (21 - min v 21)).take (k + 1) },
            HYDRASDR_ERROR_LIBUSB) :=
  ⟨set_curve_gain_fail _ _ _ (by decide) (by decide) (by decide) u v k hk hok hfail,
    set_curve_gain_fail _ _ _ (by decide) (by decide) (by decide) u v k hk hok hfail⟩

/-- Witness for C10: the VGA command (number 2) fails. -/
theorem curve_gain_stops_at_failure_witness :
    (hydrasdr_set_sensitivity_gain (failing_usb 2) 0).1.sent
        = [{ request := 18, value := 0, index := 0 }, { request := 17, value := 0, index := 0 },
            { request := 16, value := 0, index := 4 }]
      ∧ (hydrasdr_set_sensitivity_gain (failing_usb 2) 0).2 = -1000 := by
  have h := (curve_gain_stops_at_failure (failing_usb 2) 0 2 (by decide) (by decide)
    (fun j hj => by interval_cases j <;> decide) (by decide)).2
  rw [h]
  exact ⟨by decide, by decide⟩

/-! ## Conversion to float -/

theorem binary32_round_exact (m e : ℤ) (hm : |m| < 2 ^ 24) (he : -149 ≤ e) :
    binary32_round (m * 2 ^ e) = m * 2 ^ e := by
  unfold binary32_round
  split_ifs with h0
  · exact h0.symm
  · have hpos : (0 : ℚ) < 2 ^ e := zpow_pos (by norm_num) e
    have habs : |(m : ℚ) * 2 ^ e| < ((2 : ℕ) : ℚ) ^ (e + 24) := by
      rw [abs_mul, abs_of_pos hpos, zpow_add₀ (by norm_num), mul_comm]
      apply mul_lt_mul_of_pos_left _ (by simpa using hpos)
      have h2 : |(m : ℚ)| < 2 ^ (24 : ℕ) := by exact_mod_cast hm
      have h3 : ((2 : ℕ) : ℚ) ^ (24 : ℤ) = 2 ^ (24 : ℕ) := by norm_num
      rw [h3]
      exact h2
    have hlog : Int.log 2 |(m : ℚ) * 2 ^ e| < e + 24 :=
      (Int.lt_zpow_iff_log_lt (by norm_num) (abs_pos.mpr h0)).mp habs
    have hE : max (Int.log 2 |(m : ℚ) * 2 ^ e| - 23) (-149) ≤ e := by
      apply max_le <;> omega
    generalize max (Int.log 2 |(m : ℚ) * 2 ^ e| - 23) (-149) = E at hE
    obtain ⟨n, hn⟩ := Int.eq_ofNat_of_zero_le (sub_nonneg.mpr hE)
    have hx : (m : ℚ) * 2 ^ e / 2 ^ E = ((m * 2 ^ n : ℤ) : ℚ) := by
      have : e = E + n := by omega
      rw [this, zpow_add₀ (by norm_num)]
      field_simp
      ring
    simp only [hx, Int.floor_intCast, sub_self]
    norm_num
    have : e = n + E := by omega
    rw [this, zpow_add₀ (by norm_num), zpow_natCast]
    ring

theorem binary32_round_int (k : ℤ) (hk : |k| < 2 ^ 24) : binary32_round (k : ℚ) = k := by
  have h := binary32_round_exact k 0 hk (by norm_num)
  simpa using h

theorem SAMPLE_SCALE_eq : SAMPLE_SCALE = 1 / 2048 := by
  have h1 : binary32_round 1 = 1 := by
    have h := binary32_round_int 1 (by norm_num)
    simpa using h
  have h2 : binary32_round (((1 <<< (15 - SAMPLE_SHIFT) : Nat) : ℤ) : ℚ) = 2048 := by
    have e : (1 <<< (15 - SAMPLE_SHIFT) : Nat) = 2048 := by decide
    rw [e]
    have h := binary32_round_int 2048 (by norm_num)
    simpa using h
  have h3 : binary32_round ((1 : ℚ) / 2048) = 1 / 2048 := by
    have h := binary32_round_exact 1 (-11) (by norm_num) (by norm_num)
    have e : ((1 : ℤ) : ℚ) * 2 ^ (-11 : ℤ) = 1 / 2048 := by norm_num
    rw [e] at h
    exact h
  rw [SAMPLE_SCALE, h1, h2, h3]

theorem float_sample_eq (s : Nat) (hs : s ≤ 4095) :
    float_sample s = ((s : ℚ) - 2048) / 2048 := by
  have hk : |(s : ℤ) - 2048| < 2 ^ 24 := by
    rw [abs_lt]
    constructor <;> omega
  have h1 := binary32_round_int ((s : ℤ) - 2048) hk
  have h2 := binary32_round_exact ((s : ℤ) - 2048) (-11) hk (by norm_num)
  have e : (((s : ℤ) - 2048 : ℤ) : ℚ) * 2 ^ (-11 : ℤ) = ((s : ℚ) - 2048) / 2048 := by
    push_cast
    norm_num
    ring
  rw [float_sample, h1, SAMPLE_SCALE_eq]
  have e' : (((s : ℤ) - 2048 : ℤ) : ℚ) * (1 / 2048)
      = (((s : ℤ) - 2048 : ℤ) : ℚ) * 2 ^ (-11 : ℤ) := by
    norm_num
  rw [e', h2, e]

/-- C7: at every index `j` below `count`, a 12-bit sample `s = src[j]` is
converted by `convert_samples_float` to the recentred value times the scale
`1 / 2 ^ (15 - 4)`, with no rounding error: exactly `(s - 2048) / 2048`,
which lies in the half-open interval [-1, 1). -/
theorem convert_samples_float_value (src : Nat → Nat) (dest : Nat → ℚ) (count j : Nat)
    (hj : j < count) (hs : src j ≤ 4095) :
    convert_samples_float src dest count j = ((src j : ℚ) - 2048) * (1 / 2 ^ (15 - 4))
      ∧ convert_samples_float src dest count j = ((src j : ℚ) - 2048) / 2048
      ∧ -1 ≤ convert_samples_float src dest count j
      ∧ convert_samples_float src dest count j < 1 := by
  have e : convert_samples_float src dest count j = ((src j : ℚ) - 2048) / 2048 := by
    rw [convert_samples_float, convert_loop_spec _ _ _ _ _ _ _ (by omega) (Nat.zero_le j) hj]
    exact float_sample_eq _ hs
  have h0 : (0 : ℚ) ≤ (src j : ℚ) := Nat.cast_nonneg _
  have h1 : (src j : ℚ) ≤ 4095 := by exact_mod_cast hs
  rw [e]
  refine ⟨by norm_num; ring, rfl, ?_, ?_⟩
  · rw [le_div_iff₀ (by norm_num)]; linarith
  · rw [div_lt_iff₀ (by norm_num)]; linarith

/-- Witness for C7: a buffer of four samples 0, 1, 2, 3. -/
theorem convert_samples_float_value_witness :
    convert_samples_float (fun i => i) (fun _ => 0) 4 0 = -1 := by
  have h := (convert_samples_float_value (fun i => i) (fun _ => 0) 4 0 (by decide)
    (by decide)).2.1
  rw [h]
  norm_num

/-! ## Sample counts of a block -/

theorem decoded_sample_count_eq {β : Type} (d : hydrasdr_device β)
    (hsize : d.buffer_size < 2 ^ 31) :
    decoded_sample_count d = nominal_sample_count d.buffer_size d.packing_enabled := by
  unfold decoded_sample_count nominal_sample_count
  split_ifs
  · rw [Nat.mod_eq_of_lt (by omega)]
  · rfl

theorem consumer_process_count {β : Type} (cnv : iq_converters) (w : work_buffers)
    (d : hydrasdr_device β) (input_samples : Nat → Nat) :
    (consumer_process cnv w d input_samples).sample_count = delivered_sample_count d := by
  unfold consumer_process delivered_sample_count
  cases d.sample_type <;> rfl

theorem delivered_sample_count_eq {β : Type} (d : hydrasdr_device β)
    (hsize : d.buffer_size < 2 ^ 31) :
    delivered_sample_count d
      = if SAMPLE_TYPE_IS_IQ d.sample_type then
          nominal_sample_count d.buffer_size d.packing_enabled / 2
        else nominal_sample_count d.buffer_size d.packing_enabled := by
  unfold delivered_sample_count
  rw [decoded_sample_count_eq d hsize]
  cases d.sample_type <;> simp [SAMPLE_TYPE_IS_IQ]

/-- C5: for a device whose buffer size is below 2^31 (the configured sizes
are 262144 and 147456), every block delivered in a session and every block
built by the consumer has `sample_count = N` for the real and raw types and
`N / 2` for the two IQ types, with `N = buffer_size / 2` without packing and
`((buffer_size / 2) * 4) / 3` with packing; the IQ block is the real block
passed through the IQ converter, with the count halved; and the configured
sizes give 131072 / 65536 unpacked and 98304 / 49152 packed. -/
theorem block_sample_count {β : Type} (cnv : iq_converters) (w : work_buffers)
    (d : hydrasdr_device β) (input_samples : Nat → Nat) (hsize : d.buffer_size < 2 ^ 31) :
    (∀ (evs : List (Event β)) (k : Nat) (t : hydrasdr_transfer β),
        ((Session.start d).run evs).delivered[k]? = some t →
        t.sample_count
          = if SAMPLE_TYPE_IS_IQ d.sample_type then
              nominal_sample_count d.buffer_size d.packing_enabled / 2
            else nominal_sample_count d.buffer_size d.packing_enabled)
      ∧ (consumer_process cnv w d input_samples).sample_count
          = (if SAMPLE_TYPE_IS_IQ d.sample_type then
              nominal_sample_count d.buffer_size d.packing_enabled / 2
            else nominal_sample_count d.buffer_size d.packing_enabled)
      ∧ (∃ v,
          consumer_process cnv w { d with sample_type := hydrasdr_sample_type.FLOAT32_REAL }
              input_samples
            = { samples := some (sample_data.float32 v)
                sample_count := nominal_sample_count d.buffer_size d.packing_enabled }
          ∧ consumer_process cnv w { d with sample_type := hydrasdr_sample_type.FLOAT32_IQ }
              input_samples
            = { samples := some (sample_data.float32 (cnv.float_process v
                  (nominal_sample_count d.buffer_size d.packing_enabled)))
                sample_count := nominal_sample_count d.buffer_size d.packing_enabled / 2 })
      ∧ (∃ v,
          consumer_process cnv w { d with sample_type := hydrasdr_sample_type.INT16_REAL }
              input_samples
            = { samples := some (sample_data.int16 v)
                sample_count := nominal_sample_count d.buffer_size d.packing_enabled }
          ∧ consumer_process cnv w { d with sample_type := hydrasdr_sample_type.INT16_IQ }
              input_samples
            = { samples := some (sample_data.int16 (cnv.int16_process v
                  (nominal_sample_count d.buffer_size d.packing_enabled)))
                sample_count := nominal_sample_count d.buffer_size d.packing_enabled / 2 })
      ∧ nominal_sample_count 262144 false = 131072
      ∧ nominal_sample_count 262144 false / 2 = 65536
      ∧ nominal_sample_count 147456 true = 98304
      ∧ nominal_sample_count 147456 true / 2 = 49152 := by
  have hN : ∀ ty, decoded_sample_count { d with sample_type := ty }
      = nominal_sample_count d.buffer_size d.packing_enabled :=
    fun ty => decoded_sample_count_eq { d with sample_type := ty } hsize
  refine ⟨?_, ?_, ?_, ?_, by decide, by decide, by decide, by decide⟩
  · intro evs k t hk
    obtain ⟨m, h⟩ := Session.inv_reachable d evs
    obtain ⟨done, _, e2⟩ := h.blocks
    rw [e2, List.getElem?_map] at hk
    cases hd : done[k]? with
    | none => simp [hd] at hk
    | some p =>
      rw [hd] at hk
      simp only [Option.map_some', Option.some.injEq] at hk
      rw [← hk]
      exact delivered_sample_count_eq d hsize
  · rw [consumer_process_count]
    exact delivered_sample_count_eq d hsize
  · refine ⟨convert_samples_float
        (if d.packing_enabled then
          unpack_samples (as_uint32 input_samples) w.unpacked_samples
            (nominal_sample_count d.buffer_size d.packing_enabled)
        else input_samples) w.output_float
        (nominal_sample_count d.buffer_size d.packing_enabled), ?_, ?_⟩ <;>
      simp [consumer_process, hN]
  · refine ⟨convert_samples_int16
        (if d.packing_enabled then
          unpack_samples (as_uint32 input_samples) w.unpacked_samples
            (nominal_sample_count d.buffer_size d.packing_enabled)
        else input_samples) w.output_int16
        (nominal_sample_count d.buffer_size d.packing_enabled), ?_, ?_⟩ <;>
      simp [consumer_process, hN]

/-- Witness for C5: a freshly opened device delivers 65536 float IQ samples
per block. -/
theorem block_sample_count_witness :
    (consumer_process passthrough_converters zero_buffers opened_device
      (fun _ => 2048)).sample_count = 65536 := by
  have h := (block_sample_count passthrough_converters zero_buffers opened_device
    (fun _ => 2048) (by decide)).2.1
  rw [h]
  decide

/-! ## Direct gain setters and sample rates -/

theorem control_result_code (r : usb_device × Int) :
    (control_result r).1 = r.1
      ∧ ((control_result r).2 = HYDRASDR_SUCCESS ∨ (control_result r).2 = HYDRASDR_ERROR_LIBUSB) := by
  unfold control_result
  split_ifs <;> simp

/-- C11: for every 8-bit value `v`, `hydrasdr_set_lna_gain` sends `min v 14`
and `hydrasdr_set_mixer_gain` and `hydrasdr_set_vga_gain` send `min v 15`
as the index of their one control transfer; the result is success or the
transport error, never the invalid-parameter error. -/
theorem direct_gain_setters_clamp (u : usb_device) (v : Nat) (_hv : v < 256) :
    (hydrasdr_set_lna_gain u v).1.sent
        = u.sent ++ [{ request := HYDRASDR_SET_LNA_GAIN, value := 0, index := min v 14 }]
      ∧ (hydrasdr_set_mixer_gain u v).1.sent
        = u.sent ++ [{ request := HYDRASDR_SET_MIXER_GAIN, value := 0, index := min v 15 }]
      ∧ (hydrasdr_set_vga_gain u v).1.sent
        = u.sent ++ [{ request := HYDRASDR_SET_VGA_GAIN, value := 0, index := min v 15 }]
      ∧ (hydrasdr_set_lna_gain u v).2 ≠ HYDRASDR_ERROR_INVALID_PARAM
      ∧ (hydrasdr_set_mixer_gain u v).2 ≠ HYDRASDR_ERROR_INVALID_PARAM
      ∧ (hydrasdr_set_vga_gain u v).2 ≠ HYDRASDR_ERROR_INVALID_PARAM := by
  have e14 : (if v > 14 then 14 else v) = min v 14 := by
    split_ifs <;> omega
  have e15 : (if v > 15 then 15 else v) = min v 15 := by
    split_ifs <;> omega
  have hne : ∀ r : usb_device × Int, (control_result r).2 ≠ HYDRASDR_ERROR_INVALID_PARAM := by
    intro r
    rcases (control_result_code r).2 with h | h <;> rw [h] <;> decide
  refine ⟨?_, ?_, ?_, hne _, hne _, hne _⟩
  · simp only [hydrasdr_set_lna_gain, e14, (control_result_code _).1, libusb_control_transfer]
  · simp only [hydrasdr_set_mixer_gain, e15, (control_result_code _).1, libusb_control_transfer]
  · simp only [hydrasdr_set_vga_gain, e15, (control_result_code _).1, libusb_control_transfer]

/-- Witness for C11: the gain 200 goes out as 14 for the LNA. -/
theorem direct_gain_setters_clamp_witness :
    (hydrasdr_set_lna_gain healthy_usb 200).1.sent
      = [{ request := 14, value := 0, index := 14 }] := by
  have h := (direct_gain_setters_clamp healthy_usb 200 (by decide)).1
  rw [h]
  decide

theorem samplerate_lookup_absent (rates : List Nat) (samplerate : Nat)
    (h : samplerate ∉ rates) : ∀ i, samplerate_lookup rates i samplerate = samplerate := by
  induction rates with
  | nil => intro i; rfl
  | cons r rates ih =>
    intro i
    simp only [List.mem_cons, not_or] at h
    simp only [samplerate_lookup, if_neg h.1]
    exact ih h.2 (i + 1)

theorem samplerate_lookup_first (samplerate : Nat) :
    ∀ (rates : List Nat) (k i : Nat), rates[i]? = some samplerate →
      (∀ j, j < i → rates[j]? ≠ some samplerate) →
      samplerate_lookup rates k samplerate = k + i := by
  intro rates
  induction rates with
  | nil => intro k i h _; simp at h
  | cons r rates ih =>
    intro k i h hfirst
    cases i with
    | zero =>
      simp only [List.getElem?_cons_zero, Option.some.injEq] at h
      simp [samplerate_lookup, h]
    | succ i =>
      have h0 := hfirst 0 (Nat.succ_pos i)
      simp only [List.getElem?_cons_zero, ne_eq, Option.some.injEq] at h0
      have hne : ¬ samplerate = r := fun e => h0 e.symm
      simp only [samplerate_lookup, if_neg hne]
      rw [ih (k + 1) i (by simpa using h)
        (fun j hj => by simpa using hfirst (j + 1) (Nat.succ_lt_succ hj))]
      omega

theorem samplerate_lookup_skip (x r : Nat) (h : r ≠ x) (rest : List Nat) :
    ∀ (n i : Nat), samplerate_lookup (List.replicate n x ++ rest) i r
      = samplerate_lookup rest (i + n) r := by
  intro n
  induction n with
  | zero => intro i; rfl
  | succ n ih =>
    intro i
    rw [List.replicate_succ, List.cons_append, samplerate_lookup, if_neg h, ih]
    congr 1
    omega

theorem samplerate_lookup_far :
    samplerate_lookup (List.replicate 65536 1 ++ [2000000]) 0 2000000 = 65536 := by
  rw [samplerate_lookup_skip 1 2000000 (by decide) [2000000] 65536 0]
  rfl

theorem samplerate_code_far :
    samplerate_code (List.replicate 65536 1 ++ [2000000]) hydrasdr_sample_type.FLOAT32_IQ
      2000000 = 65536 := by
  unfold samplerate_code
  simp only [MIN_SAMPLERATE_BY_VALUE]
  rw [if_pos (by decide), samplerate_lookup_far]
  rfl

/-- C12 as stated fails in two places.  A table entry below the threshold of
1,000,000 is not looked up: with 500000 at index 0 of the table, the request
500000 is taken for an index and its low 16 bits, 41248, go out, not the
index 0.  And an index that does not fit the 16-bit `wIndex` is cut: with
2,000,000 found at index 65536 of a table, 0 goes out, not 65536. -/
theorem samplerate_below_threshold_not_looked_up :
    [500000][0]? = some 500000
      ∧ (hydrasdr_set_samplerate [500000] hydrasdr_sample_type.FLOAT32_IQ healthy_usb
          500000).1.sent
        = [{ request := HYDRASDR_SET_SAMPLERATE, value := 0, index := 41248 }]
      ∧ 2000000 ∈ List.replicate 65536 1 ++ [2000000]
      ∧ samplerate_lookup (List.replicate 65536 1 ++ [2000000]) 0 2000000 = 65536
      ∧ (hydrasdr_set_samplerate (List.replicate 65536 1 ++ [2000000])
          hydrasdr_sample_type.FLOAT32_IQ healthy_usb 2000000).1.sent
        = [{ request := HYDRASDR_SET_SAMPLERATE, value := 0, index := 0 }] := by
  refine ⟨by decide, by decide, List.mem_append.mpr (Or.inr (List.mem_singleton.mpr rfl)),
    samplerate_lookup_far, ?_⟩
  simp only [hydrasdr_set_samplerate, samplerate_code_far, (control_result_code _).1,
    libusb_control_transfer]
  rfl

/-- C12, amended: for every sample type and every requested rate of at least
1,000,000 Hz that is equal to an entry of the supported-rate table, and whose
first matching index `i` is below 1,000,000, `hydrasdr_set_samplerate` puts
the low 16 bits of that index `i`, not a kHz value, into its control
transfer: the index itself when it is below 65536. -/
theorem samplerate_in_table_sends_index (rates : List Nat) (ty : hydrasdr_sample_type)
    (u : usb_device) (rate i : Nat) (hrate : rate ≥ 1000000) (hi : rates[i]? = some rate)
    (hfirst : ∀ j, j < i → rates[j]? ≠ some rate) (hsmall : i < 1000000) :
    (hydrasdr_set_samplerate rates ty u rate).1.sent
        = u.sent ++ [{ request := HYDRASDR_SET_SAMPLERATE, value := 0, index := i % 65536 }]
      ∧ (i < 65536 →
          (hydrasdr_set_samplerate rates ty u rate).1.sent
            = u.sent ++ [{ request := HYDRASDR_SET_SAMPLERATE, value := 0, index := i }]) := by
  have e : samplerate_code rates ty rate = i := by
    unfold samplerate_code
    simp only [MIN_SAMPLERATE_BY_VALUE]
    rw [if_pos hrate, samplerate_lookup_first rate rates 0 i hi hfirst, Nat.zero_add]
    exact if_neg (by omega)
  have k : (hydrasdr_set_samplerate rates ty u rate).1.sent
      = u.sent ++ [{ request := HYDRASDR_SET_SAMPLERATE, value := 0, index := i % 65536 }] := by
    simp only [hydrasdr_set_samplerate, e, (control_result_code _).1, libusb_control_transfer]
    rfl
  refine ⟨k, fun h => ?_⟩
  rw [k, Nat.mod_eq_of_lt h]

/-- Witness for C12: 2,500,000 Hz in IQ mode with 2,500,000 at index 2. -/
theorem samplerate_in_table_sends_index_witness :
    (hydrasdr_set_samplerate [10000000, 5000000, 2500000] hydrasdr_sample_type.FLOAT32_IQ
        healthy_usb 2500000).1.sent
      = [{ request := 12, value := 0, index := 2 }] := by
  have h := (samplerate_in_table_sends_index [10000000, 5000000, 2500000]
    hydrasdr_sample_type.FLOAT32_IQ healthy_usb 2500000 2 (by decide) (by decide)
    (fun j hj => by interval_cases j <;> decide) (by decide)).2 (by decide)
  rw [h]
  decide

/-- C13 as stated fails in two places.  At 40 MHz in IQ mode the kHz value
80000 does not fit the 16-bit `wIndex` and 14464 goes out; and from 2^31 Hz
on the doubling of the `uint32_t` rate wraps: 2147483648 becomes 0, and 0
goes out. -/
theorem samplerate_doubling_wraps :
    40000000 ∉ [10000000, 5000000, 2500000]
      ∧ (hydrasdr_set_samplerate [10000000, 5000000, 2500000] hydrasdr_sample_type.FLOAT32_IQ
          healthy_usb 40000000).1.sent
        = [{ request := HYDRASDR_SET_SAMPLERATE, value := 0, index := 14464 }]
      ∧ 40000000 * 2 / 1000 = 80000
      ∧ 2147483648 ∉ [10000000, 5000000, 2500000]
      ∧ (hydrasdr_set_samplerate [10000000, 5000000, 2500000] hydrasdr_sample_type.FLOAT32_IQ
          healthy_usb 2147483648).1.sent
        = [{ request := HYDRASDR_SET_SAMPLERATE, value := 0, index := 0 }]
      ∧ 2147483648 * 2 / 1000 % 65536 ≠ 0 := by
  decide

/-- C13, amended: for every requested rate of at least 1,000,000 Hz that is
absent from the supported-rate table, `hydrasdr_set_samplerate` puts the low
16 bits of `((rate * 2) mod 2^32) / 1000` into its control transfer in IQ
mode, and the low 16 bits of `rate / 1000` in the other sample modes; this
is `(rate * 2) / 1000` for rates below 32,768,000 Hz in IQ mode and
`rate / 1000` for rates below 65,536,000 Hz in the other modes. -/
theorem samplerate_absent_sends_khz (rates : List Nat) (ty : hydrasdr_sample_type)
    (u : usb_device) (rate : Nat) (hrate : rate ≥ 1000000) (habsent : rate ∉ rates) :
    (hydrasdr_set_samplerate rates ty u rate).1.sent
        = u.sent ++ [{ request := HYDRASDR_SET_SAMPLERATE, value := 0
                       index := if SAMPLE_TYPE_IS_IQ ty then rate * 2 % 2 ^ 32 / 1000 % 65536
                                else rate / 1000 % 65536 }]
      ∧ (rate < 32768000 → rate * 2 % 2 ^ 32 / 1000 % 65536 = rate * 2 / 1000)
      ∧ (rate < 65536000 → rate / 1000 % 65536 = rate / 1000) := by
  have e : samplerate_code rates ty rate
      = if SAMPLE_TYPE_IS_IQ ty then rate * 2 % 2 ^ 32 / 1000 else rate / 1000 := by
    unfold samplerate_code
    simp only [MIN_SAMPLERATE_BY_VALUE]
    rw [if_pos hrate, samplerate_lookup_absent rates rate habsent 0]
    simp only [ge_iff_le, hrate, if_true]
    split_ifs <;> rfl
  refine ⟨?_, fun h => ?_, fun h => ?_⟩
  · simp only [hydrasdr_set_samplerate, e, (control_result_code _).1, libusb_control_transfer]
    split_ifs <;> rfl
  · omega
  · omega

/-- Witness for C13: 3,000,000 Hz in IQ mode goes out as 6000 kHz. -/
theorem samplerate_absent_sends_khz_witness :
    (hydrasdr_set_samplerate [10000000, 5000000, 2500000] hydrasdr_sample_type.INT16_IQ
        healthy_usb 3000000).1.sent
      = [{ request := 12, value := 0, index := 6000 }] := by
  have h := (samplerate_absent_sends_khz [10000000, 5000000, 2500000]
    hydrasdr_sample_type.INT16_IQ healthy_usb 3000000 (by decide) (by decide)).1
  rw [h]
  decide

/-- C14 fails on the code for the real sample types: with the table
10 MHz, 5 MHz, 2.5 MHz and a real sample type, `hydrasdr_get_samplerates`
returns 20 MHz, 10 MHz, 5 MHz; the value at position 1, 10,000,000, passed
to `hydrasdr_set_samplerate`, is found at index 0 of the table and selects
index 0, whereas `hydrasdr_set_samplerate(1)` selects index 1. -/
theorem samplerate_round_trip_breaks_for_real_types :
    hydrasdr_get_samplerates [10000000, 5000000, 2500000] hydrasdr_sample_type.FLOAT32_REAL 3
        = (HYDRASDR_SUCCESS, [20000000, 10000000, 5000000])
      ∧ (hydrasdr_set_samplerate [10000000, 5000000, 2500000]
          hydrasdr_sample_type.FLOAT32_REAL healthy_usb 10000000).1.sent
        = [{ request := HYDRASDR_SET_SAMPLERATE, value := 0, index := 0 }]
      ∧ (hydrasdr_set_samplerate [10000000, 5000000, 2500000]
          hydrasdr_sample_type.FLOAT32_REAL healthy_usb 1).1.sent
        = [{ request := HYDRASDR_SET_SAMPLERATE, value := 0, index := 1 }] := by
  decide

/-! ## Packing switch and busy guards -/

theorem free_transfers_pipeline {β : Type} (d : hydrasdr_device_t β) :
    (free_transfers d).pipeline = d.pipeline := by
  unfold free_transfers
  split_ifs <;> rfl

theorem allocate_transfers_config {β : Type} (a : allocation β) (d : hydrasdr_device_t β) :
    (allocate_transfers a d).1.pipeline.packing_enabled = d.pipeline.packing_enabled
      ∧ (allocate_transfers a d).1.pipeline.buffer_size = d.pipeline.buffer_size := by
  unfold allocate_transfers
  split_ifs <;> exact ⟨rfl, rfl⟩

theorem set_packing_size {β : Type} (a : allocation β) (value : Nat) (d : hydrasdr_device_t β) :
    ((hydrasdr_set_packing a value d).1.pipeline.packing_enabled = d.pipeline.packing_enabled
        ∧ (hydrasdr_set_packing a value d).1.pipeline.buffer_size = d.pipeline.buffer_size)
      ∨ ((hydrasdr_set_packing a value d).1.pipeline.packing_enabled
            ≠ d.pipeline.packing_enabled
          ∧ d.pipeline.streaming = false
          ∧ (hydrasdr_set_packing a value d).1.pipeline.packing_enabled = (value == 1)
          ∧ (hydrasdr_set_packing a value d).1.pipeline.buffer_size
            = if (hydrasdr_set_packing a value d).1.pipeline.packing_enabled then 147456
              else 262144) := by
  by_cases h1 : d.pipeline.streaming = true
  · left
    simp [hydrasdr_set_packing, h1]
  · by_cases h2 : (libusb_control_transfer d.usb HYDRASDR_SET_PACKING 0 value).2 < 1
    · left
      simp [hydrasdr_set_packing, h1, h2]
    · by_cases h3 : (value == 1) = d.pipeline.packing_enabled
      · left
        simp [hydrasdr_set_packing, h1, h2, h3]
      · right
        have hs : d.pipeline.streaming = false := by simpa using h1
        have e : (hydrasdr_set_packing a value d).1
            = (allocate_transfers a
                { free_transfers
                    { d with usb := (libusb_control_transfer d.usb HYDRASDR_SET_PACKING 0 value).1 } with
                  pipeline :=
                    { (free_transfers
                        { d with
                          usb := (libusb_control_transfer d.usb HYDRASDR_SET_PACKING 0
                            value).1 }).pipeline with
                      packing_enabled := value == 1
                      buffer_size := if (value == 1) = true then 6144 * 24 else 262144 } }).1 := by
          simp only [hydrasdr_set_packing, h1, h2, bne_iff_ne, ne_eq, h3, not_false_eq_true,
            if_true, if_false, Bool.false_eq_true]
          split_ifs <;> rfl
        rw [e]
        obtain ⟨p1, p2⟩ := allocate_transfers_config a
          { free_transfers
              { d with usb := (libusb_control_transfer d.usb HYDRASDR_SET_PACKING 0 value).1 } with
            pipeline :=
              { (free_transfers
                  { d with
                    usb := (libusb_control_transfer d.usb HYDRASDR_SET_PACKING 0
                      value).1 }).pipeline with
                packing_enabled := value == 1
                buffer_size := if (value == 1) = true then 6144 * 24 else 262144 } }
        rw [p1, p2]
        exact ⟨h3, hs, rfl, rfl⟩

theorem create_io_threads_config {β : Type} (e : thread_env) (callback : Nat)
    (d : hydrasdr_device_t β) :
    (create_io_threads e callback d).1.pipeline.packing_enabled = d.pipeline.packing_enabled
      ∧ (create_io_threads e callback d).1.pipeline.buffer_size = d.pipeline.buffer_size := by
  simp only [create_io_threads]
  split_ifs <;> exact ⟨rfl, rfl⟩

theorem start_rx_config {β : Type} (e : thread_env) (callback ctx : Nat)
    (d : hydrasdr_device_t β) :
    (hydrasdr_start_rx e callback ctx d).1.pipeline.packing_enabled = d.pipeline.packing_enabled
      ∧ (hydrasdr_start_rx e callback ctx d).1.pipeline.buffer_size = d.pipeline.buffer_size := by
  simp only [hydrasdr_start_rx]
  split_ifs
  · exact ⟨rfl, rfl⟩
  · exact create_io_threads_config e callback _
  · exact ⟨rfl, rfl⟩

theorem kill_io_threads_config {β : Type} (leave : hydrasdr_device β → hydrasdr_device β)
    (d : hydrasdr_device_t β) :
    (kill_io_threads leave d).1.pipeline.packing_enabled = d.pipeline.packing_enabled
      ∧ (kill_io_threads leave d).1.pipeline.buffer_size = d.pipeline.buffer_size := by
  simp only [kill_io_threads]
  split_ifs <;> exact ⟨rfl, rfl⟩

theorem stop_rx_config {β : Type} (leave : hydrasdr_device β → hydrasdr_device β)
    (d : hydrasdr_device_t β) :
    (hydrasdr_stop_rx leave d).1.pipeline.packing_enabled = d.pipeline.packing_enabled
      ∧ (hydrasdr_stop_rx leave d).1.pipeline.buffer_size = d.pipeline.buffer_size := by
  simp only [hydrasdr_stop_rx]
  split_ifs <;> exact kill_io_threads_config leave _

theorem set_conversion_filter_pipeline {β : Type} (kf : List ℚ) (ki : List Int)
    (d : hydrasdr_device_t β) :
    (hydrasdr_set_conversion_filter_float32 kf d).1.pipeline = d.pipeline
      ∧ (hydrasdr_set_conversion_filter_int16 ki d).1.pipeline = d.pipeline := by
  unfold hydrasdr_set_conversion_filter_float32 hydrasdr_set_conversion_filter_int16
  constructor <;> split_ifs <;> rfl

theorem call_keeps_size {β : Type} (d : hydrasdr_device_t β) (c : Call β)
    (h : d.pipeline.buffer_size = if d.pipeline.packing_enabled then 147456 else 262144) :
    (d.call c).pipeline.buffer_size
      = if (d.call c).pipeline.packing_enabled then 147456 else 262144 := by
  cases c with
  | set_packing a value =>
    rcases set_packing_size a value d with ⟨e1, e2⟩ | ⟨_, _, _, e⟩
    · simp only [hydrasdr_device_t.call, e1, e2, h]
    · exact e
  | set_sample_type sample_type => exact h
  | set_conversion_filter_float32 kernel =>
    simp only [hydrasdr_device_t.call, (set_conversion_filter_pipeline kernel [] d).1, h]
  | set_conversion_filter_int16 kernel =>
    simp only [hydrasdr_device_t.call, (set_conversion_filter_pipeline [] kernel d).2, h]
  | start_rx e callback ctx =>
    obtain ⟨e1, e2⟩ := start_rx_config e callback ctx d
    simp only [hydrasdr_device_t.call, e1, e2, h]
  | stop_rx leave =>
    obtain ⟨e1, e2⟩ := stop_rx_config leave d
    simp only [hydrasdr_device_t.call, e1, e2, h]
  | threads leave =>
    have e : (d.call (Call.threads leave)).pipeline.packing_enabled = d.pipeline.packing_enabled
        ∧ (d.call (Call.threads leave)).pipeline.buffer_size = d.pipeline.buffer_size := by
      simp only [hydrasdr_device_t.call]
      split_ifs <;> exact ⟨rfl, rfl⟩
    rw [e.1, e.2, h]

theorem calls_keep_size {β : Type} (cs : List (Call β)) :
    ∀ d : hydrasdr_device_t β,
      d.pipeline.buffer_size = (if d.pipeline.packing_enabled then 147456 else 262144) →
      (d.calls cs).pipeline.buffer_size
        = if (d.calls cs).pipeline.packing_enabled then 147456 else 262144 := by
  induction cs with
  | nil => intro d h; exact h
  | cons c cs ih => intro d h; exact ih (d.call c) (call_keeps_size d c h)

theorem open_init_size {β : Type} (null : β) (u : usb_device) (rates : List Nat)
    (a : allocation β) (kernel_float : List ℚ) (kernel_int16 : List Int)
    (d : hydrasdr_device_t β)
    (h : hydrasdr_open_init null u rates a kernel_float kernel_int16 = some d) :
    d.pipeline.packing_enabled = false ∧ d.pipeline.buffer_size = 262144 := by
  simp only [hydrasdr_open_init] at h
  split_ifs at h
  simp only [Option.some.injEq] at h
  subst h
  simp only []
  obtain ⟨p1, p2⟩ := allocate_transfers_config a
    (hydrasdr_set_packing a 0 (configured_device null u rates)).1
  rw [p1, p2]
  rcases set_packing_size a 0 (configured_device null u rates) with ⟨e1, e2⟩ | ⟨hne, _, e3, _⟩
  · exact ⟨e1, e2⟩
  · exact absurd e3 hne

/-- C15: a call of `hydrasdr_set_packing` that changes the packing mode, which
it only does on a device that is not streaming, leaves the buffer size at
exactly 147456 bytes if packing is now enabled and at exactly 262144 bytes
if it is now disabled; and in every state reached from a successful open
by calls of `hydrasdr_set_packing` and of the other lifecycle functions,
`buffer_size` is 147456 if `packing_enabled` and 262144 otherwise. -/
theorem packing_fixes_buffer_size {β : Type} (null : β) (u : usb_device) (rates : List Nat)
    (a : allocation β) (kernel_float : List ℚ) (kernel_int16 : List Int)
    (d0 : hydrasdr_device_t β)
    (hopen : hydrasdr_open_init null u rates a kernel_float kernel_int16 = some d0)
    (cs : List (Call β)) :
    (∀ (d : hydrasdr_device_t β) (a1 : allocation β) (value : Nat),
        (hydrasdr_set_packing a1 value d).1.pipeline.packing_enabled
            ≠ d.pipeline.packing_enabled →
          d.pipeline.streaming = false
            ∧ (hydrasdr_set_packing a1 value d).1.pipeline.buffer_size
              = if (hydrasdr_set_packing a1 value d).1.pipeline.packing_enabled then 147456
                else 262144)
      ∧ (d0.calls cs).pipeline.buffer_size
          = if (d0.calls cs).pipeline.packing_enabled then 147456 else 262144 := by
  refine ⟨fun d a1 value hne => ?_, ?_⟩
  · rcases set_packing_size a1 value d with ⟨e1, _⟩ | ⟨_, hs, _, e⟩
    · exact absurd e1 hne
    · exact ⟨hs, e⟩
  · obtain ⟨h1, h2⟩ := open_init_size null u rates a kernel_float kernel_int16 d0 hopen
    apply calls_keep_size
    simp [h1, h2]

/-- Witness for C15: a device is opened and packing is switched on. -/
theorem packing_fixes_buffer_size_witness :
    hydrasdr_open_init 0 healthy_usb [10000000, 5000000, 2500000] good_allocation [] []
        = some fresh_device
      ∧ (fresh_device.calls [Call.set_packing good_allocation 1]).pipeline.packing_enabled
        = true
      ∧ (fresh_device.calls [Call.set_packing good_allocation 1]).pipeline.buffer_size
        = 147456 := by
  have hopen : hydrasdr_open_init 0 healthy_usb [10000000, 5000000, 2500000] good_allocation
      [] [] = some fresh_device := by rfl
  have h := (packing_fixes_buffer_size 0 healthy_usb [10000000, 5000000, 2500000]
    good_allocation [] [] fresh_device hopen [Call.set_packing good_allocation 1]).2
  refine ⟨hopen, by decide, ?_⟩
  rw [h]
  decide

/-- C16: on a device whose `streaming` flag is set, `hydrasdr_set_packing`,
`hydrasdr_set_conversion_filter_float32` and
`hydrasdr_set_conversion_filter_int16` return `HYDRASDR_ERROR_BUSY` and the
device is what it was: no control transfer has gone out, and the packing
mode, the buffer size, the transfer pool, the ring and the converters are
the same. -/
theorem busy_setters_change_nothing {β : Type} (d : hydrasdr_device_t β)
    (hs : d.pipeline.streaming = true) (a : allocation β) (value : Nat) (kernel_float : List ℚ)
    (kernel_int16 : List Int) :
    hydrasdr_set_packing a value d = (d, HYDRASDR_ERROR_BUSY)
      ∧ hydrasdr_set_conversion_filter_float32 kernel_float d = (d, HYDRASDR_ERROR_BUSY)
      ∧ hydrasdr_set_conversion_filter_int16 kernel_int16 d = (d, HYDRASDR_ERROR_BUSY) := by
  refine ⟨?_, ?_, ?_⟩
  · simp only [hydrasdr_set_packing, hs, if_true]
  · simp only [hydrasdr_set_conversion_filter_float32, hs, if_true]
  · simp only [hydrasdr_set_conversion_filter_int16, hs, if_true]

/-- Witness for C16: the packing switch on a streaming device. -/
theorem busy_setters_change_nothing_witness :
    (hydrasdr_set_packing good_allocation 1 streaming_device).2 = -6
      ∧ (hydrasdr_set_packing good_allocation 1 streaming_device).1.usb.sent = [] := by
  have h := (busy_setters_change_nothing streaming_device (by decide) good_allocation 1 []
    []).1
  rw [h]
  exact ⟨by decide, by decide⟩

/-! ## Start and stop -/

theorem set_receiver_mode_eq (u : usb_device) (value : Nat) :
    (hydrasdr_set_receiver_mode u value).1
        = { u with
            sent := u.sent ++ [{ request := HYDRASDR_RECEIVER_MODE, value := value, index := 0 }] }
      ∧ (hydrasdr_set_receiver_mode u value).2
        = if u.reply u.sent.length = 0 then HYDRASDR_SUCCESS else HYDRASDR_ERROR_LIBUSB := by
  simp only [hydrasdr_set_receiver_mode, libusb_control_transfer]
  by_cases h : u.reply u.sent.length = 0
  · simp [h]
  · simp [h]

/-- C17 fails on the code: `hydrasdr_start_rx` tests Busy last, in
`create_io_threads`, after its receiver-mode transfers; on a streaming
device whose first receiver-mode transfer fails it returns
`HYDRASDR_ERROR_LIBUSB`, which is not the Busy code. -/
theorem start_rx_transport_error_before_busy :
    ({ streaming_device with usb := failing_usb 0 } : hydrasdr_device_t Nat).pipeline.streaming
        = true
      ∧ (hydrasdr_start_rx good_threads 7 2
          { streaming_device with usb := failing_usb 0 }).2 = HYDRASDR_ERROR_LIBUSB
      ∧ HYDRASDR_ERROR_LIBUSB ≠ HYDRASDR_ERROR_BUSY := by
  decide

/-- C18 fails on the code: `hydrasdr_start_rx` on a streaming device returns
`HYDRASDR_ERROR_BUSY` only after it has cleared the drop counter (5 before)
and the drop snapshots (3 in slot 0 before), reset both IQ converters,
sent the receiver-mode-off and receiver-mode-on commands and replaced the
user context (1 before) by the new one. -/
theorem start_rx_mutates_before_busy :
    (hydrasdr_start_rx good_threads 7 2 streaming_device).2 = HYDRASDR_ERROR_BUSY
      ∧ streaming_device.pipeline.dropped_buffers = 5
      ∧ (hydrasdr_start_rx good_threads 7 2 streaming_device).1.pipeline.dropped_buffers = 0
      ∧ streaming_device.pipeline.dropped_buffers_queue 0 = 3
      ∧ (hydrasdr_start_rx good_threads 7 2 streaming_device).1.pipeline.dropped_buffers_queue 0
        = 0
      ∧ streaming_device.ctx = 1
      ∧ (hydrasdr_start_rx good_threads 7 2 streaming_device).1.ctx = 2
      ∧ streaming_device.cnv_i.state = [4, 5, 6]
      ∧ (hydrasdr_start_rx good_threads 7 2 streaming_device).1.cnv_i.state = [0, 0, 0]
      ∧ streaming_device.usb.sent = []
      ∧ (hydrasdr_start_rx good_threads 7 2 streaming_device).1.usb.sent
        = [{ request := HYDRASDR_RECEIVER_MODE, value := RECEIVER_MODE_OFF, index := 0 },
            { request := HYDRASDR_RECEIVER_MODE, value := RECEIVER_MODE_RX, index := 0 }] := by
  decide

theorem pipeline_flags_eta {β : Type} (p : hydrasdr_device β) (h1 : p.streaming = false)
    (h2 : p.stop_requested = false) :
    ({ p with stop_requested := false, streaming := false } : hydrasdr_device β) = p := by
  cases p
  simp only at h1 h2
  subst h1 h2
  rfl

theorem stop_rx_flags {β : Type} (leave : hydrasdr_device β → hydrasdr_device β)
    (d : hydrasdr_device_t β) :
    (hydrasdr_stop_rx leave d).1.pipeline.streaming = false
      ∧ (hydrasdr_stop_rx leave d).1.pipeline.stop_requested = false
      ∧ (hydrasdr_stop_rx leave d).1.transfer_thread_running = false
      ∧ (hydrasdr_stop_rx leave d).1.consumer_thread_running = false
      ∧ (hydrasdr_stop_rx leave d).1.usb = (hydrasdr_set_receiver_mode d.usb RECEIVER_MODE_OFF).1
      ∧ (hydrasdr_stop_rx leave d).2 = (hydrasdr_set_receiver_mode d.usb RECEIVER_MODE_OFF).2 := by
  simp only [hydrasdr_stop_rx, kill_io_threads, if_true]
  by_cases hr : (hydrasdr_set_receiver_mode d.usb RECEIVER_MODE_OFF).2 = HYDRASDR_SUCCESS
  · by_cases ht : (d.transfer_thread_running || d.consumer_thread_running) = true
    · simp [hr, ht, thread_effect]
    · simp [hr, ht]
  · by_cases ht : (d.transfer_thread_running || d.consumer_thread_running) = true
    · simp [hr, ht, thread_effect]
    · simp [hr, ht]

theorem stop_rx_idle {β : Type} (leave : hydrasdr_device β → hydrasdr_device β)
    (d : hydrasdr_device_t β) (h1 : d.pipeline.streaming = false)
    (h2 : d.pipeline.stop_requested = false) (h3 : d.transfer_thread_running = false)
    (h4 : d.consumer_thread_running = false) :
    (hydrasdr_stop_rx leave d).1
      = { d with usb := (hydrasdr_set_receiver_mode d.usb RECEIVER_MODE_OFF).1 } := by
  have e := pipeline_flags_eta d.pipeline h1 h2
  have e2 : ({ d.pipeline with stop_requested := false, streaming := false }
      : hydrasdr_device β) = d.pipeline := e
  cases d with
  | mk pipeline usb transfers transfer_count callback ttr ctr rates cnv_f cnv_i ctx rc =>
    simp only at h3 h4 e2
    subst h3 h4
    simp only [hydrasdr_stop_rx, kill_io_threads, if_true, Bool.or_self, Bool.false_eq_true,
      if_false, e2]
    split_ifs <;> rfl

/-- C19 as stated fails when the transport does: on a device that was never
started, with a control endpoint on which the receiver-mode transfer fails,
`hydrasdr_stop_rx` returns `HYDRASDR_ERROR_LIBUSB`, not success. -/
theorem stop_rx_reports_transport_error :
    (hydrasdr_stop_rx id { idle_device with usb := failing_usb 0 }).2 = HYDRASDR_ERROR_LIBUSB
      ∧ HYDRASDR_ERROR_LIBUSB ≠ HYDRASDR_SUCCESS := by
  decide

/-- C19, amended: whatever the device was doing, `hydrasdr_stop_rx` leaves it
with `streaming` and `stop_requested` false and no pipeline thread marked
running, and returns what its receiver-mode-off transfer returns: success if
that transfer succeeds, the transport error otherwise.  A second call, and
a call on a device that was never started, changes nothing in the device:
only one more receiver-mode-off command has gone out. -/
theorem stop_rx_idempotent {β : Type} (leave1 leave2 : hydrasdr_device β → hydrasdr_device β)
    (d : hydrasdr_device_t β) :
    (hydrasdr_stop_rx leave1 d).1.pipeline.streaming = false
      ∧ (hydrasdr_stop_rx leave1 d).1.pipeline.stop_requested = false
      ∧ (hydrasdr_stop_rx leave1 d).1.transfer_thread_running = false
      ∧ (hydrasdr_stop_rx leave1 d).1.consumer_thread_running = false
      ∧ (hydrasdr_stop_rx leave1 d).2
        = (if d.usb.reply d.usb.sent.length = 0 then HYDRASDR_SUCCESS
          else HYDRASDR_ERROR_LIBUSB)
      ∧ (hydrasdr_stop_rx leave2 (hydrasdr_stop_rx leave1 d).1).1
        = { (hydrasdr_stop_rx leave1 d).1 with
            usb := (hydrasdr_set_receiver_mode (hydrasdr_stop_rx leave1 d).1.usb
              RECEIVER_MODE_OFF).1 }
      ∧ (hydrasdr_stop_rx leave2 (hydrasdr_stop_rx leave1 d).1).2
        = (if (hydrasdr_stop_rx leave1 d).1.usb.reply
              (hydrasdr_stop_rx leave1 d).1.usb.sent.length = 0 then HYDRASDR_SUCCESS
          else HYDRASDR_ERROR_LIBUSB)
      ∧ (d.pipeline.streaming = false → d.pipeline.stop_requested = false →
          d.transfer_thread_running = false → d.consumer_thread_running = false →
          (hydrasdr_stop_rx leave1 d).1
            = { d with usb := (hydrasdr_set_receiver_mode d.usb RECEIVER_MODE_OFF).1 }) := by
  obtain ⟨a1, a2, a3, a4, _, a6⟩ := stop_rx_flags leave1 d
  obtain ⟨_, _, _, _, _, b6⟩ := stop_rx_flags leave2 (hydrasdr_stop_rx leave1 d).1
  refine ⟨a1, a2, a3, a4, ?_, stop_rx_idle leave2 _ a1 a2 a3 a4, ?_,
    fun h1 h2 h3 h4 => stop_rx_idle leave1 d h1 h2 h3 h4⟩
  · rw [a6]; exact (set_receiver_mode_eq d.usb RECEIVER_MODE_OFF).2
  · rw [b6]; exact (set_receiver_mode_eq _ RECEIVER_MODE_OFF).2

/-! ## A callback that asks to stop -/

theorem Session.stopped_step {β : Type} (s : Session β) (hs : s.device.streaming = false)
    (hc : ∀ i n, s.consumer ≠ Consumer.processing i n) (e : Event β) :
    (s.step e).device.streaming = false
      ∧ (∀ i n, (s.step e).consumer ≠ Consumer.processing i n)
      ∧ (s.step e).delivered = s.delivered := by
  cases e with
  | completion t submit_ok =>
    have e : s.step (Event.completion t submit_ok) = s := by
      simp [Session.step, hydrasdr_libusb_transfer_callback, hs]
    rw [e]
    exact ⟨hs, hc, rfl⟩
  | consumer_wake =>
    cases h : s.consumer with
    | waiting =>
      have e : s.step Event.consumer_wake
          = { s with device := { s.device with streaming := false }
                     consumer := Consumer.exited } := by
        simp [Session.step, h, consumer_dequeue, hs]
      rw [e]
      exact ⟨rfl, fun i n => Consumer.noConfusion, rfl⟩
    | processing i n => exact absurd h (hc i n)
    | returned =>
      have e : s.step Event.consumer_wake = s := by simp [Session.step, h]
      rw [e]
      exact ⟨hs, hc, rfl⟩
    | exited =>
      have e : s.step Event.consumer_wake = s := by simp [Session.step, h]
      rw [e]
      exact ⟨hs, hc, rfl⟩
  | callback ret =>
    cases h : s.consumer with
    | processing i n => exact absurd h (hc i n)
    | waiting =>
      have e : s.step (Event.callback ret) = s := by simp [Session.step, h]
      rw [e]
      exact ⟨hs, hc, rfl⟩
    | returned =>
      have e : s.step (Event.callback ret) = s := by simp [Session.step, h]
      rw [e]
      exact ⟨hs, hc, rfl⟩
    | exited =>
      have e : s.step (Event.callback ret) = s := by simp [Session.step, h]
      rw [e]
      exact ⟨hs, hc, rfl⟩
  | release =>
    cases h : s.consumer with
    | processing i n => exact absurd h (hc i n)
    | waiting =>
      have e : s.step Event.release = s := by simp [Session.step, h]
      rw [e]
      exact ⟨hs, hc, rfl⟩
    | returned =>
      have e : s.step Event.release
          = { s with device := consumer_release s.device, consumer := Consumer.waiting } := by
        simp [Session.step, h]
      rw [e]
      exact ⟨hs, fun i n => Consumer.noConfusion, rfl⟩
    | exited =>
      have e : s.step Event.release = s := by simp [Session.step, h]
      rw [e]
      exact ⟨hs, hc, rfl⟩
  | stop_request => exact ⟨hs, hc, rfl⟩
  | kill_io =>
    by_cases hk : s.device.stop_requested = true
    · have e : s.step Event.kill_io
          = { s with device := { s.device with stop_requested := false, streaming := false } } := by
        simp [Session.step, hk]
      rw [e]
      exact ⟨rfl, hc, rfl⟩
    · have e : s.step Event.kill_io = s := by simp [Session.step, hk]
      rw [e]
      exact ⟨hs, hc, rfl⟩
  | transfer_thread_exit => exact ⟨rfl, hc, rfl⟩

theorem Session.stopped_run {β : Type} (evs : List (Event β)) :
    ∀ s : Session β, s.device.streaming = false →
      (∀ i n, s.consumer ≠ Consumer.processing i n) →
      (s.run evs).device.streaming = false ∧ (s.run evs).delivered = s.delivered := by
  induction evs with
  | nil => intro s hs _; exact ⟨hs, rfl⟩
  | cons e evs ih =>
    intro s hs hc
    obtain ⟨h1, h2, h3⟩ := Session.stopped_step s hs hc e
    obtain ⟨k1, k2⟩ := ih (s.step e) h1 h2
    exact ⟨k1, k2.trans h3⟩

/-- C20: when the callback invoked for the block in hand returns a non-zero
value, the consumer clears `streaming` and touches nothing else
(`stop_requested`, the ring and the counters are as before); its next step
still releases the buffer, decrementing the filled count; and whatever
happens afterwards in the session, `streaming` stays false and the callback
is not invoked again. -/
theorem nonzero_callback_ends_session {β : Type} (s : Session β) (input_samples : β)
    (dropped_buffers : Nat) (ret : Int)
    (hc : s.consumer = Consumer.processing input_samples dropped_buffers) (hret : ret ≠ 0)
    (evs : List (Event β)) :
    (s.step (Event.callback ret)).device = { s.device with streaming := false }
      ∧ (s.step (Event.callback ret)).delivered
        = s.delivered ++ [consumer_block s.device input_samples dropped_buffers]
      ∧ ((s.step (Event.callback ret)).step Event.release).device
        = { s.device with
            streaming := false
            received_buffer_count := s.device.received_buffer_count - 1 }
      ∧ ((s.step (Event.callback ret)).run evs).device.streaming = false
      ∧ ((s.step (Event.callback ret)).run evs).delivered
        = (s.step (Event.callback ret)).delivered := by
  have e1 : s.step (Event.callback ret)
      = { s with
          device := { s.device with streaming := false }
          consumer := Consumer.returned
          delivered := s.delivered ++ [consumer_block s.device input_samples dropped_buffers] } := by
    simp only [Session.step, hc, consumer_callback_return, bne_iff_ne, ne_eq, hret,
      not_false_eq_true, if_true]
  have hrun := Session.stopped_run evs (s.step (Event.callback ret)) (by rw [e1])
    (by rw [e1]; intro i n; simp)
  refine ⟨by rw [e1], by rw [e1], ?_, hrun.1, hrun.2⟩
  rw [e1]
  simp only [Session.step, consumer_release]

/-- Witness for C20: the callback of the first block of a session returns 1,
and three more completions and consumer turns follow. -/
theorem nonzero_callback_ends_session_witness :
    ((((Session.start opened_device).run [full_completion 100, Event.consumer_wake]).step
        (Event.callback 1)).run
        ([full_completion 101, full_completion 102] ++ consumer_turn ++ consumer_turn)).delivered
      = [consumer_block opened_device 100 0] := by
  have h := (nonzero_callback_ends_session
    ((Session.start opened_device).run [full_completion 100, Event.consumer_wake]) 100 0 1
    (by rfl) (by decide)
    ([full_completion 101, full_completion 102] ++ consumer_turn ++ consumer_turn)).2.2.2.2
  rw [h]
  decide

/-! ## Unpacking on a big-endian host -/

theorem TO_LE_32_load (buffer : Nat → Nat) (hb : ∀ n, buffer n < 256) (i : Nat) :
    TO_LE_32 true (load_uint32 true buffer i) = load_uint32 false buffer i := by
  have h0 := hb (4 * i)
  have h1 := hb (4 * i + 1)
  have h2 := hb (4 * i + 2)
  have h3 := hb (4 * i + 3)
  simp only [TO_LE_32, load_uint32, bswap32, if_true, Bool.false_eq_true, if_false]
  omega

/-- C21 fails on the code: `unpack_samples` is handed the words as the host
reads them, and `TO_LE_32` is applied nowhere on the way.  For the bytes
`01 23 45 67 89 ab cd ef 02 46 8a ce` a little-endian host unpacks
`674 523 01e fcd ab8 9ce 8a4 602` (hexadecimal) and a big-endian host
`012 345 678 9ab cde f02 468 ace`; with each word passed through `TO_LE_32`
first the big-endian host would unpack what the little-endian host does. -/
theorem unpack_depends_on_host_byte_order :
    (List.range 8).map (consumer_unpack false packed_bytes (fun _ => 0) 8)
        = [0x674, 0x523, 0x01e, 0xfcd, 0xab8, 0x9ce, 0x8a4, 0x602]
      ∧ (List.range 8).map (consumer_unpack true packed_bytes (fun _ => 0) 8)
        = [0x012, 0x345, 0x678, 0x9ab, 0xcde, 0xf02, 0x468, 0xace]
      ∧ (List.range 8).map
          (unpack_samples (fun i => TO_LE_32 true (load_uint32 true packed_bytes i))
            (fun _ => 0) 8)
        = [0x674, 0x523, 0x01e, 0xfcd, 0xab8, 0x9ce, 0x8a4, 0x602] := by
  decide

/-! ## Order of the gain tables -/

/-- C22 as stated fails for two of the six tables: the linearity mixer table
rises from 0 to 1 at storage index 10 and from 0 to 2 at storage index 13,
and the linearity LNA table rises from 8 to 9 at storage index 8. -/
theorem linearity_tables_rise :
    hydrasdr_linearity_mixer_gains.getD 10 0 < hydrasdr_linearity_mixer_gains.getD 11 0
      ∧ hydrasdr_linearity_mixer_gains.getD 13 0 < hydrasdr_linearity_mixer_gains.getD 14 0
      ∧ hydrasdr_linearity_lna_gains.getD 8 0 < hydrasdr_linearity_lna_gains.getD 9 0 := by
  decide

/-- C22, amended: each of the six gain tables has 22 entries; the linearity
VGA table and the three sensitivity tables are stored in descending order,
`table[k] ≥ table[k + 1]` for every storage index `k` in 0..20; the
linearity mixer table is descending at every `k` but 10 and 13, and the
linearity LNA table at every `k` but 8. -/
theorem gain_tables_descending_but_two (k : Nat) (hk : k ≤ 20) :
    (hydrasdr_linearity_vga_gains.length = GAIN_COUNT
        ∧ hydrasdr_linearity_mixer_gains.length = GAIN_COUNT
        ∧ hydrasdr_linearity_lna_gains.length = GAIN_COUNT
        ∧ hydrasdr_sensitivity_vga_gains.length = GAIN_COUNT
        ∧ hydrasdr_sensitivity_mixer_gains.length = GAIN_COUNT
        ∧ hydrasdr_sensitivity_lna_gains.length = GAIN_COUNT)
      ∧ hydrasdr_linearity_vga_gains.getD k 0 ≥ hydrasdr_linearity_vga_gains.getD (k + 1) 0
      ∧ hydrasdr_sensitivity_vga_gains.getD k 0 ≥ hydrasdr_sensitivity_vga_gains.getD (k + 1) 0
      ∧ hydrasdr_sensitivity_mixer_gains.getD k 0
          ≥ hydrasdr_sensitivity_mixer_gains.getD (k + 1) 0
      ∧ hydrasdr_sensitivity_lna_gains.getD k 0 ≥ hydrasdr_sensitivity_lna_gains.getD (k + 1) 0
      ∧ (k ≠ 10 → k ≠ 13 →
          hydrasdr_linearity_mixer_gains.getD k 0
            ≥ hydrasdr_linearity_mixer_gains.getD (k + 1) 0)
      ∧ (k ≠ 8 →
          hydrasdr_linearity_lna_gains.getD k 0
            ≥ hydrasdr_linearity_lna_gains.getD (k + 1) 0) := by
  interval_cases k <;> decide

/-- Witness for C22: the step from storage index 0 to storage index 1. -/
theorem gain_tables_descending_but_two_witness :
    hydrasdr_linearity_vga_gains.getD 0 0 ≥ hydrasdr_linearity_vga_gains.getD 1 0
      ∧ hydrasdr_linearity_mixer_gains.getD 0 0 ≥ hydrasdr_linearity_mixer_gains.getD 1 0 := by
  have h := gain_tables_descending_but_two 0 (by decide)
  exact ⟨h.2.1, h.2.2.2.2.2.1 (by decide) (by decide)⟩

/-! ## Gain curves rise with the public index -/

theorem combined_gain_curve_commands (vga mixer lna : List Nat) (k : Nat) :
    combined_gain (curve_commands vga mixer lna k)
      = vga.getD k 0 + mixer.getD k 0 + lna.getD k 0 := by
  simp [combined_gain, curve_commands, HYDRASDR_SET_MIXER_AGC, HYDRASDR_SET_LNA_AGC,
    HYDRASDR_SET_VGA_GAIN, HYDRASDR_SET_MIXER_GAIN, HYDRASDR_SET_LNA_GAIN, List.filter]
  omega

/-- C23: for both curves and every public index `i` in 0..20, when the
control transfers succeed, the VGA, mixer and LNA gains that the setter
sends for index `i + 1` add up to at least what the gains sent for index
`i` add up to. -/
theorem curve_gain_rises_with_index (u : usb_device) (i : Nat) (hi : i ≤ 20)
    (hok : ∀ k, k < 5 → 1 ≤ u.reply (u.sent.length + k)) :
    combined_gain ((hydrasdr_set_linearity_gain u i).1.sent.drop u.sent.length)
        ≤ combined_gain ((hydrasdr_set_linearity_gain u (i + 1)).1.sent.drop u.sent.length)
      ∧ combined_gain ((hydrasdr_set_sensitivity_gain u i).1.sent.drop u.sent.length)
        ≤ combined_gain
            ((hydrasdr_set_sensitivity_gain u (i + 1)).1.sent.drop u.sent.length) := by
  simp only [hydrasdr_set_linearity_gain, hydrasdr_set_sensitivity_gain]
  rw [set_curve_gain_ok _ _ _ (by decide) (by decide) (by decide) u i hok,
    set_curve_gain_ok _ _ _ (by decide) (by decide) (by decide) u (i + 1) hok,
    set_curve_gain_ok _ _ _ (by decide) (by decide) (by decide) u i hok,
    set_curve_gain_ok _ _ _ (by decide) (by decide) (by decide) u (i + 1) hok]
  simp only [List.drop_left, combined_gain_curve_commands]
  interval_cases i <;> decide

/-- Witness for C23: the linearity curve from index 7 (storage index 14,
gains 10 + 2 + 1) to index 8 (storage index 13, gains 10 + 0 + 3). -/
theorem curve_gain_rises_with_index_witness :
    combined_gain (hydrasdr_set_linearity_gain healthy_usb 7).1.sent = 13
      ∧ combined_gain (hydrasdr_set_linearity_gain healthy_usb 8).1.sent = 13
      ∧ combined_gain (hydrasdr_set_linearity_gain healthy_usb 7).1.sent
        ≤ combined_gain (hydrasdr_set_linearity_gain healthy_usb 8).1.sent := by
  have h := (curve_gain_rises_with_index healthy_usb 7 (by decide)
    (fun _ _ => Int.le_refl 1)).1
  exact ⟨by decide, by decide, h⟩

/-! ## The fields of a packed group -/

theorem unpack_field_eq_shift (k w0 w1 w2 : Nat) (hk : k < 8) (h1 : w1 < 2 ^ 32)
    (h2 : w2 < 2 ^ 32) :
    unpack_field k w0 w1 w2 = ((w0 * 2 ^ 64 + w1 * 2 ^ 32 + w2) >>> (84 - 12 * k)) % 4096 := by
  rw [Nat.shiftRight_eq_div_pow]
  have hcases : k = 0 ∨ k = 1 ∨ k = 2 ∨ k = 3 ∨ k = 4 ∨ k = 5 ∨ k = 6 ∨ k = 7 := by omega
  rcases hcases with e | e | e | e | e | e | e | e <;> subst e <;>
    simp only [unpack_field] <;> norm_num <;> omega

theorem unpack_loop_whole_groups (input : Nat → Nat) (length : Nat) :
    ∀ (fuel t : Nat) (output : Nat → Nat),
      unpack_loop input length fuel (3 * t) (8 * t) output
        = unpack_loop input (8 * ((length + 7) / 8)) fuel (3 * t) (8 * t) output := by
  intro fuel
  induction fuel with
  | zero => intro t output; rfl
  | succ fuel ih =>
    intro t output
    have e3 : 3 * t + 3 = 3 * (t + 1) := by ring
    have e8 : 8 * t + 8 = 8 * (t + 1) := by ring
    simp only [unpack_loop]
    by_cases hc : 8 * t < length
    · have hc' : 8 * t < 8 * ((length + 7) / 8) := by omega
      rw [if_pos hc, if_pos hc', e3, e8, ih]
    · have hc' : ¬ 8 * t < 8 * ((length + 7) / 8) := by omega
      rw [if_neg hc, if_neg hc']

theorem unpack_samples_group (input output : Nat → Nat) (length g k : Nat)
    (hg : 8 * g < length) (hk : k < 8) :
    unpack_samples input output length (8 * g + k)
      = unpack_field k (input (3 * g)) (input (3 * g + 1)) (input (3 * g + 2)) := by
  have h := unpack_loop_whole_groups input length length 0 output
  simp only [Nat.mul_zero] at h
  have s := unpack_loop_spec input (8 * ((length + 7) / 8)) length 0 output (8 * g + k)
    (by omega) (by omega) (by omega)
  simp only [Nat.mul_zero] at s
  have q : (8 * g + k) / 8 = g := by omega
  have r : (8 * g + k) % 8 = k := by omega
  rw [unpack_samples, h, s, q, r]

/-- C24: for every group `g` of three 32-bit input words that the loop of
`unpack_samples` reaches, with `W = w0 * 2^64 + w1 * 2^32 + w2` the 96-bit
concatenation of the words, output `8 g + k` (`k` = 0..7) is
`(W >> (84 - 12 k)) mod 4096`, the `k`-th 12-bit field from the top, the
fields 2 and 5 that straddle a word boundary included, and is below 4096. -/
theorem unpack_samples_fields (input output : Nat → Nat) (length g k : Nat)
    (hin : ∀ i, input i < 2 ^ 32) (hg : 8 * g < length) (hk : k < 8) :
    unpack_samples input output length (8 * g + k)
        = ((input (3 * g) * 2 ^ 64 + input (3 * g + 1) * 2 ^ 32 + input (3 * g + 2))
            >>> (84 - 12 * k)) % 4096
      ∧ unpack_samples input output length (8 * g + k) < 4096 := by
  rw [unpack_samples_group input output length g k hg hk]
  exact ⟨unpack_field_eq_shift k _ _ _ hk (hin _) (hin _), unpack_field_lt _ _ _ _⟩

/-- Witness for C24: the words `0x01234567`, `0x89abcdef`, `0x02468ace`; the
field 2 straddles the first two words and is `0x678`. -/
theorem unpack_samples_fields_witness :
    unpack_samples (fun i => [0x01234567, 0x89abcdef, 0x02468ace].getD i 0) (fun _ => 0) 8 2
      = 0x678 := by
  have h := (unpack_samples_fields (fun i => [0x01234567, 0x89abcdef, 0x02468ace].getD i 0)
    (fun _ => 0) 8 0 2
    (fun i => Nat.lt_of_le_of_lt (getD_le_of_forall _ 4294967295 (by decide) i) (by decide))
    (by decide) (by decide)).1
  have e : 8 * 0 + 2 = 2 := rfl
  rw [e] at h
  rw [h]
  decide

/-! ## Completions on a full ring and failed completions -/

/-- C25 as stated fails in three places.  When `libusb_submit_transfer`
refuses the resubmission, the callback clears `streaming`, so the drop
counter is not the only thing that changes; when a stop has been requested
the completion is ignored, the counter stays and nothing is resubmitted;
and a counter that stands at 2^32 - 1 wraps to 0. -/
theorem full_ring_completion_not_only_counts :
    full_ring_device.streaming = true
      ∧ (hydrasdr_libusb_transfer_callback false full_transfer full_ring_device).device.streaming
        = false
      ∧ (hydrasdr_libusb_transfer_callback true full_transfer
          { full_ring_device with stop_requested := true }).device.dropped_buffers
        = full_ring_device.dropped_buffers
      ∧ (hydrasdr_libusb_transfer_callback true full_transfer
          { full_ring_device with stop_requested := true }).resubmitted = false
      ∧ full_ring_device.dropped_buffers = 4294967295
      ∧ (hydrasdr_libusb_transfer_callback true full_transfer full_ring_device).device.dropped_buffers
        = 0 := by
  decide

/-- C25, amended: when a full transfer completes successfully while the
device is streaming with no stop requested and the ring is full, the
callback adds one to the 32-bit drop counter (2^32 - 1 wraps to 0), swaps no
buffer pointer, leaves every ring slot, every drop snapshot, head, tail and
the filled count as they are, and resubmits the transfer; `streaming` is
cleared if that resubmission is refused and nothing else changes. -/
theorem full_ring_completion_drops {β : Type} (submit_ok : Bool) (t : libusb_transfer β)
    (d : hydrasdr_device β) (hs : d.streaming = true) (hq : d.stop_requested = false)
    (ht : t.completed = true) (hl : t.actual_length = t.length)
    (hfull : d.received_buffer_count = 8) :
    (hydrasdr_libusb_transfer_callback submit_ok t d).device
        = { d with dropped_buffers := (d.dropped_buffers + 1) % 2 ^ 32, streaming := submit_ok }
      ∧ (d.dropped_buffers + 1 < 2 ^ 32 →
          (hydrasdr_libusb_transfer_callback submit_ok t d).device.dropped_buffers
            = d.dropped_buffers + 1)
      ∧ (hydrasdr_libusb_transfer_callback submit_ok t d).transfer = t
      ∧ (hydrasdr_libusb_transfer_callback submit_ok t d).resubmitted = true
      ∧ (hydrasdr_libusb_transfer_callback submit_ok t d).device.received_samples_queue
        = d.received_samples_queue
      ∧ (hydrasdr_libusb_transfer_callback submit_ok t d).device.dropped_buffers_queue
        = d.dropped_buffers_queue
      ∧ (hydrasdr_libusb_transfer_callback submit_ok t d).device.received_samples_queue_head
        = d.received_samples_queue_head
      ∧ (hydrasdr_libusb_transfer_callback submit_ok t d).device.received_samples_queue_tail
        = d.received_samples_queue_tail
      ∧ (hydrasdr_libusb_transfer_callback submit_ok t d).device.received_buffer_count
        = d.received_buffer_count := by
  have e : hydrasdr_libusb_transfer_callback submit_ok t d
      = { device :=
            { d with dropped_buffers := (d.dropped_buffers + 1) % 2 ^ 32, streaming := submit_ok }
          transfer := t
          outcome := Completion.dropped
          resubmitted := true } := by
    cases submit_ok <;>
      simp [hydrasdr_libusb_transfer_callback, hs, hq, ht, hl, hfull, RAW_BUFFER_COUNT]
  rw [e]
  refine ⟨rfl, fun h => ?_, rfl, rfl, rfl, rfl, rfl, rfl, rfl⟩
  exact Nat.mod_eq_of_lt h

/-- Witness for C25: the ninth completion of a session whose consumer has
not run yet. -/
theorem full_ring_completion_drops_witness :
    (hydrasdr_libusb_transfer_callback true full_transfer
        { full_ring_device with dropped_buffers := 0 }).device
      = { full_ring_device with dropped_buffers := 1 } :=
  (full_ring_completion_drops true full_transfer { full_ring_device with dropped_buffers := 0 }
    rfl rfl rfl rfl rfl).1

/-- C26 as stated fails once a stop has been requested: a cancelled
completion that arrives on a streaming device whose `stop_requested` flag
is set is ignored, and `streaming` stays set. -/
theorem failed_completion_ignored_after_stop_request :
    cancelled_transfer.completed = false
      ∧ (hydrasdr_libusb_transfer_callback true cancelled_transfer
          { full_ring_device with stop_requested := true }).device.streaming = true := by
  decide

/-- C26, amended: on a completion whose status is not completed or whose
actual length differs from the requested length, the callback does not
resubmit the transfer and leaves the ring (slots, snapshots, head, tail,
filled count) and the drop counter unchanged; it clears `streaming` if the
device is streaming and no stop is requested, and otherwise ignores the
completion and leaves `streaming` as it is. -/
theorem failed_completion_ends_streaming {β : Type} (submit_ok : Bool) (t : libusb_transfer β)
    (d : hydrasdr_device β) (hbad : t.completed = false ∨ t.actual_length ≠ t.length) :
    (hydrasdr_libusb_transfer_callback submit_ok t d).device
        = (if d.streaming && !d.stop_requested then { d with streaming := false } else d)
      ∧ (hydrasdr_libusb_transfer_callback submit_ok t d).resubmitted = false
      ∧ (hydrasdr_libusb_transfer_callback submit_ok t d).transfer = t
      ∧ (hydrasdr_libusb_transfer_callback submit_ok t d).device.received_samples_queue
        = d.received_samples_queue
      ∧ (hydrasdr_libusb_transfer_callback submit_ok t d).device.dropped_buffers_queue
        = d.dropped_buffers_queue
      ∧ (hydrasdr_libusb_transfer_callback submit_ok t d).device.received_samples_queue_head
        = d.received_samples_queue_head
      ∧ (hydrasdr_libusb_transfer_callback submit_ok t d).device.received_samples_queue_tail
        = d.received_samples_queue_tail
      ∧ (hydrasdr_libusb_transfer_callback submit_ok t d).device.received_buffer_count
        = d.received_buffer_count
      ∧ (hydrasdr_libusb_transfer_callback submit_ok t d).device.dropped_buffers
        = d.dropped_buffers := by
  have hc : (t.completed && t.actual_length == t.length) = false := by
    rcases hbad with h | h
    · simp [h]
    · simp [h]
  by_cases hg : (!d.streaming || d.stop_requested) = true
  · have hg' : (d.streaming && !d.stop_requested) = false := by
      cases h1 : d.streaming <;> cases h2 : d.stop_requested <;> simp [h1, h2] at hg ⊢
    have e : hydrasdr_libusb_transfer_callback submit_ok t d
        = { device := d, transfer := t, outcome := Completion.ignored, resubmitted := false } := by
      simp only [hydrasdr_libusb_transfer_callback, hg, if_true]
    rw [e, hg']
    exact ⟨rfl, rfl, rfl, rfl, rfl, rfl, rfl, rfl, rfl⟩
  · have hg' : (d.streaming && !d.stop_requested) = true := by
      cases h1 : d.streaming <;> cases h2 : d.stop_requested <;> simp [h1, h2] at hg ⊢
    have e : hydrasdr_libusb_transfer_callback submit_ok t d
        = { device := { d with streaming := false }, transfer := t
            outcome := Completion.failed, resubmitted := false } := by
      simp only [hydrasdr_libusb_transfer_callback, hg, hc, if_false, Bool.false_eq_true]
    rw [e, hg']
    exact ⟨rfl, rfl, rfl, rfl, rfl, rfl, rfl, rfl, rfl⟩

/-- Witness for C26: a cancelled completion in mid-session. -/
theorem failed_completion_ends_streaming_witness :
    (hydrasdr_libusb_transfer_callback true cancelled_transfer full_ring_device).device.streaming
        = false
      ∧ (hydrasdr_libusb_transfer_callback true cancelled_transfer full_ring_device).resubmitted
        = false := by
  have h := failed_completion_ends_streaming true cancelled_transfer full_ring_device
    (Or.inl rfl)
  refine ⟨?_, h.2.1⟩
  rw [h.1]
  decide

/-! ## One block stays inside its buffers -/

theorem unpack_accesses_mem (length : Nat) (hlen : length % 8 = 0) :
    ∀ (fuel t : Nat), length ≤ 8 * t + 8 * fuel →
      (∀ i, i ∈ (unpack_accesses length fuel (3 * t) (8 * t)).1
          ↔ 3 * t ≤ i ∧ i < 3 * (length / 8))
        ∧ (∀ j, j ∈ (unpack_accesses length fuel (3 * t) (8 * t)).2
          ↔ 8 * t ≤ j ∧ j < length) := by
  intro fuel
  induction fuel with
  | zero =>
    intro t h
    simp only [unpack_accesses, List.not_mem_nil, false_iff]
    exact ⟨fun i => by omega, fun j => by omega⟩
  | succ fuel ih =>
    intro t h
    have e3 : 3 * t + 3 = 3 * (t + 1) := by ring
    have e8 : 8 * t + 8 = 8 * (t + 1) := by ring
    simp only [unpack_accesses]
    by_cases hc : 8 * t < length
    · obtain ⟨r, w⟩ := ih (t + 1) (by omega)
      rw [if_pos hc, e3, e8]
      refine ⟨fun i => ?_, fun j => ?_⟩
      · simp only [List.mem_append, List.mem_cons, List.not_mem_nil, or_false, r i]
        omega
      · simp only [List.mem_append, List.mem_cons, List.not_mem_nil, or_false, w j]
        omega
    · rw [if_neg hc]
      simp only [List.not_mem_nil, false_iff]
      exact ⟨fun i => by omega, fun j => by omega⟩

theorem convert_accesses_mem (count : Nat) (hcount : count % 4 = 0) :
    ∀ (fuel t : Nat), count ≤ 4 * t + 4 * fuel →
      ∀ j, j ∈ convert_accesses count fuel (4 * t) ↔ 4 * t ≤ j ∧ j < count := by
  intro fuel
  induction fuel with
  | zero =>
    intro t h j
    simp only [convert_accesses, List.not_mem_nil, false_iff]
    omega
  | succ fuel ih =>
    intro t h j
    have e4 : 4 * t + 4 = 4 * (t + 1) := by ring
    simp only [convert_accesses]
    by_cases hc : 4 * t < count
    · rw [if_pos hc, e4]
      simp only [List.mem_append, List.mem_cons, List.not_mem_nil, or_false,
        ih (t + 1) (by omega) j]
      omega
    · rw [if_neg hc]
      simp only [List.not_mem_nil, false_iff]
      omega

theorem unpack_loop_frame (input : Nat → Nat) (length : Nat) :
    ∀ (fuel i j : Nat) (output : Nat → Nat) (m : Nat),
      m ∉ (unpack_accesses length fuel i j).2 →
      unpack_loop input length fuel i j output m = output m := by
  intro fuel
  induction fuel with
  | zero => intro i j output m _; rfl
  | succ fuel ih =>
    intro i j output m hm
    simp only [unpack_loop, unpack_accesses] at hm ⊢
    split_ifs at hm ⊢ with hc
    · simp only [List.mem_append, List.mem_cons, List.not_mem_nil, or_false, not_or] at hm
      obtain ⟨⟨m0, m1, m2, m3, m4, m5, m6, m7⟩, hrest⟩ := hm
      rw [ih (i + 3) (j + 8) _ m hrest]
      rw [Function.update_noteq m7, Function.update_noteq m6, Function.update_noteq m5,
        Function.update_noteq m4, Function.update_noteq m3, Function.update_noteq m2,
        Function.update_noteq m1, Function.update_noteq m0]
    · rfl

theorem convert_loop_frame {α : Type} (cvt : Nat → α) (src : Nat → Nat) (count : Nat) :
    ∀ (fuel i : Nat) (dest : Nat → α) (m : Nat), m ∉ convert_accesses count fuel i →
      convert_loop cvt src count fuel i dest m = dest m := by
  intro fuel
  induction fuel with
  | zero => intro i dest m _; rfl
  | succ fuel ih =>
    intro i dest m hm
    simp only [convert_loop, convert_accesses] at hm ⊢
    split_ifs at hm ⊢ with hc
    · simp only [List.mem_append, List.mem_cons, List.not_mem_nil, or_false, not_or] at hm
      obtain ⟨⟨m0, m1, m2, m3⟩, hrest⟩ := hm
      rw [ih (i + 4) _ m hrest]
      rw [Function.update_noteq m3, Function.update_noteq m2, Function.update_noteq m1,
        Function.update_noteq m0]
    · rfl

/-- C27: for the unpacked configuration (262144-byte buffers) and the packed
one (147456-byte buffers), the decoded sample count is a multiple of 8; with
packing `unpack_samples` reads exactly the `buffer_size / 4` words of the raw
buffer and writes exactly the first `sample_count` entries of
`unpacked_samples`, which is allocated with `sample_count` 2-byte entries;
the conversion loops touch exactly the first `sample_count` entries of their
source and of `output_buffer`, which is allocated with `sample_count` 4-byte
entries; and neither loop changes an entry outside the ones it writes. -/
theorem block_stays_inside_buffers {β : Type} (d : hydrasdr_device β) (size_t_bits : Nat)
    (hbits : 32 ≤ size_t_bits)
    (hcfg : (d.packing_enabled = false ∧ d.buffer_size = 262144)
      ∨ (d.packing_enabled = true ∧ d.buffer_size = 147456)) :
    decoded_sample_count d % 8 = 0
      ∧ (d.packing_enabled = true →
          (∀ i, i ∈ unpack_samples_reads (decoded_sample_count d) ↔ i < d.buffer_size / 4)
            ∧ (∀ j, j ∈ unpack_samples_writes (decoded_sample_count d)
              ↔ j < decoded_sample_count d)
            ∧ (allocate_transfers_sizes size_t_bits d).unpacked_samples
              = some (decoded_sample_count d * 2))
      ∧ (d.packing_enabled = false → decoded_sample_count d * 2 = d.buffer_size)
      ∧ (∀ j, j ∈ convert_samples_indices (decoded_sample_count d)
          ↔ j < decoded_sample_count d)
      ∧ (allocate_transfers_sizes size_t_bits d).output_buffer = decoded_sample_count d * 4
      ∧ (allocate_transfers_sizes size_t_bits d).received_samples_queue = d.buffer_size
      ∧ (∀ (input output : Nat → Nat) (m : Nat), decoded_sample_count d ≤ m →
          unpack_samples input output (decoded_sample_count d) m = output m)
      ∧ (∀ (src : Nat → Nat) (dest_i : Nat → Int) (dest_f : Nat → ℚ) (m : Nat),
          decoded_sample_count d ≤ m →
          convert_samples_int16 src dest_i (decoded_sample_count d) m = dest_i m
            ∧ convert_samples_float src dest_f (decoded_sample_count d) m = dest_f m) := by
  have hpow : (2 : Nat) ^ 32 ≤ 2 ^ size_t_bits := Nat.pow_le_pow_right (by norm_num) hbits
  have hcount : (d.packing_enabled = false ∧ d.buffer_size = 262144
        ∧ decoded_sample_count d = 131072)
      ∨ (d.packing_enabled = true ∧ d.buffer_size = 147456
        ∧ decoded_sample_count d = 98304) := by
    rcases hcfg with ⟨hp, hb⟩ | ⟨hp, hb⟩
    · exact Or.inl ⟨hp, hb, by simp [decoded_sample_count, hp, hb]⟩
    · exact Or.inr ⟨hp, hb, by simp [decoded_sample_count, hp, hb]⟩
  have h8 : decoded_sample_count d % 8 = 0 := by
    rcases hcount with ⟨_, _, hc⟩ | ⟨_, _, hc⟩ <;> rw [hc]
  have hu := unpack_accesses_mem (decoded_sample_count d) h8 (decoded_sample_count d) 0
    (by omega)
  have hv := convert_accesses_mem (decoded_sample_count d) (by omega) (decoded_sample_count d) 0
    (by omega)
  simp only [Nat.mul_zero, Nat.zero_le, true_and] at hu hv
  have hw : ∀ m, decoded_sample_count d ≤ m →
      m ∉ unpack_samples_writes (decoded_sample_count d) := by
    intro m hm hmem
    have := (hu.2 m).mp hmem
    omega
  have hx : ∀ m, decoded_sample_count d ≤ m →
      m ∉ convert_samples_indices (decoded_sample_count d) := by
    intro m hm hmem
    have := (hv m).mp hmem
    omega
  refine ⟨h8, fun hp => ⟨fun i => ?_, hu.2, ?_⟩, fun hp => ?_, hv, ?_, rfl,
    fun input output m hm => unpack_loop_frame input _ _ 0 0 output m (hw m hm),
    fun src dest_i dest_f m hm =>
      ⟨convert_loop_frame _ src _ _ 0 dest_i m (hx m hm),
        convert_loop_frame _ src _ _ 0 dest_f m (hx m hm)⟩⟩
  · rcases hcount with ⟨hp', _, _⟩ | ⟨_, hb, hc⟩
    · rw [hp] at hp'; cases hp'
    · have := hu.1 i
      rw [unpack_samples_reads, this, hc, hb]
  · rcases hcount with ⟨hp', _, _⟩ | ⟨_, hb, hc⟩
    · rw [hp] at hp'; cases hp'
    · have e : 98304 * 2 % 2 ^ size_t_bits = 98304 * 2 := Nat.mod_eq_of_lt (by omega)
      simp [allocate_transfers_sizes, hp, hb, hc, e]
  · rcases hcount with ⟨_, hb, hc⟩ | ⟨hp', _, _⟩
    · rw [hc, hb]
    · rw [hp] at hp'; cases hp'
  · rcases hcount with ⟨hp, hb, hc⟩ | ⟨hp, hb, hc⟩
    · have e : 131072 * 4 % 2 ^ size_t_bits = 131072 * 4 := Nat.mod_eq_of_lt (by omega)
      simp [allocate_transfers_sizes, hp, hb, hc, e]
    · have e : 98304 * 4 % 2 ^ size_t_bits = 98304 * 4 := Nat.mod_eq_of_lt (by omega)
      simp [allocate_transfers_sizes, hp, hb, hc, e]

/-- Witness for C27: the packed configuration on a host with a 64-bit
`size_t`; 98304 samples are decoded from 36864 words. -/
theorem block_stays_inside_buffers_witness :
    decoded_sample_count packed_device = 98304
      ∧ (36863 ∈ unpack_samples_reads (decoded_sample_count packed_device))
      ∧ (36864 ∉ unpack_samples_reads (decoded_sample_count packed_device))
      ∧ (allocate_transfers_sizes 64 packed_device).output_buffer = 393216 := by
  have h := block_stays_inside_buffers packed_device 64 (by decide) (Or.inr ⟨rfl, rfl⟩)
  have hr := (h.2.1 rfl).1
  refine ⟨by decide, (hr 36863).mpr (by decide), fun hm => ?_, ?_⟩
  · exact absurd ((hr 36864).mp hm) (by decide)
  · rw [h.2.2.2.2.1]
    decide

/-! ## The producer and the buffer in the hands of the consumer -/

theorem callback_keeps_tail {β : Type} (submit_ok : Bool) (t : libusb_transfer β)
    (d : hydrasdr_device β) :
    (hydrasdr_libusb_transfer_callback submit_ok t d).device.received_samples_queue_tail
      = d.received_samples_queue_tail := by
  unfold hydrasdr_libusb_transfer_callback
  split_ifs <;> rfl

theorem callback_keeps_other_slots {β : Type} (submit_ok : Bool) (t : libusb_transfer β)
    (d : hydrasdr_device β) (i : Int)
    (hi : d.received_buffer_count < 8 → i ≠ d.received_samples_queue_head) :
    (hydrasdr_libusb_transfer_callback submit_ok t d).device.received_samples_queue i
      = d.received_samples_queue i := by
  unfold hydrasdr_libusb_transfer_callback
  split_ifs with h1 h2 h3 h4
  · rfl
  · exact Function.update_noteq (hi (by simpa [RAW_BUFFER_COUNT] using h3)) _ _
  · exact Function.update_noteq (hi (by simpa [RAW_BUFFER_COUNT] using h3)) _ _
  · rfl
  · rfl
  · rfl

theorem callback_swaps_head {β : Type} (submit_ok : Bool) (t : libusb_transfer β)
    (d : hydrasdr_device β) :
    (hydrasdr_libusb_transfer_callback submit_ok t d).transfer.buffer = t.buffer
      ∨ (d.received_buffer_count < 8
        ∧ (hydrasdr_libusb_transfer_callback submit_ok t d).transfer.buffer
          = d.received_samples_queue d.received_samples_queue_head) := by
  unfold hydrasdr_libusb_transfer_callback
  split_ifs with h1 h2 h3 h4
  · exact Or.inl rfl
  · exact Or.inr ⟨by simpa [RAW_BUFFER_COUNT] using h3, rfl⟩
  · exact Or.inr ⟨by simpa [RAW_BUFFER_COUNT] using h3, rfl⟩
  · exact Or.inl rfl
  · exact Or.inl rfl
  · exact Or.inl rfl

theorem Session.Inv.head_ne_processed {β : Type} {d0 : hydrasdr_device β} {s : Session β}
    {n : Nat} (h : Session.Inv d0 s n) (hheld : s.consumer.held = 1)
    (hcount : s.device.received_buffer_count < 8) :
    s.device.received_samples_queue_head ≠ processed_slot s.device := by
  have h1 := h.head_eq
  have h2 := h.tail_lo
  have h3 := h.tail_hi
  have h4 := h.count_eq
  unfold processed_slot
  omega

theorem Session.processed_step {β : Type} {d0 : hydrasdr_device β} {s : Session β} {n : Nat}
    (h : Session.Inv d0 s n)
    (hp : ∀ b c, s.consumer = Consumer.processing b c →
      s.device.received_samples_queue (processed_slot s.device) = b)
    (e : Event β) :
    ∀ b c, (s.step e).consumer = Consumer.processing b c →
      (s.step e).device.received_samples_queue (processed_slot (s.step e).device) = b := by
  intro b c
  cases e with
  | completion t submit_ok =>
    have hcons : (s.step (Event.completion t submit_ok)).consumer = s.consumer := by
      simp only [Session.step]
      split <;> rfl
    have hdev : (s.step (Event.completion t submit_ok)).device
        = (hydrasdr_libusb_transfer_callback submit_ok t s.device).device := by
      simp only [Session.step]
      split <;> rfl
    rw [hcons, hdev]
    intro hc
    have hslot : processed_slot (hydrasdr_libusb_transfer_callback submit_ok t s.device).device
        = processed_slot s.device := by
      unfold processed_slot
      rw [callback_keeps_tail]
    rw [hslot, callback_keeps_other_slots submit_ok t s.device _
      (fun hlt => (h.head_ne_processed (by rw [hc]; rfl) hlt).symm)]
    exact hp b c hc
  | consumer_wake =>
    cases hw : s.consumer with
    | waiting =>
      simp only [Session.step, hw, consumer_dequeue]
      have h2 := h.tail_lo
      have h3 := h.tail_hi
      split_ifs with g1 g2
      · intro hc; cases hc
      · simp only [Consumer.processing.injEq, and_imp]
        intro e1 _
        rw [← e1]
        congr 1
        unfold processed_slot
        simp only [land_succ _ h2 h3]
        omega
      · intro hc; cases hc
    | processing b1 c1 =>
      simp only [Session.step, hw]
      intro hc
      exact hp b c (hw.trans hc)
    | returned => simp [Session.step, hw]
    | exited => simp [Session.step, hw]
  | callback ret =>
    cases hw : s.consumer <;> simp [Session.step, hw]
  | release =>
    cases hw : s.consumer with
    | waiting => simp [Session.step, hw]
    | processing b1 c1 =>
      simp only [Session.step, hw]
      intro hc
      exact hp b c (hw.trans hc)
    | returned => simp [Session.step, hw]
    | exited => simp [Session.step, hw]
  | stop_request => exact hp b c
  | kill_io =>
    simp only [Session.step]
    split_ifs
    · exact hp b c
    · exact hp b c
  | transfer_thread_exit => exact hp b c

theorem Session.processed_reachable {β : Type} (d : hydrasdr_device β) (evs : List (Event β)) :
    ∀ b c, ((Session.start d).run evs).consumer = Consumer.processing b c →
      ((Session.start d).run evs).device.received_samples_queue
        (processed_slot ((Session.start d).run evs).device) = b := by
  induction evs using List.reverseRecOn with
  | nil => intro b c hc; cases hc
  | append_singleton evs e ih =>
    obtain ⟨n, h⟩ := Session.inv_reachable d evs
    have hrun : (Session.start d).run (evs ++ [e]) = ((Session.start d).run evs).step e := by
      rw [Session.run_append]
      rfl
    rw [hrun]
    exact Session.processed_step h ih e

/-! ## The buffer in the hands of the consumer never goes back to USB -/

theorem start_rx_reaches_create_io_threads {β : Type} (e : thread_env) (callback ctx : Nat)
    (d : hydrasdr_device_t β) (h1 : d.usb.reply d.usb.sent.length = 0)
    (h2 : d.usb.reply (d.usb.sent.length + 1) = 0) :
    hydrasdr_start_rx e callback ctx d
      = create_io_threads e callback
          { d with
            cnv_f := iqconverter_reset d.cnv_f
            cnv_i := iqconverter_reset d.cnv_i
            pipeline :=
              { d.pipeline with dropped_buffers_queue := fun _ => 0, dropped_buffers := 0 }
            usb :=
              (hydrasdr_set_receiver_mode (hydrasdr_set_receiver_mode d.usb RECEIVER_MODE_OFF).1
                RECEIVER_MODE_RX).1
            ctx := ctx } := by
  have r1 := set_receiver_mode_eq d.usb RECEIVER_MODE_OFF
  have r2 := set_receiver_mode_eq (hydrasdr_set_receiver_mode d.usb RECEIVER_MODE_OFF).1
    RECEIVER_MODE_RX
  rw [r1.1] at r2
  simp only [List.length_append, List.length_cons, List.length_nil, Nat.zero_add, h2,
    if_true] at r2
  simp only [h1, if_true] at r1
  simp only [hydrasdr_start_rx, r1.2, r1.1, r2.2, bne_self_eq_false, Bool.false_eq_true,
    if_false, beq_self_eq_true, if_true]

theorem create_io_threads_sets_streaming {β : Type} (e : thread_env) (callback : Nat)
    (d : hydrasdr_device_t β) (hs : d.pipeline.streaming = false)
    (hq : d.pipeline.stop_requested = false) :
    (create_io_threads e callback d).1.pipeline.streaming = true
      ∧ (create_io_threads e callback d).1.pipeline.stop_requested = false := by
  simp only [create_io_threads, hs, hq, Bool.not_false, Bool.and_self, if_true]
  split_ifs <;> exact ⟨rfl, rfl⟩

theorem start_rx_busy {β : Type} (e : thread_env) (callback ctx : Nat)
    (d : hydrasdr_device_t β) (hs : d.pipeline.streaming = true)
    (h1 : d.usb.reply d.usb.sent.length = 0) (h2 : d.usb.reply (d.usb.sent.length + 1) = 0) :
    (hydrasdr_start_rx e callback ctx d).2 = HYDRASDR_ERROR_BUSY := by
  rw [start_rx_reaches_create_io_threads e callback ctx d h1 h2]
  simp only [create_io_threads, hs, Bool.not_true, Bool.false_and, Bool.false_eq_true, if_false]

theorem start_rx_stays_streaming {β : Type} (e : thread_env) (callback ctx : Nat)
    (d : hydrasdr_device_t β) (hs : d.pipeline.streaming = true) :
    (hydrasdr_start_rx e callback ctx d).1.pipeline.streaming = true
      ∧ (hydrasdr_start_rx e callback ctx d).1.pipeline.stop_requested
        = d.pipeline.stop_requested
      ∧ ((hydrasdr_start_rx e callback ctx d).2 = HYDRASDR_ERROR_BUSY
        ∨ (hydrasdr_start_rx e callback ctx d).2 = HYDRASDR_ERROR_LIBUSB) := by
  have r1 := (set_receiver_mode_eq d.usb RECEIVER_MODE_OFF).2
  have r2 := (set_receiver_mode_eq (hydrasdr_set_receiver_mode d.usb RECEIVER_MODE_OFF).1
    RECEIVER_MODE_RX).2
  simp only [hydrasdr_start_rx, create_io_threads, hs, Bool.not_true, Bool.false_and,
    Bool.false_eq_true, if_false]
  split_ifs with g1 g2
  · refine ⟨rfl, rfl, Or.inr ?_⟩
    rw [r1] at g1 ⊢
    split_ifs at g1 ⊢ with g3
    · simp at g1
    · rfl
  · exact ⟨rfl, rfl, Or.inl rfl⟩
  · refine ⟨rfl, rfl, Or.inr ?_⟩
    rw [r2] at g2 ⊢
    split_ifs at g2 ⊢ with g3
    · simp at g2
    · rfl

theorem request_stays_streaming {β : Type} (d : hydrasdr_device_t β) (c : Call β)
    (hc : c.is_request = true) (hs : d.pipeline.streaming = true)
    (hq : d.pipeline.stop_requested = false) :
    (d.call c).pipeline.streaming = true ∧ (d.call c).pipeline.stop_requested = false := by
  cases c with
  | set_packing a value =>
    have e : d.call (Call.set_packing a value) = d := by
      simp [hydrasdr_device_t.call, hydrasdr_set_packing, hs]
    rw [e]
    exact ⟨hs, hq⟩
  | set_sample_type sample_type => exact ⟨hs, hq⟩
  | set_conversion_filter_float32 kernel =>
    have e : d.call (Call.set_conversion_filter_float32 kernel) = d := by
      simp [hydrasdr_device_t.call, hydrasdr_set_conversion_filter_float32, hs]
    rw [e]
    exact ⟨hs, hq⟩
  | set_conversion_filter_int16 kernel =>
    have e : d.call (Call.set_conversion_filter_int16 kernel) = d := by
      simp [hydrasdr_device_t.call, hydrasdr_set_conversion_filter_int16, hs]
    rw [e]
    exact ⟨hs, hq⟩
  | start_rx e callback ctx =>
    obtain ⟨a1, a2, _⟩ := start_rx_stays_streaming e callback ctx d hs
    exact ⟨a1, a2.trans hq⟩
  | stop_rx leave => simp [Call.is_request] at hc
  | threads leave => simp [Call.is_request] at hc

theorem requests_stay_streaming {β : Type} (cs : List (Call β)) :
    ∀ d : hydrasdr_device_t β, (∀ c ∈ cs, c.is_request = true) →
      d.pipeline.streaming = true → d.pipeline.stop_requested = false →
      (d.calls cs).pipeline.streaming = true ∧ (d.calls cs).pipeline.stop_requested = false := by
  induction cs with
  | nil => intro d _ hs hq; exact ⟨hs, hq⟩
  | cons c cs ih =>
    intro d hcs hs hq
    obtain ⟨a1, a2⟩ := request_stays_streaming d c (hcs c (List.mem_cons_self c cs)) hs hq
    exact ih (d.call c) (fun x hx => hcs x (List.mem_cons_of_mem c hx)) a1 a2

theorem set_packing_stop_requested {β : Type} (a : allocation β) (value : Nat)
    (d : hydrasdr_device_t β) :
    (hydrasdr_set_packing a value d).1.pipeline.stop_requested = d.pipeline.stop_requested := by
  by_cases h1 : d.pipeline.streaming = true
  · simp [hydrasdr_set_packing, h1]
  · by_cases h2 : (libusb_control_transfer d.usb HYDRASDR_SET_PACKING 0 value).2 < 1
    · simp [hydrasdr_set_packing, h1, h2]
    · by_cases h3 : (value == 1) = d.pipeline.packing_enabled
      · simp [hydrasdr_set_packing, h1, h2, h3]
      · simp only [hydrasdr_set_packing, h1, h2, bne_iff_ne, ne_eq, h3, not_false_eq_true,
          if_true, if_false, Bool.false_eq_true, allocate_transfers, free_transfers]
        split_ifs <;> rfl

theorem start_rx_stop_requested {β : Type} (e : thread_env) (callback ctx : Nat)
    (d : hydrasdr_device_t β) :
    (hydrasdr_start_rx e callback ctx d).1.pipeline.stop_requested
      = d.pipeline.stop_requested := by
  simp only [hydrasdr_start_rx, create_io_threads]
  split_ifs <;> rfl

theorem call_keeps_stop_requested {β : Type} (d : hydrasdr_device_t β) (c : Call β)
    (hc : c.is_stop_rx = false) :
    (d.call c).pipeline.stop_requested = d.pipeline.stop_requested := by
  cases c with
  | set_packing a value => exact set_packing_stop_requested a value d
  | set_sample_type sample_type => rfl
  | set_conversion_filter_float32 kernel =>
    simp only [hydrasdr_device_t.call, (set_conversion_filter_pipeline kernel [] d).1]
  | set_conversion_filter_int16 kernel =>
    simp only [hydrasdr_device_t.call, (set_conversion_filter_pipeline [] kernel d).2]
  | start_rx e callback ctx => exact start_rx_stop_requested e callback ctx d
  | stop_rx leave => simp [Call.is_stop_rx] at hc
  | threads leave =>
    simp only [hydrasdr_device_t.call]
    split_ifs <;> rfl

theorem calls_keep_stop_requested {β : Type} (cs : List (Call β)) :
    ∀ d : hydrasdr_device_t β, (∀ c ∈ cs, c.is_stop_rx = false) →
      (d.calls cs).pipeline.stop_requested = d.pipeline.stop_requested := by
  induction cs with
  | nil => intro d _; rfl
  | cons c cs ih =>
    intro d hcs
    have e := ih (d.call c) (fun x hx => hcs x (List.mem_cons_of_mem c hx))
    exact e.trans (call_keeps_stop_requested d c (hcs c (List.mem_cons_self c cs)))

/-- C29 as stated fails.  By design: when the second `pthread_create` fails
the consumer thread exists, and once it has ended the session on its own
`hydrasdr_is_streaming` reports 0 and a further `hydrasdr_start_rx`
succeeds, with no `hydrasdr_stop_rx` in between.  And, by the late test for
Busy in `hydrasdr_start_rx`, a further start whose receiver-mode transfer
fails returns `HYDRASDR_ERROR_LIBUSB`, not Busy. -/
theorem restart_reports_transport_error :
    (hydrasdr_start_rx no_transfer_thread 7 2 idle_device).2 = HYDRASDR_ERROR_THREAD
      ∧ hydrasdr_is_streaming
          ((hydrasdr_start_rx no_transfer_thread 7 2 idle_device).1.call
            (Call.threads thread_clears_streaming)) = 0
      ∧ (hydrasdr_start_rx good_threads 7 2
          ((hydrasdr_start_rx no_transfer_thread 7 2 idle_device).1.call
            (Call.threads thread_clears_streaming))).2 = HYDRASDR_SUCCESS
      ∧ (hydrasdr_start_rx no_consumer_thread 7 2
          { idle_device with usb := third_transfer_fails }).2 = HYDRASDR_ERROR_THREAD
      ∧ (hydrasdr_start_rx good_threads 7 2
          (hydrasdr_start_rx no_consumer_thread 7 2
            { idle_device with usb := third_transfer_fails }).1).2 = HYDRASDR_ERROR_LIBUSB
      ∧ HYDRASDR_ERROR_LIBUSB ≠ HYDRASDR_ERROR_BUSY := by
  decide

/-- C29, amended: when `hydrasdr_start_rx` on a device that is not streaming
fails inside `create_io_threads`, the `streaming` flag it has set stays set
and `hydrasdr_is_streaming` reports 1.  No request to the device short of
`hydrasdr_stop_rx` clears the flag; only a pipeline thread can.  Whatever
the application and the threads do next short of `hydrasdr_stop_rx`, for as
long as the flag is still set `hydrasdr_is_streaming` reports 1 and a
further `hydrasdr_start_rx` fails and leaves the flag set; and after
`hydrasdr_stop_rx` the device is not streaming. -/
theorem failed_start_leaves_streaming_set {β : Type} (e : thread_env) (callback ctx : Nat)
    (d : hydrasdr_device_t β) (hs : d.pipeline.streaming = false)
    (hq : d.pipeline.stop_requested = false) (h1 : d.usb.reply d.usb.sent.length = 0)
    (h2 : d.usb.reply (d.usb.sent.length + 1) = 0) (cs : List (Call β))
    (hcs : ∀ c ∈ cs, c.is_stop_rx = false) (e2 : thread_env) (callback2 ctx2 : Nat)
    (leave : hydrasdr_device β → hydrasdr_device β) :
    (hydrasdr_start_rx e callback ctx d).1.pipeline.streaming = true
      ∧ hydrasdr_is_streaming (hydrasdr_start_rx e callback ctx d).1 = 1
      ∧ ((∀ c ∈ cs, c.is_request = true) →
          ((hydrasdr_start_rx e callback ctx d).1.calls cs).pipeline.streaming = true)
      ∧ (((hydrasdr_start_rx e callback ctx d).1.calls cs).pipeline.streaming = true →
          hydrasdr_is_streaming ((hydrasdr_start_rx e callback ctx d).1.calls cs) = 1
            ∧ (hydrasdr_start_rx e2 callback2 ctx2
                ((hydrasdr_start_rx e callback ctx d).1.calls cs)).2 ≠ HYDRASDR_SUCCESS
            ∧ (hydrasdr_start_rx e2 callback2 ctx2
                ((hydrasdr_start_rx e callback ctx d).1.calls cs)).1.pipeline.streaming = true)
      ∧ (hydrasdr_stop_rx leave
          ((hydrasdr_start_rx e callback ctx d).1.calls cs)).1.pipeline.streaming = false
      ∧ hydrasdr_is_streaming
          (hydrasdr_stop_rx leave ((hydrasdr_start_rx e callback ctx d).1.calls cs)).1 = 0 := by
  have hstart : (hydrasdr_start_rx e callback ctx d).1.pipeline.streaming = true
      ∧ (hydrasdr_start_rx e callback ctx d).1.pipeline.stop_requested = false := by
    rw [start_rx_reaches_create_io_threads e callback ctx d h1 h2]
    exact create_io_threads_sets_streaming e callback _ hs hq
  have k2 : ((hydrasdr_start_rx e callback ctx d).1.calls cs).pipeline.stop_requested = false :=
    (calls_keep_stop_requested cs _ hcs).trans hstart.2
  obtain ⟨s1, s2, _, _, _, _⟩ := stop_rx_flags leave
    ((hydrasdr_start_rx e callback ctx d).1.calls cs)
  refine ⟨hstart.1, ?_, fun hreq => (requests_stay_streaming cs _ hreq hstart.1 hstart.2).1,
    fun k1 => ⟨?_, ?_, (start_rx_stays_streaming e2 callback2 ctx2 _ k1).1⟩, s1, ?_⟩
  · simp [hydrasdr_is_streaming, hstart.1, hstart.2]
  · simp [hydrasdr_is_streaming, k1, k2]
  · rcases (start_rx_stays_streaming e2 callback2 ctx2 _ k1).2.2 with r | r <;> rw [r] <;>
      decide
  · simp [hydrasdr_is_streaming, s1]

/-- Witness for C29: the second `pthread_create` fails; the consumer thread
runs on without ending the session, the application changes the sample
type, and a second start with a working environment fails. -/
theorem failed_start_leaves_streaming_set_witness :
    (hydrasdr_start_rx no_transfer_thread 7 2 idle_device).2 = HYDRASDR_ERROR_THREAD
      ∧ hydrasdr_is_streaming
          ((hydrasdr_start_rx no_transfer_thread 7 2 idle_device).1.calls
            [Call.threads id, Call.set_sample_type hydrasdr_sample_type.INT16_IQ]) = 1
      ∧ (hydrasdr_start_rx good_threads 8 3
          ((hydrasdr_start_rx no_transfer_thread 7 2 idle_device).1.calls
            [Call.threads id, Call.set_sample_type hydrasdr_sample_type.INT16_IQ])).2
        ≠ HYDRASDR_SUCCESS
      ∧ hydrasdr_is_streaming
          (hydrasdr_stop_rx id
            ((hydrasdr_start_rx no_transfer_thread 7 2 idle_device).1.calls
              [Call.threads id, Call.set_sample_type hydrasdr_sample_type.INT16_IQ])).1
        = 0 := by
  have h := failed_start_leaves_streaming_set no_transfer_thread 7 2 idle_device (by decide)
    (by decide) (by decide) (by decide)
    [Call.threads id, Call.set_sample_type hydrasdr_sample_type.INT16_IQ]
    (fun c hc => by
      simp only [List.mem_cons, List.mem_singleton, List.not_mem_nil, or_false] at hc
      rcases hc with rfl | rfl <;> rfl)
    good_threads 8 3 id
  have h4 := h.2.2.2.1 (by decide)
  exact ⟨by decide, h4.1, h4.2.1, h.2.2.2.2.2⟩

/-! ## The magnitude buffer of the FFT helper -/

theorem log_mag_targets_below (outputLength : Nat) :
    ((List.range outputLength).map fun i => (i + outputLength / 2) % outputLength).all
      (fun i => i < outputLength) = true := by
  simp only [List.all_eq_true, List.mem_map, List.mem_range, decide_eq_true_eq]
  rintro x ⟨i, hi, rfl⟩
  exact Nat.mod_lt _ (by omega)

theorem log_mag_alone_stays_inside (lengths : List Nat) :
    ∀ g : fft_globals,
      (g.fftSize = -1 ∨ ∃ n : Nat, g.fftSize = n ∧ g.outputMag = some (n / 2)) →
      ∀ length : Nat,
        within_capacity
            (performFFTAndLogMag length
              (lengths.foldl (fun s n => (performFFTAndLogMag n s).1) g)).1.outputMag
            (performFFTAndLogMag length
              (lengths.foldl (fun s n => (performFFTAndLogMag n s).1) g)).2 = true := by
  have step : ∀ (g : fft_globals) (length : Nat),
      (g.fftSize = -1 ∨ ∃ n : Nat, g.fftSize = n ∧ g.outputMag = some (n / 2)) →
      (performFFTAndLogMag length g).1.fftSize = length
        ∧ (performFFTAndLogMag length g).1.outputMag = some (length / 2) := by
    intro g length hg
    by_cases hc : g.fftSize = (length : Int)
    · rcases hg with h | ⟨n, h1, h2⟩
      · omega
      · have e : n = length := by omega
        subst e
        simp [performFFTAndLogMag, hc, h2]
    · simp [performFFTAndLogMag, hc]
  induction lengths with
  | nil =>
    intro g hg length
    obtain ⟨_, h2⟩ := step g length hg
    simp only [List.foldl_nil, h2, within_capacity]
    exact log_mag_targets_below (length / 2)
  | cons n lengths ih =>
    intro g hg length
    obtain ⟨h1, h2⟩ := step g n hg
    exact ih (performFFTAndLogMag n g).1 (Or.inr ⟨n, h1, h2⟩) length

/-- C30 fails on the code.  After `performFFT` on 8 elements the cached size
is 8 and `outputMag` is still `nullptr`, so `performFFTAndLogMag` on 8
elements allocates nothing and writes the indices 2, 3, 0, 1 through the
null pointer.  And after `performFFTAndLogMag` on 4 elements and
`performFFT` on 8, `performFFTAndLogMag` on 8 elements writes four values
into the buffer of 2 elements. -/
theorem log_mag_after_fft_overruns :
    (performFFT 8 fft_globals.initial).fftSize = 8
      ∧ (performFFTAndLogMag 8 (performFFT 8 fft_globals.initial)).1.outputMag = none
      ∧ (performFFTAndLogMag 8 (performFFT 8 fft_globals.initial)).2 = [2, 3, 0, 1]
      ∧ within_capacity (performFFTAndLogMag 8 (performFFT 8 fft_globals.initial)).1.outputMag
          (performFFTAndLogMag 8 (performFFT 8 fft_globals.initial)).2 = false
      ∧ (performFFTAndLogMag 8
          (performFFT 8 (performFFTAndLogMag 4 fft_globals.initial).1)).1.outputMag = some 2
      ∧ within_capacity
          (performFFTAndLogMag 8
            (performFFT 8 (performFFTAndLogMag 4 fft_globals.initial).1)).1.outputMag
          (performFFTAndLogMag 8
            (performFFT 8 (performFFTAndLogMag 4 fft_globals.initial).1)).2 = false
      ∧ within_capacity (performFFTAndLogMag 8 fft_globals.initial).1.outputMag
          (performFFTAndLogMag 8 fft_globals.initial).2 = true := by
  decide

end HydraSDR
